import Mathlib

/-! # Finance-Tracker-Backend: ledger aggregation and allocation engine

A shallow embedding of the service layer of the repository
(`src/services/goalService.js`, `src/services/budgetService.js`,
`src/services/transactionService.js`) together with the mongoose schemas it
works on (`src/models/*.js`) and the handlers of
`src/controllers/transactionController.js` that the properties mention.

Conventions of the embedding.

* The MongoDB collections are lists of documents in natural order; a
  `Model.find(query)` is a `List.filter` with the predicate the query denotes.
* Dates are integer millisecond timestamps. A number is a rational (`ℚ`): a
  finite JavaScript number is the rational it denotes. The functions that
  compute with numbers come in two forms. In the namespace `Rounded` every
  arithmetic operation of the source is the exact operation followed by the
  rounding `rnd` of the number format; with `rnd = binary64` (round to nearest,
  ties to even) this is the arithmetic of JavaScript on finite numbers. The
  functions under the plain source names are the same functions with exact
  arithmetic (`rnd = id`); the properties that are stated for exact amounts, or
  that do not depend on a rounded result, are proved of them. Numbers that are
  not finite (`NaN`, `Infinity`) are outside the model.
* An optional path of a document that can hold an explicit `null`
  (`recurrenceEndDate`, `recurrencePattern`) has three states: absent, `null`,
  or a value.
* Asynchronous functions that mutate a collection become functions from a
  store to a store.  `doc.save()` on a fetched document writes back the
  modified paths of the document whose `_id` matches.
* The `createdAt` / `updatedAt` bookkeeping stamps that the schema option
  `timestamps: true` adds are not part of the model.
* The process time zone is UTC, so the `Date` constructor and the `$month`
  operator read the same calendar.
* A date bound of a report filter is the instant that `new Date(...)` makes of
  the supplied value; values that do not denote a date are outside the model.
* A call to the record store succeeds unless a plan of faults says otherwise
  (`createTransactionWithFaults`).
-/

namespace FinanceTracker

/-- An identifier of a stored document or of a user (`mongoose.Types.ObjectId`). -/
abbrev ObjectId := Nat

/-- A point in time, in milliseconds since the epoch (`Date.getTime()`). -/
abbrev Timestamp := Int

/-- The `enum: ["income", "expense"]` of `transactionSchema.type`. -/
inductive TxType where
  | income
  | expense
  deriving DecidableEq, Repr

/-- The content of an optional path of a stored document or of a request body: the
path is not there at all, it holds an explicit `null`, or it holds a value. -/
inductive Nullable (α : Type) where
  | absent
  | null
  | value (a : α)
  deriving DecidableEq, Repr

/-- The value that a path holds, or `d` when it holds none. -/
def Nullable.getD {α : Type} (v : Nullable α) (d : α) : α :=
  match v with
  | Nullable.value a => a
  | _ => d

/-- The `enum: ["daily", "weekly", "monthly"]` of `transactionSchema.recurrencePattern`,
together with the schema default `""` (`unset`) and a stored `null`. -/
inductive RecurrencePattern where
  | unset
  | null
  | daily
  | weekly
  | monthly
  deriving DecidableEq, Repr

/-- A document of the `Transaction` collection (`src/models/transactionModel.js`). -/
structure Transaction where
  _id : ObjectId
  userId : ObjectId
  type : TxType
  amount : ℚ
  category : String
  date : Timestamp
  tags : List String
  notes : Option String
  isRecurring : Bool
  recurrencePattern : RecurrencePattern
  recurrenceEndDate : Nullable Timestamp
  deriving DecidableEq

/-- A document of the `Budget` collection (`src/models/budgetModel.js`). -/
structure Budget where
  _id : ObjectId
  userId : ObjectId
  category : Option String
  amount : ℚ
  startDate : Option Timestamp
  endDate : Option Timestamp
  deriving DecidableEq

/-- A document of the `Goal` collection (`src/models/goalModel.js`). -/
structure Goal where
  _id : ObjectId
  userId : ObjectId
  title : String
  targetAmount : ℚ
  currentAmount : ℚ
  deadline : Option Timestamp
  autoAllocate : Bool
  allocationPercentage : ℚ
  deriving DecidableEq

/-- The record store: the three collections the services read and write. -/
structure Store where
  transactions : List Transaction
  budgets : List Budget
  goals : List Goal
  deriving DecidableEq

/-- MongoDB keeps `_id` unique inside a collection. -/
def Store.UniqueGoalIds (s : Store) : Prop :=
  (s.goals.map Goal._id).Nodup

instance (s : Store) : Decidable s.UniqueGoalIds := by
  unfold Store.UniqueGoalIds; infer_instance

/-! ## Goal allocator (`src/services/goalService.js`) -/

/-- The query `Goal.find({ userId, autoAllocate: true })` of
`allocateSavingsAutomatically`. -/
def Goal.findAutoAllocate (s : Store) (userId : ObjectId) : List Goal :=
  s.goals.filter (fun g => decide (g.userId = userId) && g.autoAllocate)

/-- The write `goal.save()` after `goal.currentAmount += allocationAmount`: the
only modified path is `currentAmount`, which is set on the stored document with
the same `_id`. -/
def Goal.save (s : Store) (goal : Goal) : Store :=
  { s with goals := s.goals.map (fun stored =>
      if stored._id = goal._id then
        { stored with currentAmount := goal.currentAmount }
      else stored) }

/-- The body of the `for (const goal of goals)` loop of
`allocateSavingsAutomatically`, for a transaction of amount `amount`. -/
def allocateStep (amount : ℚ) (s : Store) (goal : Goal) : Store :=
  let allocationAmount := (amount * goal.allocationPercentage) / 100
  if goal.currentAmount + allocationAmount ≤ goal.targetAmount then
    Goal.save s { goal with currentAmount := goal.currentAmount + allocationAmount }
  else s

/-- The function `goalService.allocateSavingsAutomatically(transaction)`, as a
store transformer. -/
def allocateSavingsAutomatically (s : Store) (transaction : Transaction) : Store :=
  if transaction.type ≠ TxType.income ∨ transaction.amount ≤ 0 then s
  else
    let goals := Goal.findAutoAllocate s transaction.userId
    goals.foldl (allocateStep transaction.amount) s

/-- The stored goal with a given `_id`, if any. -/
def Store.goalById (s : Store) (id : ObjectId) : Option Goal :=
  s.goals.find? (fun g => decide (g._id = id))

/-- The effect of one loop iteration for the fetched document `goal` on one
stored document (a reading of `allocateStep`, used in the proofs). -/
def stepGoal (amount : ℚ) (goal stored : Goal) : Goal :=
  if stored._id = goal._id ∧
      goal.currentAmount + (amount * goal.allocationPercentage) / 100 ≤ goal.targetAmount then
    { stored with currentAmount := goal.currentAmount + (amount * goal.allocationPercentage) / 100 }
  else stored

/-- The effect of the whole loop over the fetched documents `snap` on one stored
document (used in the proofs). -/
def loopGoal (amount : ℚ) (snap : List Goal) (stored : Goal) : Goal :=
  match snap.find? (fun g => decide (g._id = stored._id)) with
  | some g => stepGoal amount g stored
  | none => stored

/-- The share of a transaction that a goal asks for:
`(amount * goal.allocationPercentage) / 100`. -/
def allocationShare (transaction : Transaction) (g : Goal) : ℚ :=
  (transaction.amount * g.allocationPercentage) / 100

/-- What `allocateSavingsAutomatically` does to one stored goal, in closed form;
`allocate_goals` proves that the loop computes exactly this. -/
def allocateGoal (transaction : Transaction) (g : Goal) : Goal :=
  if transaction.type = TxType.income ∧ 0 < transaction.amount ∧
      g.userId = transaction.userId ∧ g.autoAllocate = true ∧
      g.currentAmount + allocationShare transaction g ≤ g.targetAmount then
    { g with currentAmount := g.currentAmount + allocationShare transaction g }
  else g

/-! ## Ledger store (`src/services/transactionService.js`) -/

/-- The order of `.sort({ date: -1 })`: newest first. -/
def dateDesc (a b : Transaction) : Prop := b.date ≤ a.date

/-- The order of `.sort({ date: 1 })`: oldest first. -/
def dateAsc (a b : Transaction) : Prop := a.date ≤ b.date

instance : DecidableRel dateDesc := fun a b => inferInstanceAs (Decidable (b.date ≤ a.date))

instance : DecidableRel dateAsc := fun a b => inferInstanceAs (Decidable (a.date ≤ b.date))

instance : IsTotal Transaction dateDesc := ⟨fun a b => le_total b.date a.date⟩

instance : IsTrans Transaction dateDesc := ⟨fun _ _ _ hab hbc => le_trans hbc hab⟩

instance : IsTotal Transaction dateAsc := ⟨fun a b => le_total a.date b.date⟩

instance : IsTrans Transaction dateAsc := ⟨fun _ _ _ hab hbc => le_trans hab hbc⟩

/-- The function `transactionService.getAllTransactions()`:
`Transaction.find().sort({ date: -1 })`.  It is declared with an empty
parameter list and applies no filter. -/
def getAllTransactions (s : Store) : List Transaction :=
  s.transactions.insertionSort dateDesc

/-- A JavaScript call `f(a, b)` of a function that declares no parameters: the
two arguments are evaluated and dropped, the result is that of `f()`. -/
def callDroppingArgs {α β γ : Type} (result : γ) (_a : α) (_b : β) : γ := result

/-- Saving a new `Transaction` document: it is added to the collection. -/
def Store.insertTransaction (s : Store) (tx : Transaction) : Store :=
  { s with transactions := s.transactions ++ [tx] }

/-! ## Budget monitor (`src/services/budgetService.js`) -/

/-- The `date` part of a transactions query: `{ $gte, $lte }`, each optional. -/
structure DateQuery where
  gte : Option Timestamp
  lte : Option Timestamp
  deriving DecidableEq

/-- The object `transactionsQuery` that the budget service builds. -/
structure TransactionsQuery where
  userId : ObjectId
  category : Option String
  date : Option DateQuery
  deriving DecidableEq

/-- JavaScript truthiness of an optional string: absent, `null` and `""` are falsy. -/
def truthy (c : Option String) : Bool :=
  match c with
  | some v => v != ""
  | none => false

/-- The expression `budget.category || "overall"`. -/
def categoryLabel (budget : Budget) : String :=
  if truthy budget.category then budget.category.getD "" else "overall"

/-- The construction of `transactionsQuery` in `checkBudgetStatus` and in
`getBudgetRecommendations` (a `Date` object is always truthy, so a date bound is
used exactly when it is present). -/
def budgetTransactionsQuery (userId : ObjectId) (budget : Budget) : TransactionsQuery :=
  { userId := userId
    category := if truthy budget.category then budget.category else none
    date :=
      if budget.startDate.isSome || budget.endDate.isSome then
        some { gte := budget.startDate, lte := budget.endDate }
      else none }

/-- The transactions a `transactionsQuery` denotes as a MongoDB filter. -/
def TransactionsQuery.matches (q : TransactionsQuery) (tx : Transaction) : Bool :=
  decide (tx.userId = q.userId) &&
  (match q.category with
   | some c => decide (tx.category = c)
   | none => true) &&
  (match q.date with
   | some d =>
     (match d.gte with
      | some lo => decide (lo ≤ tx.date)
      | none => true) &&
     (match d.lte with
      | some hi => decide (tx.date ≤ hi)
      | none => true)
   | none => true)

/-- The value `totalSpent` computed in the loop body of `checkBudgetStatus` and
of `getBudgetRecommendations`: the query is built and handed to
`transactionService.getAllTransactions(userId, transactionsQuery)`, then the
expenses of the returned list are summed. -/
def budgetTotalSpent (s : Store) (userId : ObjectId) (budget : Budget) : ℚ :=
  let transactionsQuery := budgetTransactionsQuery userId budget
  let transactions := callDroppingArgs (getAllTransactions s) userId transactionsQuery
  (transactions.filter (fun tx => decide (tx.type = TxType.expense))).foldl
    (fun sum tx => sum + tx.amount) 0

/-- The notification for an exceeded budget. -/
def exceededNotification (budget : Budget) : String :=
  "Budget exceeded for " ++ categoryLabel budget ++ "!"

/-- The notification for a budget that is nearly used up. -/
def nearingNotification (budget : Budget) : String :=
  "You are nearing your budget for " ++ categoryLabel budget ++ "."

/-- The body of the `for (const budget of budgets)` loop of `checkBudgetStatus`. -/
def checkBudgetStatusStep (s : Store) (userId : ObjectId) (notifications : List String)
    (budget : Budget) : List String :=
  let totalSpent := budgetTotalSpent s userId budget
  if totalSpent ≥ budget.amount then
    notifications ++ [exceededNotification budget]
  else if totalSpent ≥ budget.amount * 0.8 then
    notifications ++ [nearingNotification budget]
  else notifications

/-- The query `Budget.find({ userId })`. -/
def Budget.findByUser (s : Store) (userId : ObjectId) : List Budget :=
  s.budgets.filter (fun b => decide (b.userId = userId))

/-- The function `budgetService.checkBudgetStatus(userId)`. -/
def checkBudgetStatus (s : Store) (userId : ObjectId) : List String :=
  let budgets := Budget.findByUser s userId
  budgets.foldl (checkBudgetStatusStep s userId) []

/-- The recommendation for a budget that is exceeded; `render` renders the number
`budget.amount` inside the template string. -/
def exceededRecommendation (render : ℚ → String) (budget : Budget) : String :=
  "You have exceeded your budget (" ++ render budget.amount ++ ") for " ++
    categoryLabel budget ++ ". " ++ "Consider increasing your budget or reducing expenses."

/-- The recommendation for a budget that is more than half used. -/
def overHalfRecommendation (budget : Budget) : String :=
  "You have used more than 50% of your budget (" ++ categoryLabel budget ++ "). " ++
    "Consider adjusting your budget or tracking expenses more carefully."

/-- The recommendation for a budget that is at most half used. -/
def underHalfRecommendation (budget : Budget) : String :=
  "You have used less than 50% of your budget for " ++ categoryLabel budget ++ ". " ++
    "You could potentially lower your budget or save more."

/-- The body of the `for (let budget of budgets)` loop of
`getBudgetRecommendations`. -/
def getBudgetRecommendationsStep (render : ℚ → String) (s : Store) (userId : ObjectId)
    (recommendations : List String) (budget : Budget) : List String :=
  let totalSpent := budgetTotalSpent s userId budget
  if totalSpent > budget.amount then
    recommendations ++ [exceededRecommendation render budget]
  else if totalSpent > budget.amount * 0.5 then
    recommendations ++ [overHalfRecommendation budget]
  else
    recommendations ++ [underHalfRecommendation budget]

/-- The function `budgetService.getBudgetRecommendations(userId)`; `render` is the
number-to-string conversion of the JavaScript runtime. -/
def getBudgetRecommendations (render : ℚ → String) (s : Store) (userId : ObjectId) :
    List String :=
  let budgets := Budget.findByUser s userId
  budgets.foldl (getBudgetRecommendationsStep render s userId) []

/-! ## Recurrence classifier (`sendTransactionNotification`) -/

/-- The clause `$or: [{ recurrenceEndDate: { $exists: false } },
{ recurrenceEndDate: { $gt: now } }]`: a document without the field satisfies the
first branch, a document with a date after `now` the second; a stored `null` is a
field that exists and does not compare greater than a date, so it satisfies
neither. -/
def recurrenceOpen (now : Timestamp) (tx : Transaction) : Bool :=
  match tx.recurrenceEndDate with
  | Nullable.absent => true
  | Nullable.null => false
  | Nullable.value e => decide (now < e)

/-- The result object `{ missed, upcoming }`. -/
structure RecurringBuckets where
  missed : List Transaction
  upcoming : List Transaction
  deriving DecidableEq

/-- The function `transactionService.sendTransactionNotification()`; `now` is the
value of `new Date()` read at its first line. -/
def sendTransactionNotification (s : Store) (now : Timestamp) : RecurringBuckets :=
  let upcomingThreshold := now + 24 * 60 * 60 * 1000
  let missedTransactions :=
    (s.transactions.filter (fun tx =>
      tx.isRecurring && decide (tx.date < now) && recurrenceOpen now tx)).insertionSort dateDesc
  let upcomingTransactions :=
    (s.transactions.filter (fun tx =>
      tx.isRecurring && (decide (now ≤ tx.date) && decide (tx.date ≤ upcomingThreshold)) &&
        recurrenceOpen now tx)).insertionSort dateAsc
  { missed := missedTransactions, upcoming := upcomingTransactions }

/-! ## Sample data -/

/-- A goal five units short of its target that asks for 10% of every income. -/
def bikeGoal : Goal :=
  { _id := 1, userId := 7, title := "Bike", targetAmount := 100, currentAmount := 95,
    deadline := none, autoAllocate := true, allocationPercentage := 10 }

/-- A goal with room for the share of the sample income. -/
def tripGoal : Goal :=
  { _id := 2, userId := 7, title := "Trip", targetAmount := 1000, currentAmount := 50,
    deadline := none, autoAllocate := true, allocationPercentage := 20 }

/-- A goal of another user. -/
def otherGoal : Goal :=
  { _id := 3, userId := 8, title := "Car", targetAmount := 500, currentAmount := 0,
    deadline := none, autoAllocate := true, allocationPercentage := 50 }

/-- A goal whose `currentAmount` was set above its target by a direct update. -/
def overfullGoal : Goal :=
  { _id := 4, userId := 7, title := "Laptop", targetAmount := 100, currentAmount := 150,
    deadline := none, autoAllocate := true, allocationPercentage := 10 }

/-- An income of 100 of user 7. -/
def salary : Transaction :=
  { _id := 1, userId := 7, type := TxType.income, amount := 100, category := "Salary",
    date := 0, tags := [], notes := none, isRecurring := false,
    recurrencePattern := RecurrencePattern.unset, recurrenceEndDate := Nullable.absent }

/-- A store with three goals. -/
def goalStore : Store :=
  { transactions := [], budgets := [], goals := [bikeGoal, tripGoal, otherGoal] }

/-- A store with only the goal that is five units short of its target. -/
def bikeStore : Store :=
  { transactions := [], budgets := [], goals := [bikeGoal] }

/-- A store that holds the overfull goal. -/
def overfullStore : Store :=
  { transactions := [], budgets := [], goals := [overfullGoal] }

/-! ## The total the specification describes, and sample ledgers -/

/-- The total that the specification describes for a budget: the sum of `amount`
over the stored expenses that the budget's query matches (owner, category when
the budget has one, date bounds when set).  It follows the specification's words,
for comparison with `budgetTotalSpent`. -/
def claimedTotalSpent (s : Store) (userId : ObjectId) (budget : Budget) : ℚ :=
  ((s.transactions.filter (fun tx =>
      decide (tx.type = TxType.expense) &&
        (budgetTransactionsQuery userId budget).matches tx)).map Transaction.amount).sum

/-- A budget of 100 of user 7 for the category Food, over the window 1000..2000. -/
def foodBudget : Budget :=
  { _id := 1, userId := 7, category := some "Food", amount := 100,
    startDate := some 1000, endDate := some 2000 }

/-- An expense of user 7 in the category Food at a given date. -/
def foodExpense (id : ObjectId) (amount : ℚ) (date : Timestamp) : Transaction :=
  { _id := id, userId := 7, type := TxType.expense, amount := amount, category := "Food",
    date := date, tags := [], notes := none, isRecurring := false,
    recurrencePattern := RecurrencePattern.unset, recurrenceEndDate := Nullable.absent }

/-- An expense of 500 of user 8 in the category Rent. -/
def rentOfOtherUser : Transaction :=
  { _id := 9, userId := 8, type := TxType.expense, amount := 500, category := "Rent",
    date := 1500, tags := [], notes := none, isRecurring := false,
    recurrencePattern := RecurrencePattern.unset, recurrenceEndDate := Nullable.absent }

/-- User 7 has a Food budget and no transaction; user 8 has paid a rent. -/
def rentStore : Store :=
  { transactions := [rentOfOtherUser], budgets := [foodBudget], goals := [] }

/-- User 7 has a Food budget of 100 and Food expenses of 60 and 30. -/
def foodStore : Store :=
  { transactions := [foodExpense 1 60 1100, foodExpense 2 30 1200],
    budgets := [foodBudget], goals := [] }

/-- User 7 has a Food budget of 100 and Food expenses of 60 and 40. -/
def exactStore : Store :=
  { transactions := [foodExpense 1 60 1100, foodExpense 2 40 1200],
    budgets := [foodBudget], goals := [] }

/-! ## Sample recurring ledger -/

/-- A recurring transaction of user 7 without `recurrenceEndDate`, at a given date. -/
def rentDue (id : ObjectId) (date : Timestamp) : Transaction :=
  { _id := id, userId := 7, type := TxType.expense, amount := 800, category := "Rent",
    date := date, tags := [], notes := none, isRecurring := true,
    recurrencePattern := RecurrencePattern.monthly, recurrenceEndDate := Nullable.absent }

/-- A ledger with recurring transactions one second before, 23 hours after and 25
hours after the instant 1000000000, and one transaction that is not recurring. -/
def recurringStore : Store :=
  { transactions :=
      [rentDue 1 (1000000000 - 1000), rentDue 2 (1000000000 + 23 * 60 * 60 * 1000),
        rentDue 3 (1000000000 + 25 * 60 * 60 * 1000),
        { rentDue 4 1000000000 with isRecurring := false }],
    budgets := [], goals := [] }

/-- A recurring monthly rent of user 7 stored with `recurrenceEndDate: null`, at a
given date. -/
def openEndedRent (date : Timestamp) : Transaction :=
  { _id := 1, userId := 7, type := TxType.expense, amount := 800, category := "Rent",
    date := date, tags := [], notes := none, isRecurring := true,
    recurrencePattern := RecurrencePattern.monthly, recurrenceEndDate := Nullable.null }

/-- A ledger whose only transaction is `openEndedRent date`. -/
def openEndedStore (date : Timestamp) : Store :=
  { transactions := [openEndedRent date], budgets := [], goals := [] }

/-- A ledger with two recurring transactions stored with `recurrenceEndDate: null`,
one second before and 23 hours after the instant 1000000000. -/
def openEndedPair : Store :=
  { transactions :=
      [openEndedRent (1000000000 - 1000), openEndedRent (1000000000 + 23 * 60 * 60 * 1000)],
    budgets := [], goals := [] }

/-! ## Ledger queries of the report functions (`src/services/transactionService.js`) -/

/-- A filter object handed to `Transaction.find` or to a `$match` stage by the
report functions; an absent field puts no condition on the documents. -/
structure LedgerQuery where
  userId : Option ObjectId
  type : Option TxType
  date : Option DateQuery
  category : Option String
  tagsIn : Option (List String)

/-- The documents a `LedgerQuery` denotes: equality on `userId`, `type` and
`category`, `$gte` / `$lte` on `date`, and `tags: { $in: list }`, which holds when
some element of the document's `tags` array is in the list. -/
def LedgerQuery.matches (q : LedgerQuery) (tx : Transaction) : Bool :=
  (match q.userId with
   | some u => decide (tx.userId = u)
   | none => true) &&
  (match q.type with
   | some t => decide (tx.type = t)
   | none => true) &&
  (match q.date with
   | some d =>
     (match d.gte with
      | some lo => decide (lo ≤ tx.date)
      | none => true) &&
     (match d.lte with
      | some hi => decide (tx.date ≤ hi)
      | none => true)
   | none => true) &&
  (match q.category with
   | some c => decide (tx.category = c)
   | none => true) &&
  (match q.tagsIn with
   | some l => tx.tags.any (fun t => decide (t ∈ l))
   | none => true)

/-- The call `Transaction.find(query)`, without a sort. -/
def Transaction.find (s : Store) (q : LedgerQuery) : List Transaction :=
  s.transactions.filter q.matches

/-- The `filters` argument of the report functions. A date bound is absent or the
instant that `new Date(...)` makes of the supplied value; `category` and `tags`
are the raw strings, `tags` being a comma-separated list. -/
structure ReportFilters where
  startDate : Option Timestamp
  endDate : Option Timestamp
  category : Option String
  tags : Option String

/-- The expression `tags.split(",")`. -/
def splitComma (tags : String) : List String :=
  tags.splitOn ","

/-- The characters that `String.prototype.trim` removes: the white space and the
line terminators of ECMAScript (tab, line feed, vertical tab, form feed, carriage
return, space, no-break space, the Unicode space separators, line and paragraph
separator, and the byte order mark). -/
def isJsWhiteSpace (c : Char) : Bool :=
  decide (c.toNat ∈ [0x9, 0xA, 0xB, 0xC, 0xD, 0x20, 0xA0, 0x1680, 0x2028, 0x2029, 0x202F,
    0x205F, 0x3000, 0xFEFF]) || (decide (0x2000 ≤ c.toNat) && decide (c.toNat ≤ 0x200A))

/-- The method `String.prototype.trim`. -/
def jsTrim (text : String) : String :=
  String.mk (((text.toList.dropWhile isJsWhiteSpace).reverse.dropWhile isJsWhiteSpace).reverse)

/-- The expression `tags.split(",").map((tag) => tag.trim())`. -/
def splitCommaTrim (tags : String) : List String :=
  (tags.splitOn ",").map jsTrim

/-- The result object of `generateFinancialReport`. -/
structure FinancialReport where
  totalIncome : ℚ
  totalExpenses : ℚ
  balance : ℚ
  transactions : List Transaction
  deriving DecidableEq

/-- The query that `generateFinancialReport` builds from its filters: the date
range only when both bounds are truthy, the category and the tags when truthy. -/
def reportQuery (filters : ReportFilters) : LedgerQuery :=
  { userId := none
    type := none
    date :=
      if filters.startDate.isSome && filters.endDate.isSome then
        some { gte := filters.startDate, lte := filters.endDate }
      else none
    category := if truthy filters.category then filters.category else none
    tagsIn := if truthy filters.tags then some (splitComma (filters.tags.getD "")) else none }

/-- The body of `transactions.forEach` in `generateFinancialReport` and in
`calculateMonthlyBudget`, on the pair `(totalIncome, totalExpenses)`. -/
def totalsStep (totals : ℚ × ℚ) (tx : Transaction) : ℚ × ℚ :=
  let totalIncome := if tx.type = TxType.income then totals.1 + tx.amount else totals.1
  let totalExpenses := if tx.type = TxType.expense then totals.2 + tx.amount else totals.2
  (totalIncome, totalExpenses)

/-- The function `transactionService.generateFinancialReport(filters)`. -/
def generateFinancialReport (s : Store) (filters : ReportFilters) : FinancialReport :=
  let query := reportQuery filters
  let transactions := Transaction.find s query
  let totals := transactions.foldl totalsStep (0, 0)
  { totalIncome := totals.1
    totalExpenses := totals.2
    balance := totals.1 - totals.2
    transactions := transactions }

/-- The handler `transactionController.generateFinancialReport`: it hands
`req.query` to the service and answers 200 with the report; `reqUser` is the
authenticated `req.user.id`, which the handler does not read. -/
def handleGenerateFinancialReport (s : Store) (_reqUser : ObjectId) (query : ReportFilters) :
    Nat × FinancialReport :=
  (200, generateFinancialReport s query)

/-! ## Calendar (the `Date` constructor and the `$month` operator, in UTC) -/

/-- Milliseconds per day. -/
def msPerDay : Int := 86400000

/-- The day number (days since 1970-01-01) of the civil date `y`-`m`-`d`, `m` in
`1..12`, in the proleptic Gregorian calendar. -/
def daysFromCivil (y m d : Int) : Int :=
  let y1 := if m ≤ 2 then y - 1 else y
  let era := y1 / 400
  let yoe := y1 - era * 400
  let mp := if m > 2 then m - 3 else m + 9
  let doy := (153 * mp + 2) / 5 + d - 1
  let doe := yoe * 365 + yoe / 4 - yoe / 100 + doy
  era * 146097 + doe - 719468

/-- The constructor `new Date(year, monthIndex, day, hours, minutes, seconds)`:
a year in `0..99` means `1900 + year`, a month index outside `0..11` carries into
the year, and the day counts from the first of the month, so day `0` is the last
day of the month before. -/
def newDate (year monthIndex day hours minutes seconds : Int) : Timestamp :=
  let yr := if 0 ≤ year ∧ year ≤ 99 then 1900 + year else year
  let ym := yr + monthIndex / 12
  let mn := monthIndex % 12
  let days := daysFromCivil ym (mn + 1) 1 + day - 1
  days * msPerDay + (hours * 3600000 + minutes * 60000 + seconds * 1000)

/-- The civil date `(year, month, day)` of a day number, `month` in `1..12`. -/
def civilFromDays (days : Int) : Int × Int × Int :=
  let z := days + 719468
  let era := z / 146097
  let doe := z - era * 146097
  let yoe := (doe - doe / 1460 + doe / 36524 - doe / 146096) / 365
  let doy := doe - (365 * yoe + yoe / 4 - yoe / 100)
  let mp := (5 * doy + 2) / 153
  let d := doy - (153 * mp + 2) / 5 + 1
  let m := if mp < 10 then mp + 3 else mp - 9
  let y := yoe + era * 400
  (if m ≤ 2 then y + 1 else y, m, d)

/-- The year of an instant. -/
def yearOf (t : Timestamp) : Int := (civilFromDays (t / msPerDay)).1

/-- The month number of an instant, as `{ $month: "$date" }` gives it. -/
def monthOf (t : Timestamp) : Int := (civilFromDays (t / msPerDay)).2.1

/-! ## Monthly budget usage (`calculateMonthlyBudget`) -/

/-- The result object of `calculateMonthlyBudget`. -/
structure MonthlyBudget where
  totalIncome : ℚ
  totalExpenses : ℚ
  remainingBudget : ℚ
  budgetExceeded : Bool
  recommendation : String
  deriving DecidableEq

/-- The text for an exceeded monthly budget; `overage` is the rendering of
`Math.abs(remainingBudget)`. -/
def exceededByText (overage : String) : String :=
  "Budget exceeded by " ++ overage ++ ". " ++
    "Consider reducing expenses in non-essential categories."

/-- The text for a monthly budget that is nearly used up. -/
def nearingLimitText (remaining : String) : String :=
  "You are nearing your budget limit. Remaining: " ++ remaining

/-- The text for a monthly budget with room left. -/
def withinBudgetText : String := "You are within budget!"

/-- The window `[startDate, endDate]` of `calculateMonthlyBudget`:
`new Date(year, month - 1, 1)` and `new Date(year, month, 0, 23, 59, 59)`. -/
def monthlyWindow (month year : Int) : Timestamp × Timestamp :=
  (newDate year (month - 1) 1 0 0 0, newDate year month 0 23 59 59)

/-- The function `transactionService.calculateMonthlyBudget(budget, month, year)`;
`render` is the number-to-string conversion of the JavaScript runtime. -/
def calculateMonthlyBudget (render : ℚ → String) (s : Store) (budget : ℚ) (month year : Int) :
    MonthlyBudget :=
  let startDate := (monthlyWindow month year).1
  let endDate := (monthlyWindow month year).2
  let transactions := Transaction.find s
    { userId := none, type := none, date := some { gte := some startDate, lte := some endDate },
      category := none, tagsIn := none }
  let totals := transactions.foldl totalsStep (0, 0)
  let totalIncome := totals.1
  let totalExpenses := totals.2
  let remainingBudget := budget - totalExpenses
  let budgetExceeded := decide (remainingBudget < 0)
  let recommendation :=
    if budgetExceeded then exceededByText (render |remainingBudget|)
    else if remainingBudget < budget * 0.2 then nearingLimitText (render remainingBudget)
    else withinBudgetText
  { totalIncome := totalIncome
    totalExpenses := totalExpenses
    remainingBudget := remainingBudget
    budgetExceeded := budgetExceeded
    recommendation := recommendation }

/-! ## Sample ledgers for the reports -/

/-- The empty filter: no date bound, no category, no tags. -/
def noFilter : ReportFilters :=
  { startDate := none, endDate := none, category := none, tags := none }

/-- A ledger that holds one Food expense of 60 of user 7. -/
def ownStore : Store :=
  { transactions := [foodExpense 1 60 1100], budgets := [], goals := [] }

/-- The same ledger with one more transaction, a rent of 500 paid by user 8. -/
def mixedStore : Store :=
  { transactions := [foodExpense 1 60 1100, rentOfOtherUser], budgets := [], goals := [] }

/-- A filter for the window 1000..2000 and the category Food. -/
def foodFilter : ReportFilters :=
  { startDate := some 1000, endDate := some 2000, category := some "Food", tags := none }

/-- A ledger whose only transaction is an expense of 520 dated
2025-03-31T23:59:59.500Z, half a second before the end of March 2025. -/
def lastSecondStore : Store :=
  { transactions := [foodExpense 1 520 1743465599500], budgets := [], goals := [] }

/-- A ledger with expenses of 300 and 220 dated 2025-03-05 and 2025-03-20 (noon,
UTC) and an income of 1000 dated 2025-03-01. -/
def marchStore : Store :=
  { transactions :=
      [foodExpense 1 300 1741176000000, foodExpense 2 220 1742472000000,
        { salary with amount := 1000, date := 1740830400000 }],
    budgets := [], goals := [] }


/-! ## Aggregations (`getSpendingTrends`, `getIncomeVsExpenses`) -/

/-- One document entering the stage `{ $group: { _id: key, total: { $sum: "$amount" } } }`:
its amount is added to the accumulator of its key, which starts at 0 when the key
is new. -/
def groupStep {κ : Type} [DecidableEq κ] (key : Transaction → κ) (groups : List (κ × ℚ))
    (tx : Transaction) : List (κ × ℚ) :=
  if groups.any (fun g => decide (g.1 = key tx)) then
    groups.map (fun g => if g.1 = key tx then (g.1, g.2 + tx.amount) else g)
  else groups ++ [(key tx, 0 + tx.amount)]

/-- The stage `$group` with a `$sum` of `amount`: one output per distinct key. -/
def groupSum {κ : Type} [DecidableEq κ] (key : Transaction → κ) (docs : List Transaction) :
    List (κ × ℚ) :=
  docs.foldl (groupStep key) []

/-- An element `{ _id, totalSpent }` of the result of `getSpendingTrends`. -/
structure TrendEntry where
  _id : Int
  totalSpent : ℚ
  deriving DecidableEq

/-- The object `match` that `getSpendingTrends` builds: owner, type expense, each
supplied date bound, the category and the trimmed tags when truthy. -/
def trendsMatch (userId : ObjectId) (filters : ReportFilters) : LedgerQuery :=
  { userId := some userId
    type := some TxType.expense
    date :=
      if filters.startDate.isSome || filters.endDate.isSome then
        some { gte := filters.startDate, lte := filters.endDate }
      else none
    category := if truthy filters.category then filters.category else none
    tagsIn :=
      if truthy filters.tags then some (splitCommaTrim (filters.tags.getD "")) else none }

/-- The order of `{ $sort: { "_id": 1 } }` on the groups. -/
def groupKeyAsc (a b : Int × ℚ) : Prop := a.1 ≤ b.1

instance : DecidableRel groupKeyAsc := fun a b => inferInstanceAs (Decidable (a.1 ≤ b.1))

instance : IsTotal (Int × ℚ) groupKeyAsc := ⟨fun a b => le_total a.1 b.1⟩

instance : IsTrans (Int × ℚ) groupKeyAsc := ⟨fun _ _ _ hab hbc => le_trans hab hbc⟩

/-- The function `transactionService.getSpendingTrends(userId, filters)`: the
pipeline `$match`, `$group` by `{ $month: "$date" }` with `$sum` of `amount`,
`$sort` by `_id` ascending. -/
def getSpendingTrends (s : Store) (userId : ObjectId) (filters : ReportFilters) :
    List TrendEntry :=
  let matched := s.transactions.filter (trendsMatch userId filters).matches
  let grouped := groupSum (fun tx => monthOf tx.date) matched
  (grouped.insertionSort groupKeyAsc).map
    (fun g => { _id := g.1, totalSpent := g.2 })

/-- The result object `{ income, expense }` of `getIncomeVsExpenses`. -/
structure IncomeVsExpenses where
  income : ℚ
  expense : ℚ
  deriving DecidableEq

/-- The object `match` that `getIncomeVsExpenses` builds: owner, each supplied date
bound, the category and the trimmed tags when truthy. -/
def incomeVsExpensesMatch (userId : ObjectId) (filters : ReportFilters) : LedgerQuery :=
  { userId := some userId
    type := none
    date :=
      if filters.startDate.isSome || filters.endDate.isSome then
        some { gte := filters.startDate, lte := filters.endDate }
      else none
    category := if truthy filters.category then filters.category else none
    tagsIn :=
      if truthy filters.tags then some (splitCommaTrim (filters.tags.getD "")) else none }

/-- The body of `data.forEach` in `getIncomeVsExpenses`, on the pair
`(income, expense)`. -/
def summarizeStep (acc : ℚ × ℚ) (d : TxType × ℚ) : ℚ × ℚ :=
  let income := if d.1 = TxType.income then d.2 else acc.1
  let expense := if d.1 = TxType.expense then d.2 else acc.2
  (income, expense)

/-- The function `transactionService.getIncomeVsExpenses(userId, filters)`: the
pipeline `$match`, `$group` by `"$type"` with `$sum` of `amount`, then the loop
that picks the two totals. -/
def getIncomeVsExpenses (s : Store) (userId : ObjectId) (filters : ReportFilters) :
    IncomeVsExpenses :=
  let matched := s.transactions.filter (incomeVsExpensesMatch userId filters).matches
  let data := groupSum (fun tx => tx.type) matched
  let totals := data.foldl summarizeStep (0, 0)
  { income := totals.1, expense := totals.2 }

/-- A ledger of user 7 with expenses in March 2025 (300 and 220), one in March
2024 (50) and one in April 2025 (40), an income in March 2025, and an expense of
user 8 in March 2025. -/
def trendStore : Store :=
  { transactions :=
      [foodExpense 1 300 1741176000000, foodExpense 2 40 1744200000000,
        foodExpense 3 220 1742472000000, foodExpense 4 50 1709640000000,
        { salary with amount := 1000, date := 1740830400000 },
        { rentOfOtherUser with date := 1741176000000 }],
    budgets := [], goals := [] }

/-- A ledger of user 7 with an expense of 1 tagged `a`, an expense of 2 tagged `b`
and an income of 32 tagged `c`. -/
def taggedStore : Store :=
  { transactions :=
      [{ foodExpense 1 1 1100 with tags := ["a"] }, { foodExpense 2 2 1200 with tags := ["b"] },
        { salary with amount := 32, tags := ["c"] }],
    budgets := [], goals := [] }

/-- The filter `tags = "a,b\u00a0"`: the second tag is followed by a no-break space. -/
def noBreakSpaceFilter : ReportFilters :=
  { startDate := none, endDate := none, category := none, tags := some "a,b\u00a0" }

/-- The sum of the accumulators stored under a key (there is at most one). -/
def groupTotal {κ : Type} [DecidableEq κ] (k : κ) (groups : List (κ × ℚ)) : ℚ :=
  ((groups.filter (fun g => decide (g.1 = k))).map Prod.snd).sum

/-- The sum of the amounts of the documents with a given key. -/
def keyTotal {κ : Type} [DecidableEq κ] (key : Transaction → κ) (k : κ)
    (docs : List Transaction) : ℚ :=
  ((docs.filter (fun tx => decide (key tx = k))).map Transaction.amount).sum


/-! ## Creating a transaction (`createTransaction`, `transactionSchema`) -/

/-- The `data` argument of `createTransaction` (the request body): every field may
be absent; `tags` is the array, empty when absent; the two recurrence fields may
also be an explicit `null` (for `recurrenceEndDate`, the empty string is cast to
`null` as well). -/
structure TransactionData where
  type : Option String
  amount : Option ℚ
  category : Option String
  date : Option Timestamp
  tags : List String
  notes : Option String
  isRecurring : Option Bool
  recurrencePattern : Nullable String
  recurrenceEndDate : Nullable Timestamp

/-- The errors that the service functions raise: a mongoose `ValidationError` with
the paths that failed, a failed call to the record store, a `CastError` for a
value that cannot be cast to the type of its path, and an `Error` thrown with a
message. -/
inductive SaveError where
  | validation (paths : List String)
  | unavailable
  | cast (path : String)
  | thrown (message : String)
  deriving DecidableEq

/-- The `enum: ["income", "expense"]` validator of `type`. -/
def castTxType (v : String) : Option TxType :=
  if v = "income" then some TxType.income
  else if v = "expense" then some TxType.expense
  else none

/-- The `enum: ["daily", "weekly", "monthly"]` validator of `recurrencePattern`. -/
def castRecurrencePattern (v : String) : Option RecurrencePattern :=
  if v = "daily" then some RecurrencePattern.daily
  else if v = "weekly" then some RecurrencePattern.weekly
  else if v = "monthly" then some RecurrencePattern.monthly
  else none

/-- The paths of `transactionSchema` that fail validation for an input: `type` is
required and must be in its enum, `amount` is required (the schema sets no
minimum), `category` is required (an empty string does not satisfy `required`),
and `recurrencePattern`, which takes the schema default `""` when absent, must be
in its enum (a defaulted path is validated like a supplied one, and `""` is not a
member of the enum; the enum validator lets an explicit `null` pass); `userId` is
set by the service. -/
def invalidPaths (data : TransactionData) : List String :=
  (if (data.type.bind castTxType).isNone then ["type"] else []) ++
  (if data.amount.isNone then ["amount"] else []) ++
  (if truthy data.category then [] else ["category"]) ++
  (match data.recurrencePattern with
   | Nullable.null => []
   | _ =>
     if (castRecurrencePattern (data.recurrencePattern.getD "")).isNone then
       ["recurrencePattern"] else [])

/-- The document `new Transaction(data)` with `data.userId = userId`: absent fields
take the schema defaults (`date` the current instant, `isRecurring` false,
`recurrencePattern` the empty string); an explicit `null` is kept as it is. -/
def newTransaction (newId : ObjectId) (now : Timestamp) (userId : ObjectId)
    (data : TransactionData) : Transaction :=
  { _id := newId
    userId := userId
    type := (data.type.bind castTxType).getD TxType.expense
    amount := data.amount.getD 0
    category := data.category.getD ""
    date := data.date.getD now
    tags := data.tags
    notes := data.notes
    isRecurring := data.isRecurring.getD false
    recurrencePattern :=
      match data.recurrencePattern with
      | Nullable.null => RecurrencePattern.null
      | _ =>
        (castRecurrencePattern (data.recurrencePattern.getD "")).getD RecurrencePattern.unset
    recurrenceEndDate := data.recurrenceEndDate }

/-- The function `transactionService.createTransaction(userId, data)`: the new
store and the outcome. `newId` is the identifier MongoDB gives the document and
`now` the current instant. A document that fails validation is not saved. -/
def createTransaction (s : Store) (newId : ObjectId) (now : Timestamp) (userId : ObjectId)
    (data : TransactionData) : Store × Except SaveError Transaction :=
  let newTx := newTransaction newId now userId data
  if invalidPaths data ≠ [] then (s, Except.error (SaveError.validation (invalidPaths data)))
  else
    let saved := s.insertTransaction newTx
    let savedTx := newTx
    if savedTx.type = TxType.income then
      (allocateSavingsAutomatically saved savedTx, Except.ok savedTx)
    else (saved, Except.ok savedTx)

/-- An empty store. -/
def emptyStore : Store := { transactions := [], budgets := [], goals := [] }

/-- A request body for a monthly Food expense of `-5`. -/
def negativeExpenseData : TransactionData :=
  { type := some "expense", amount := some (-5), category := some "Food", date := some 1100,
    tags := [], notes := none, isRecurring := some true, recurrencePattern := Nullable.value "monthly",
    recurrenceEndDate := Nullable.absent }

/-- The document that the request body `negativeExpenseData` of user 7 becomes. -/
def negativeExpense : Transaction :=
  { _id := 1, userId := 7, type := TxType.expense, amount := -5, category := "Food",
    date := 1100, tags := [], notes := none, isRecurring := true,
    recurrencePattern := RecurrencePattern.monthly, recurrenceEndDate := Nullable.absent }

/-- A request body for a recurring monthly rent of 800 at a given date, with
`recurrenceEndDate: null`. -/
def openEndedRentData (date : Timestamp) : TransactionData :=
  { type := some "expense", amount := some 800, category := some "Rent", date := some date,
    tags := [], notes := none, isRecurring := some true,
    recurrencePattern := Nullable.value "monthly", recurrenceEndDate := Nullable.null }


/-! ## Identifiers in requests, point updates (`getTransactionById`,
`updateTransactionTags`, `updateTransaction`, `deleteTransaction`) -/

/-- The value of a hexadecimal digit. -/
def hexValue (c : Char) : Option Nat :=
  if '0' ≤ c ∧ c ≤ '9' then some (c.toNat - '0'.toNat)
  else if 'a' ≤ c ∧ c ≤ 'f' then some (c.toNat - 'a'.toNat + 10)
  else if 'A' ≤ c ∧ c ≤ 'F' then some (c.toNat - 'A'.toNat + 10)
  else none

/-- The identifier that a request string denotes: a string of 24 hexadecimal
digits is a well-formed object identifier, every other string is not. -/
def parseObjectId (text : String) : Option ObjectId :=
  if text.length = 24 then
    text.toList.foldl
      (fun acc c =>
        match acc, hexValue c with
        | some n, some d => some (16 * n + d)
        | _, _ => none)
      (some 0)
  else none

/-- The test `mongoose.Types.ObjectId.isValid(id)`. -/
def isValidObjectId (text : String) : Bool :=
  (parseObjectId text).isSome

/-- The call `Transaction.findById(id)`: the first stored document with that id. -/
def Transaction.findById (s : Store) (id : ObjectId) : Option Transaction :=
  s.transactions.find? (fun t => decide (t._id = id))

/-- The rewriting of the first document with a given id. -/
def updateFirstById (id : ObjectId) (f : Transaction → Transaction) :
    List Transaction → List Transaction
  | [] => []
  | t :: rest => if t._id = id then f t :: rest else t :: updateFirstById id f rest

/-- The `data` argument of `updateTransaction` (the request body): the fields to
set; an absent field is left as it is stored; the two recurrence fields may also
be an explicit `null`. -/
structure TransactionUpdate where
  userId : Option ObjectId
  type : Option String
  amount : Option ℚ
  category : Option String
  date : Option Timestamp
  tags : Option (List String)
  notes : Option String
  isRecurring : Option Bool
  recurrencePattern : Nullable String
  recurrenceEndDate : Nullable Timestamp

/-- The update `{ tags }` of `updateTransactionTags`. -/
def tagsUpdate (tags : List String) : TransactionUpdate :=
  { userId := none, type := none, amount := none, category := none, date := none,
    tags := some tags, notes := none, isRecurring := none, recurrencePattern := Nullable.absent,
    recurrenceEndDate := Nullable.absent }

/-- The paths that fail the update validators (`runValidators: true`): only the
paths present in the update are validated, `type` and `recurrencePattern` against
their enums (which an explicit `null` passes) and `category` against `required`. -/
def invalidUpdatePaths (data : TransactionUpdate) : List String :=
  (match data.type with
   | some v => if (castTxType v).isNone then ["type"] else []
   | none => []) ++
  (match data.category with
   | some v => if v = "" then ["category"] else []
   | none => []) ++
  (match data.recurrencePattern with
   | Nullable.value v => if (castRecurrencePattern v).isNone then ["recurrencePattern"] else []
   | _ => [])

/-- The stored document after the `$set` of the supplied fields. -/
def applyUpdate (data : TransactionUpdate) (t : Transaction) : Transaction :=
  { _id := t._id
    userId := data.userId.getD t.userId
    type := (data.type.bind castTxType).getD t.type
    amount := data.amount.getD t.amount
    category := data.category.getD t.category
    date := data.date.getD t.date
    tags := data.tags.getD t.tags
    notes := match data.notes with
      | some n => some n
      | none => t.notes
    isRecurring := data.isRecurring.getD t.isRecurring
    recurrencePattern := match data.recurrencePattern with
      | Nullable.absent => t.recurrencePattern
      | Nullable.null => RecurrencePattern.null
      | Nullable.value v => (castRecurrencePattern v).getD t.recurrencePattern
    recurrenceEndDate := match data.recurrenceEndDate with
      | Nullable.absent => t.recurrenceEndDate
      | e => e }

/-- The call `Transaction.findByIdAndUpdate(id, data, { new: true, runValidators:
true })`: the update validators run first; then the first document with the id,
if there is one, is rewritten and returned in its new state; without such a
document the result is `null` and nothing changes. -/
def Transaction.findByIdAndUpdate (s : Store) (id : ObjectId) (data : TransactionUpdate) :
    Store × Except SaveError (Option Transaction) :=
  if invalidUpdatePaths data ≠ [] then
    (s, Except.error (SaveError.validation (invalidUpdatePaths data)))
  else
    match Transaction.findById s id with
    | none => (s, Except.ok none)
    | some t =>
      ({ s with transactions := updateFirstById id (applyUpdate data) s.transactions },
        Except.ok (some (applyUpdate data t)))

/-- The function `transactionService.getTransactionById(transactionId)`. -/
def getTransactionById (s : Store) (transactionId : String) : Option Transaction :=
  match parseObjectId transactionId with
  | none => none
  | some id => Transaction.findById s id

/-- The function `transactionService.updateTransactionTags(transactionId, tags)`. -/
def updateTransactionTags (s : Store) (transactionId : String) (tags : List String) :
    Store × Except SaveError (Option Transaction) :=
  match parseObjectId transactionId with
  | none => (s, Except.ok none)
  | some id => Transaction.findByIdAndUpdate s id (tagsUpdate tags)

/-- The function `transactionService.updateTransaction(transactionId, data)`. -/
def updateTransaction (s : Store) (transactionId : String) (data : TransactionUpdate) :
    Store × Except SaveError (Option Transaction) :=
  match parseObjectId transactionId with
  | none => (s, Except.error (SaveError.thrown "Invalid transaction ID."))
  | some id => Transaction.findByIdAndUpdate s id data

/-- The function `transactionService.deleteTransaction(transactionId)`:
`findOneAndDelete({ _id: transactionId })`, which fails to cast a string that is
not an object identifier. -/
def deleteTransaction (s : Store) (transactionId : String) :
    Store × Except SaveError (Option Transaction) :=
  match parseObjectId transactionId with
  | none => (s, Except.error (SaveError.cast "_id"))
  | some id =>
    match Transaction.findById s id with
    | none => (s, Except.ok none)
    | some t => ({ s with transactions := s.transactions.erase t }, Except.ok (some t))

/-- MongoDB keeps `_id` unique inside the transaction collection. -/
def Store.UniqueTransactionIds (s : Store) : Prop :=
  (s.transactions.map Transaction._id).Nodup

instance (s : Store) : Decidable s.UniqueTransactionIds := by
  unfold Store.UniqueTransactionIds; infer_instance

/-- The identifier string of the document with `_id = 1`. -/
def idOne : String := "000000000000000000000001"

/-- A stored transaction of user 7 that is not recurring and carries the pattern
`monthly`, as `createTransaction` accepts it. -/
def plainMonthly : Transaction :=
  { _id := 1, userId := 7, type := TxType.expense, amount := 60, category := "Food",
    date := 1100, tags := ["lunch"], notes := none, isRecurring := false,
    recurrencePattern := RecurrencePattern.monthly, recurrenceEndDate := Nullable.absent }

/-- A store that holds `plainMonthly` and a rent of user 8. -/
def monthlyStore : Store :=
  { transactions := [plainMonthly, rentOfOtherUser], budgets := [], goals := [] }

/-- The update `{ isRecurring: true }`. -/
def makeRecurring : TransactionUpdate :=
  { userId := none, type := none, amount := none, category := none, date := none,
    tags := none, notes := none, isRecurring := some true, recurrencePattern := Nullable.absent,
    recurrenceEndDate := Nullable.absent }

/-- The update `{ isRecurring: true, recurrencePattern: null }`. -/
def makePatternless : TransactionUpdate :=
  { userId := none, type := none, amount := none, category := none, date := none,
    tags := none, notes := none, isRecurring := some true, recurrencePattern := Nullable.null,
    recurrenceEndDate := Nullable.absent }

/-- A request body for a recurring Food expense of 60 with `recurrencePattern: null`. -/
def patternlessData : TransactionData :=
  { type := some "expense", amount := some 60, category := some "Food", date := some 1100,
    tags := [], notes := none, isRecurring := some true, recurrencePattern := Nullable.null,
    recurrenceEndDate := Nullable.absent }

/-- The document that the request body `patternlessData` of user 7 becomes. -/
def patternless : Transaction :=
  { _id := 1, userId := 7, type := TxType.expense, amount := 60, category := "Food",
    date := 1100, tags := [], notes := none, isRecurring := true,
    recurrencePattern := RecurrencePattern.null, recurrenceEndDate := Nullable.absent }


/-! ## Creating and updating a budget (`createBudget`, `updateBudget`) -/

/-- The `data` argument of `createBudget` (the request body). -/
structure BudgetData where
  category : Option String
  amount : Option ℚ
  startDate : Option Timestamp
  endDate : Option Timestamp

/-- The function `budgetService.createBudget(userId, data)`: `budgetSchema` requires
`amount` and nothing else of the input; `category` defaults to `null` and
`startDate` to the current instant. -/
def createBudget (s : Store) (newId : ObjectId) (now : Timestamp) (userId : ObjectId)
    (data : BudgetData) : Store × Except SaveError Budget :=
  match data.amount with
  | none => (s, Except.error (SaveError.validation ["amount"]))
  | some amount =>
    let budget : Budget :=
      { _id := newId, userId := userId, category := data.category, amount := amount,
        startDate := some (data.startDate.getD now), endDate := data.endDate }
    ({ s with budgets := s.budgets ++ [budget] }, Except.ok budget)

/-- The stored budget after the `$set` of the supplied fields. -/
def applyBudgetUpdate (data : BudgetData) (b : Budget) : Budget :=
  { _id := b._id
    userId := b.userId
    category := match data.category with
      | some c => some c
      | none => b.category
    amount := data.amount.getD b.amount
    startDate := match data.startDate with
      | some d => some d
      | none => b.startDate
    endDate := match data.endDate with
      | some d => some d
      | none => b.endDate }

/-- The rewriting of the first budget with a given id and owner. -/
def updateFirstBudget (userId budgetId : ObjectId) (f : Budget → Budget) :
    List Budget → List Budget
  | [] => []
  | b :: rest =>
    if b._id = budgetId ∧ b.userId = userId then f b :: rest
    else b :: updateFirstBudget userId budgetId f rest

/-- The function `budgetService.updateBudget(userId, budgetId, data)`:
`Budget.findOneAndUpdate({ _id: budgetId, userId }, data, { new: true })`, which
runs no validator. -/
def updateBudget (s : Store) (userId budgetId : ObjectId) (data : BudgetData) :
    Store × Option Budget :=
  match s.budgets.find? (fun b => decide (b._id = budgetId ∧ b.userId = userId)) with
  | none => (s, none)
  | some b =>
    ({ s with budgets := updateFirstBudget userId budgetId (applyBudgetUpdate data) s.budgets },
      some (applyBudgetUpdate data b))

/-- A request body for a budget of 100 whose window ends before it starts. -/
def backwardsBudgetData : BudgetData :=
  { category := some "Food", amount := some 100, startDate := some 2000, endDate := some 1000 }

/-- The budget that `backwardsBudgetData` of user 7 becomes. -/
def backwardsBudget : Budget :=
  { _id := 1, userId := 7, category := some "Food", amount := 100,
    startDate := some 2000, endDate := some 1000 }


/-! ## Creating a transaction when calls to the record store can fail -/

/-- The loop of `allocateSavingsAutomatically` when a `goal.save()` can fail:
`call` is the number of the next call to the record store and `fails` tells which
calls fail. A failed save raises, and the loop stops with the store as the earlier
saves left it. -/
def allocateLoopWithFaults (fails : Nat → Bool) (amount : ℚ) :
    Nat → Store → List Goal → Store × Except SaveError Unit
  | _, s, [] => (s, Except.ok ())
  | call, s, goal :: rest =>
    if goal.currentAmount + (amount * goal.allocationPercentage) / 100 ≤ goal.targetAmount then
      if fails call then (s, Except.error SaveError.unavailable)
      else
        allocateLoopWithFaults fails amount (call + 1)
          (Goal.save s
            { goal with
              currentAmount := goal.currentAmount + (amount * goal.allocationPercentage) / 100 })
          rest
    else allocateLoopWithFaults fails amount call s rest

/-- The function `goalService.allocateSavingsAutomatically(transaction)` when calls
to the record store can fail: call 0 is `Goal.find`, the calls after it are the
saves of the loop. -/
def allocateSavingsAutomaticallyWithFaults (fails : Nat → Bool) (s : Store)
    (transaction : Transaction) : Store × Except SaveError Unit :=
  if transaction.type ≠ TxType.income ∨ transaction.amount ≤ 0 then (s, Except.ok ())
  else if fails 0 then (s, Except.error SaveError.unavailable)
  else
    allocateLoopWithFaults fails transaction.amount 1 s
      (Goal.findAutoAllocate s transaction.userId)

/-- The function `transactionService.createTransaction(userId, data)` when the
allocator's calls to the record store can fail: the rejection of the awaited
allocation propagates to the caller, after `newTx.save()` has stored the
transaction; nothing undoes the save. -/
def createTransactionWithFaults (fails : Nat → Bool) (s : Store) (newId : ObjectId)
    (now : Timestamp) (userId : ObjectId) (data : TransactionData) :
    Store × Except SaveError Transaction :=
  let newTx := newTransaction newId now userId data
  if invalidPaths data ≠ [] then (s, Except.error (SaveError.validation (invalidPaths data)))
  else
    let saved := s.insertTransaction newTx
    let savedTx := newTx
    if savedTx.type = TxType.income then
      match allocateSavingsAutomaticallyWithFaults fails saved savedTx with
      | (after, Except.error e) => (after, Except.error e)
      | (after, Except.ok _) => (after, Except.ok savedTx)
    else (saved, Except.ok savedTx)

/-- A request body for a monthly income of 100. -/
def salaryData : TransactionData :=
  { type := some "income", amount := some 100, category := some "Salary", date := some 0,
    tags := [], notes := none, isRecurring := some false, recurrencePattern := Nullable.value "monthly",
    recurrenceEndDate := Nullable.absent }


/-! ## Handlers of the point operations (`src/controllers/transactionController.js`) -/

/-- The answer of a handler: 200 with the document, 400, 404, or the error handed
to `next(error)`. -/
inductive Reply where
  | ok (data : Transaction)
  | badRequest
  | notFound
  | failed (error : SaveError)
  deriving DecidableEq

/-- The handler `getTransactionById`; `reqUser` is the authenticated `req.user.id`,
which the handler does not read. -/
def handleGetTransactionById (s : Store) (_reqUser : ObjectId) (transactionId : String) :
    Reply :=
  match getTransactionById s transactionId with
  | none => Reply.notFound
  | some t => Reply.ok t

/-- The handler `updateTransaction`: it passes `req.params.transactionId` and
`req.body` to the service and does not read `req.user`. -/
def handleUpdateTransaction (s : Store) (_reqUser : ObjectId) (transactionId : String)
    (body : TransactionUpdate) : Store × Reply :=
  match updateTransaction s transactionId body with
  | (after, Except.error e) => (after, Reply.failed e)
  | (after, Except.ok none) => (after, Reply.notFound)
  | (after, Except.ok (some t)) => (after, Reply.ok t)

/-- The handler `updateTransactionTags`: 400 unless `tags` is a non-empty array,
then the service call; it does not read `req.user`. -/
def handleUpdateTransactionTags (s : Store) (_reqUser : ObjectId) (transactionId : String)
    (tags : List String) : Store × Reply :=
  if tags = [] then (s, Reply.badRequest)
  else
    match updateTransactionTags s transactionId tags with
    | (after, Except.error e) => (after, Reply.failed e)
    | (after, Except.ok none) => (after, Reply.notFound)
    | (after, Except.ok (some t)) => (after, Reply.ok t)

/-- The update `{ amount: 1 }`. -/
def setAmountOne : TransactionUpdate :=
  { userId := none, type := none, amount := some 1, category := none, date := none,
    tags := none, notes := none, isRecurring := none, recurrencePattern := Nullable.absent,
    recurrenceEndDate := Nullable.absent }

/-! ## Savings progress (`trackSavingsProgress`, `trackAllGoalsProgress`) -/

/-- An element of the result of `goalService.trackAllGoalsProgress`. -/
structure GoalProgress where
  _id : ObjectId
  title : String
  targetAmount : ℚ
  currentAmount : ℚ
  percentageSaved : String
  deadline : Option Timestamp
  status : String
  autoAllocate : Bool
  allocationPercentage : ℚ
  deriving DecidableEq

/-- An element of the result of `transactionService.trackSavingsProgress`. -/
structure SavingsProgress where
  title : String
  targetAmount : ℚ
  currentAmount : ℚ
  percentageSaved : String
  deadline : Option Timestamp
  status : String
  deriving DecidableEq

/-- The expression `goal.currentAmount >= goal.targetAmount ? "Goal Achieved" :
"In Progress"`. -/
def progressStatus (goal : Goal) : String :=
  if goal.currentAmount ≥ goal.targetAmount then "Goal Achieved" else "In Progress"

/-- The function `goalService.trackAllGoalsProgress(userId)`; `percent current
target` renders `((current / target) * 100).toFixed(2)`. -/
def trackAllGoalsProgress (percent : ℚ → ℚ → String) (s : Store) (userId : ObjectId) :
    List GoalProgress :=
  let goals := s.goals.filter (fun g => decide (g.userId = userId))
  goals.map (fun goal =>
    { _id := goal._id
      title := goal.title
      targetAmount := goal.targetAmount
      currentAmount := goal.currentAmount
      percentageSaved := percent goal.currentAmount goal.targetAmount ++ "%"
      deadline := goal.deadline
      status := progressStatus goal
      autoAllocate := goal.autoAllocate
      allocationPercentage := goal.allocationPercentage })

/-- The names bound in the module scope of `transactionService.js`: its four
`require` lines. The line that would bind `Goal` is commented out. -/
def transactionServiceScope : List String :=
  ["mongoose", "ObjectId", "Transaction", "goalService"]

/-- The function `transactionService.trackSavingsProgress(userId)`: its first
statement evaluates the identifier `Goal`, which raises a `ReferenceError` when
the module scope does not bind it. -/
def trackSavingsProgress (percent : ℚ → ℚ → String) (s : Store) (userId : ObjectId) :
    Except SaveError (List SavingsProgress) :=
  if "Goal" ∈ transactionServiceScope then
    let goals := s.goals.filter (fun g => decide (g.userId = userId))
    Except.ok (goals.map (fun goal =>
      { title := goal.title
        targetAmount := goal.targetAmount
        currentAmount := goal.currentAmount
        percentageSaved := percent goal.currentAmount goal.targetAmount ++ "%"
        deadline := goal.deadline
        status := progressStatus goal }))
  else Except.error (SaveError.thrown "ReferenceError: Goal is not defined")


/-- A filter with the single bound `startDate = 1150`. -/
def fromFilter : ReportFilters :=
  { startDate := some 1150, endDate := none, category := none, tags := none }

/-- A ledger of user 7 with Food expenses of 60 at 1100 and of 30 at 1200. -/
def twoExpenseStore : Store :=
  { transactions := [foodExpense 1 60 1100, foodExpense 2 30 1200], budgets := [], goals := [] }


/-! ## JavaScript numbers

A JavaScript number is an IEEE 754 binary64 value. A finite one is a rational
number, and an arithmetic operation on finite numbers returns the exact result
rounded to the nearest binary64 value, a tie going to the value with an even
significand. -/

/-- The quotient `n / d` rounded to the nearest natural number, a tie going to the
even one. -/
def roundHalfEven (n d : Nat) : Nat :=
  let q := n / d
  let r := n % d
  if 2 * r < d then q
  else if d < 2 * r then q + 1
  else if q % 2 = 0 then q else q + 1

/-- The number of halvings that take `n` below 2, at most `fuel` of them. -/
def log2Aux : Nat → Nat → Nat
  | 0, _ => 0
  | fuel + 1, n => if n < 2 then 0 else log2Aux fuel (n / 2) + 1

/-- The integer part of the binary logarithm of `n / d`, for positive `n` and `d`. -/
def floorLog2 (n d : Nat) : Int :=
  let k : Int := (log2Aux n n : Int) - (log2Aux d d : Int)
  if (if 0 ≤ k then decide (d * 2 ^ k.toNat ≤ n) else decide (d ≤ n * 2 ^ (-k).toNat)) then k
  else k - 1

/-- The binary64 value nearest to `n / d`, for positive `n` and `d`, as a
significand of at most 53 bits and the exponent of its last bit, which is not
below -1074 (the subnormal numbers). -/
def roundPos (n d : Nat) : Nat × Int :=
  let e := max (floorLog2 n d - 52) (-1074)
  let m :=
    if 0 ≤ e then roundHalfEven n (d * 2 ^ e.toNat) else roundHalfEven (n * 2 ^ (-e).toNat) d
  (m, e)

/-- The binary64 value nearest to a rational number, ties to even: the number that
a decimal literal denotes and the result of an arithmetic operation with that
exact value. Results beyond the largest finite binary64 value, which JavaScript
turns into `Infinity`, are outside the model. -/
def binary64 (q : ℚ) : ℚ :=
  if q = 0 then 0
  else
    (if q < 0 then -1 else 1) * ((roundPos q.num.natAbs q.den).1 : ℚ) *
      (2 : ℚ) ^ (roundPos q.num.natAbs q.den).2

/-! ## The services on rounded numbers

The functions of the namespace `Rounded` follow the same source lines as the
functions of the same names above, with the arithmetic of the source made
explicit: `rnd` is the rounding of the number format, every `+`, `-`, `*` and `/`
of the source is the exact operation followed by `rnd`, and a decimal literal that
is not a binary fraction (`0.8`, `0.2`) denotes its rounding. With `rnd = binary64`
these are the JavaScript functions on finite numbers; with `rnd = id` they are the
functions above. -/

namespace Rounded

/-- The body of the `for (const goal of goals)` loop of
`allocateSavingsAutomatically`: `allocationAmount = (amount *
goal.allocationPercentage) / 100`, the guard `goal.currentAmount +
allocationAmount <= goal.targetAmount`, and `goal.currentAmount +=
allocationAmount` followed by `goal.save()`. -/
def allocateStep (rnd : ℚ → ℚ) (amount : ℚ) (s : Store) (goal : Goal) : Store :=
  let allocationAmount := rnd (rnd (amount * goal.allocationPercentage) / 100)
  if rnd (goal.currentAmount + allocationAmount) ≤ goal.targetAmount then
    Goal.save s { goal with currentAmount := rnd (goal.currentAmount + allocationAmount) }
  else s

/-- The function `goalService.allocateSavingsAutomatically(transaction)`. -/
def allocateSavingsAutomatically (rnd : ℚ → ℚ) (s : Store) (transaction : Transaction) : Store :=
  if transaction.type ≠ TxType.income ∨ transaction.amount ≤ 0 then s
  else
    let goals := Goal.findAutoAllocate s transaction.userId
    goals.foldl (allocateStep rnd transaction.amount) s

/-- The effect of one loop iteration for the fetched document `goal` on one
stored document (a reading of `allocateStep`, used in the proofs). -/
def stepGoal (rnd : ℚ → ℚ) (amount : ℚ) (goal stored : Goal) : Goal :=
  if stored._id = goal._id ∧
      rnd (goal.currentAmount + rnd (rnd (amount * goal.allocationPercentage) / 100)) ≤
        goal.targetAmount then
    { stored with
      currentAmount :=
        rnd (goal.currentAmount + rnd (rnd (amount * goal.allocationPercentage) / 100)) }
  else stored

/-- The effect of the whole loop over the fetched documents `snap` on one stored
document (used in the proofs). -/
def loopGoal (rnd : ℚ → ℚ) (amount : ℚ) (snap : List Goal) (stored : Goal) : Goal :=
  match snap.find? (fun g => decide (g._id = stored._id)) with
  | some g => stepGoal rnd amount g stored
  | none => stored

/-- What `allocateSavingsAutomatically` does to one stored goal, in closed form;
`rounded_allocate_goals` proves that the loop computes exactly this. -/
def allocateGoal (rnd : ℚ → ℚ) (transaction : Transaction) (g : Goal) : Goal :=
  if transaction.type = TxType.income ∧ 0 < transaction.amount ∧
      g.userId = transaction.userId ∧ g.autoAllocate = true ∧
      rnd (g.currentAmount + rnd (rnd (transaction.amount * g.allocationPercentage) / 100)) ≤
        g.targetAmount then
    { g with
      currentAmount :=
        rnd (g.currentAmount + rnd (rnd (transaction.amount * g.allocationPercentage) / 100)) }
  else g

/-- The value `totalSpent` computed in the loop body of `checkBudgetStatus` and
of `getBudgetRecommendations`: the expenses of the list that
`transactionService.getAllTransactions(userId, transactionsQuery)` returns, newest
first, are added up from 0 by `reduce((sum, tx) => sum + tx.amount, 0)`. -/
def budgetTotalSpent (rnd : ℚ → ℚ) (s : Store) (userId : ObjectId) (budget : Budget) : ℚ :=
  let transactionsQuery := budgetTransactionsQuery userId budget
  let transactions := callDroppingArgs (getAllTransactions s) userId transactionsQuery
  (transactions.filter (fun tx => decide (tx.type = TxType.expense))).foldl
    (fun sum tx => rnd (sum + tx.amount)) 0

/-- The body of the `for (const budget of budgets)` loop of `checkBudgetStatus`:
the tests `totalSpent >= budget.amount` and `totalSpent >= budget.amount * 0.8`. -/
def checkBudgetStatusStep (rnd : ℚ → ℚ) (s : Store) (userId : ObjectId)
    (notifications : List String) (budget : Budget) : List String :=
  let totalSpent := budgetTotalSpent rnd s userId budget
  if totalSpent ≥ budget.amount then
    notifications ++ [exceededNotification budget]
  else if totalSpent ≥ rnd (budget.amount * rnd 0.8) then
    notifications ++ [nearingNotification budget]
  else notifications

/-- The function `budgetService.checkBudgetStatus(userId)`. -/
def checkBudgetStatus (rnd : ℚ → ℚ) (s : Store) (userId : ObjectId) : List String :=
  let budgets := Budget.findByUser s userId
  budgets.foldl (checkBudgetStatusStep rnd s userId) []

/-- The body of the `for (let budget of budgets)` loop of
`getBudgetRecommendations`: the tests `totalSpent > budget.amount` and
`totalSpent > budget.amount * 0.5`. -/
def getBudgetRecommendationsStep (rnd : ℚ → ℚ) (render : ℚ → String) (s : Store)
    (userId : ObjectId) (recommendations : List String) (budget : Budget) : List String :=
  let totalSpent := budgetTotalSpent rnd s userId budget
  if totalSpent > budget.amount then
    recommendations ++ [exceededRecommendation render budget]
  else if totalSpent > rnd (budget.amount * 0.5) then
    recommendations ++ [overHalfRecommendation budget]
  else
    recommendations ++ [underHalfRecommendation budget]

/-- The function `budgetService.getBudgetRecommendations(userId)`; `render` is the
number-to-string conversion of the JavaScript runtime. -/
def getBudgetRecommendations (rnd : ℚ → ℚ) (render : ℚ → String) (s : Store)
    (userId : ObjectId) : List String :=
  let budgets := Budget.findByUser s userId
  budgets.foldl (getBudgetRecommendationsStep rnd render s userId) []

/-- The body of `transactions.forEach` in `calculateMonthlyBudget`, on the pair
`(totalIncome, totalExpenses)`: `totalIncome += tx.amount` for an income,
`totalExpenses += tx.amount` for an expense. -/
def totalsStep (rnd : ℚ → ℚ) (totals : ℚ × ℚ) (tx : Transaction) : ℚ × ℚ :=
  let totalIncome := if tx.type = TxType.income then rnd (totals.1 + tx.amount) else totals.1
  let totalExpenses := if tx.type = TxType.expense then rnd (totals.2 + tx.amount) else totals.2
  (totalIncome, totalExpenses)

/-- The function `transactionService.calculateMonthlyBudget(budget, month, year)`;
`render` is the number-to-string conversion of the JavaScript runtime. -/
def calculateMonthlyBudget (rnd : ℚ → ℚ) (render : ℚ → String) (s : Store) (budget : ℚ)
    (month year : Int) : MonthlyBudget :=
  let startDate := (monthlyWindow month year).1
  let endDate := (monthlyWindow month year).2
  let transactions := Transaction.find s
    { userId := none, type := none, date := some { gte := some startDate, lte := some endDate },
      category := none, tagsIn := none }
  let totals := transactions.foldl (totalsStep rnd) (0, 0)
  let totalIncome := totals.1
  let totalExpenses := totals.2
  let remainingBudget := rnd (budget - totalExpenses)
  let budgetExceeded := decide (remainingBudget < 0)
  let recommendation :=
    if budgetExceeded then exceededByText (render |remainingBudget|)
    else if remainingBudget < rnd (budget * rnd 0.2) then
      nearingLimitText (render remainingBudget)
    else withinBudgetText
  { totalIncome := totalIncome
    totalExpenses := totalExpenses
    remainingBudget := remainingBudget
    budgetExceeded := budgetExceeded
    recommendation := recommendation }

/-- One document entering the stage `{ $group: { _id: key, total: { $sum: "$amount" } } }`:
its amount is added to the accumulator of its key, which starts at 0 when the key
is new. -/
def groupStep {κ : Type} [DecidableEq κ] (rnd : ℚ → ℚ) (key : Transaction → κ)
    (groups : List (κ × ℚ)) (tx : Transaction) : List (κ × ℚ) :=
  if groups.any (fun g => decide (g.1 = key tx)) then
    groups.map (fun g => if g.1 = key tx then (g.1, rnd (g.2 + tx.amount)) else g)
  else groups ++ [(key tx, rnd (0 + tx.amount))]

/-- The stage `$group` with a `$sum` of `amount`: one output per distinct key. -/
def groupSum {κ : Type} [DecidableEq κ] (rnd : ℚ → ℚ) (key : Transaction → κ)
    (docs : List Transaction) : List (κ × ℚ) :=
  docs.foldl (groupStep rnd key) []

/-- The function `transactionService.getSpendingTrends(userId, filters)`. -/
def getSpendingTrends (rnd : ℚ → ℚ) (s : Store) (userId : ObjectId) (filters : ReportFilters) :
    List TrendEntry :=
  let matched := s.transactions.filter (trendsMatch userId filters).matches
  let grouped := groupSum rnd (fun tx => monthOf tx.date) matched
  (grouped.insertionSort groupKeyAsc).map
    (fun g => { _id := g.1, totalSpent := g.2 })

/-- The function `transactionService.getIncomeVsExpenses(userId, filters)`. -/
def getIncomeVsExpenses (rnd : ℚ → ℚ) (s : Store) (userId : ObjectId)
    (filters : ReportFilters) : IncomeVsExpenses :=
  let matched := s.transactions.filter (incomeVsExpensesMatch userId filters).matches
  let data := groupSum rnd (fun tx => tx.type) matched
  let totals := data.foldl summarizeStep (0, 0)
  { income := totals.1, expense := totals.2 }

end Rounded

/-! ## Sample data in binary64 -/

/-- A goal of user 7 with target 0.123, nothing saved, asking for 10% of every
income. -/
def centGoal : Goal :=
  { _id := 1, userId := 7, title := "Stamp", targetAmount := binary64 (123 / 1000),
    currentAmount := 0, deadline := none, autoAllocate := true, allocationPercentage := 10 }

/-- A store that holds the goal with target 0.123. -/
def centStore : Store :=
  { transactions := [], budgets := [], goals := [centGoal] }

/-- An income of 1.23 of user 7. -/
def centIncome : Transaction :=
  { salary with amount := binary64 (123 / 100) }

/-- A Food budget of user 7 without date bounds, of a given amount. -/
def plainBudget (amount : ℚ) : Budget :=
  { _id := 1, userId := 7, category := some "Food", amount := amount,
    startDate := none, endDate := none }

/-- An income of 50 of user 7. -/
def halfSalary : Transaction :=
  { salary with amount := 50 }

/-- A budget of 3.6 against expenses of 1.3, 1.2 and 1.1, the last one the newest. -/
def tightStore : Store :=
  { transactions :=
      [foodExpense 1 (binary64 (13 / 10)) 1100, foodExpense 2 (binary64 (12 / 10)) 1200,
        foodExpense 3 (binary64 (11 / 10)) 1300],
    budgets := [plainBudget (binary64 (36 / 10))], goals := [] }

/-- A budget of 12 against one expense of 9.6. -/
def dozenStore : Store :=
  { transactions := [foodExpense 1 (binary64 (96 / 10)) 1100],
    budgets := [plainBudget 12], goals := [] }

/-- A budget of 1.7 against expenses of 0.6, 0.6 and 0.5, the last one the newest. -/
def smallStore : Store :=
  { transactions :=
      [foodExpense 1 (binary64 (6 / 10)) 1100, foodExpense 2 (binary64 (6 / 10)) 1200,
        foodExpense 3 (binary64 (5 / 10)) 1300],
    budgets := [plainBudget (binary64 (17 / 10))], goals := [] }

/-- A ledger whose only transaction is an expense of 7.2 dated 2025-03-05 (noon,
UTC). -/
def nineStore : Store :=
  { transactions := [foodExpense 1 (binary64 (72 / 10)) 1741176000000], budgets := [],
    goals := [] }

/-- A ledger of user 7 with an expense of 0.99 dated 2025-01-15 and expenses of 2.77
and 2.04 dated 2025-02-10 and 2025-02-20 (noon, UTC). -/
def pennyStore : Store :=
  { transactions :=
      [foodExpense 1 (binary64 (99 / 100)) 1736942400000,
        foodExpense 2 (binary64 (277 / 100)) 1739188800000,
        foodExpense 3 (binary64 (204 / 100)) 1740052800000],
    budgets := [], goals := [] }


/-! # Theorems -/

/-! ## Goal allocator: the loop in closed form -/

theorem allocateStep_goals (amount : ℚ) (s : Store) (goal : Goal) :
    (allocateStep amount s goal).goals = s.goals.map (stepGoal amount goal) := by
  by_cases h : goal.currentAmount + (amount * goal.allocationPercentage) / 100 ≤ goal.targetAmount
  · simp only [allocateStep, h, if_true, Goal.save]
    apply List.map_congr_left
    intro x _
    simp [stepGoal, h]
  · have hid : stepGoal amount goal = id := by
      funext x; simp [stepGoal, h]
    simp only [allocateStep, h, if_false, hid, List.map_id]

theorem allocateStep_transactions (amount : ℚ) (s : Store) (goal : Goal) :
    (allocateStep amount s goal).transactions = s.transactions := by
  simp only [allocateStep, Goal.save]
  split <;> rfl

theorem allocateStep_budgets (amount : ℚ) (s : Store) (goal : Goal) :
    (allocateStep amount s goal).budgets = s.budgets := by
  simp only [allocateStep, Goal.save]
  split <;> rfl

theorem stepGoal_id (amount : ℚ) (goal stored : Goal) :
    (stepGoal amount goal stored)._id = stored._id := by
  unfold stepGoal; split <;> rfl

theorem foldl_allocateStep_goals (amount : ℚ) (snap : List Goal)
    (hnd : (snap.map Goal._id).Nodup) (s : Store) :
    (snap.foldl (allocateStep amount) s).goals = s.goals.map (loopGoal amount snap) := by
  induction snap generalizing s with
  | nil =>
    have hid : loopGoal amount [] = id := by
      funext x; simp [loopGoal]
    simp [hid]
  | cons g rest ih =>
    rw [List.map_cons, List.nodup_cons] at hnd
    rw [List.foldl_cons, ih hnd.2, allocateStep_goals, List.map_map]
    apply List.map_congr_left
    intro h _
    simp only [Function.comp]
    by_cases hid : g._id = h._id
    · have hnone : rest.find? (fun x => decide (x._id = h._id)) = none := by
        rw [List.find?_eq_none]
        intro x hx hxe
        have : x._id = h._id := by simpa using hxe
        exact hnd.1 (by rw [hid, ← this]; exact List.mem_map_of_mem _ hx)
      simp [loopGoal, stepGoal_id, hnone, hid]
    · have hs : stepGoal amount g h = h := by
        unfold stepGoal
        rw [if_neg]
        intro hc; exact hid hc.1.symm
      simp [loopGoal, hs, hid]

theorem find?_filter_of_nodup (p : Goal → Bool) :
    ∀ (l : List Goal), (l.map Goal._id).Nodup → ∀ h ∈ l,
      (l.filter p).find? (fun g => decide (g._id = h._id)) = if p h then some h else none := by
  intro l
  induction l with
  | nil => intro _ h hh; cases hh
  | cons a rest ih =>
    intro hnd h hh
    rw [List.map_cons, List.nodup_cons] at hnd
    rcases List.mem_cons.1 hh with rfl | hmem
    · by_cases hp : p h
      · simp [List.filter_cons, hp]
      · have hnone : (rest.filter p).find? (fun g => decide (g._id = h._id)) = none := by
          rw [List.find?_eq_none]
          intro x hx hxe
          have hxid : x._id = h._id := by simpa using hxe
          exact hnd.1 (by rw [← hxid]; exact List.mem_map_of_mem _ (List.mem_of_mem_filter hx))
        simp [List.filter_cons, hp, hnone]
    · have hne : a._id ≠ h._id := by
        intro he
        exact hnd.1 (by rw [he]; exact List.mem_map_of_mem _ hmem)
      by_cases hp : p a
      · simp [List.filter_cons, hp, hne, ih hnd.2 h hmem]
      · simp [List.filter_cons, hp, ih hnd.2 h hmem]

theorem nodup_filter_ids (p : Goal → Bool) (l : List Goal) (h : (l.map Goal._id).Nodup) :
    ((l.filter p).map Goal._id).Nodup :=
  List.Nodup.sublist (List.Sublist.map _ (List.filter_sublist l)) h

/-- With unique ids, the allocation loop rewrites every stored goal by
`allocateGoal`, in place. -/
theorem allocate_goals (s : Store) (hu : s.UniqueGoalIds) (transaction : Transaction) :
    (allocateSavingsAutomatically s transaction).goals = s.goals.map (allocateGoal transaction) := by
  unfold allocateSavingsAutomatically
  by_cases hg : transaction.type ≠ TxType.income ∨ transaction.amount ≤ 0
  · rw [if_pos hg]
    have hid : ∀ g ∈ s.goals, allocateGoal transaction g = g := by
      intro g _
      unfold allocateGoal
      rw [if_neg]
      rintro ⟨h1, h2, -⟩
      rcases hg with hg | hg
      · exact hg h1
      · exact absurd h2 (not_lt.2 hg)
    conv_lhs => rw [← List.map_id s.goals]
    exact List.map_congr_left (fun g hg => (hid g hg).symm)
  · rw [if_neg hg]
    have hg' : transaction.type = TxType.income ∧ 0 < transaction.amount := by
      constructor
      · by_contra hc; exact hg (Or.inl hc)
      · by_contra hc; exact hg (Or.inr (not_lt.1 hc))
    simp only [Goal.findAutoAllocate]
    rw [foldl_allocateStep_goals _ _ (nodup_filter_ids _ _ hu)]
    apply List.map_congr_left
    intro h hh
    unfold loopGoal
    rw [find?_filter_of_nodup _ _ hu h hh]
    by_cases he : h.userId = transaction.userId ∧ h.autoAllocate = true
    · simp [he.1, he.2, stepGoal, allocateGoal, allocationShare, hg'.1, hg'.2]
    · have : (decide (h.userId = transaction.userId) && h.autoAllocate) = false := by
        rcases not_and_or.1 he with h1 | h1
        · simp [h1]
        · simp [h1]
      rw [this]
      simp only [Bool.false_eq_true, if_false]
      unfold allocateGoal
      rw [if_neg]
      rintro ⟨-, -, h3, h4, -⟩
      exact he ⟨h3, h4⟩

theorem allocate_transactions (s : Store) (transaction : Transaction) :
    (allocateSavingsAutomatically s transaction).transactions = s.transactions := by
  unfold allocateSavingsAutomatically
  split
  · rfl
  · generalize Goal.findAutoAllocate s transaction.userId = l
    induction l generalizing s with
    | nil => rfl
    | cons g rest ih => rw [List.foldl_cons, ih, allocateStep_transactions]

theorem allocate_budgets (s : Store) (transaction : Transaction) :
    (allocateSavingsAutomatically s transaction).budgets = s.budgets := by
  unfold allocateSavingsAutomatically
  split
  · rfl
  · generalize Goal.findAutoAllocate s transaction.userId = l
    induction l generalizing s with
    | nil => rfl
    | cons g rest ih => rw [List.foldl_cons, ih, allocateStep_budgets]

theorem allocateGoal_id (transaction : Transaction) (g : Goal) :
    (allocateGoal transaction g)._id = g._id := by
  unfold allocateGoal; split <;> rfl

theorem find?_map_of_nodup (f : Goal → Goal) (hf : ∀ g, (f g)._id = g._id) :
    ∀ (l : List Goal), (l.map Goal._id).Nodup → ∀ h ∈ l,
      (l.map f).find? (fun g => decide (g._id = h._id)) = some (f h) := by
  intro l
  induction l with
  | nil => intro _ h hh; cases hh
  | cons a rest ih =>
    intro hnd h hh
    rw [List.map_cons, List.nodup_cons] at hnd
    rcases List.mem_cons.1 hh with rfl | hmem
    · simp [hf]
    · have hne : a._id ≠ h._id := by
        intro he
        exact hnd.1 (by rw [he]; exact List.mem_map_of_mem _ hmem)
      simp [hf, hne, ih hnd.2 h hmem]

/-- After allocation the document with the id of a stored goal `g` is
`allocateGoal transaction g`. -/
theorem goalById_allocate (s : Store) (hu : s.UniqueGoalIds) (transaction : Transaction)
    (g : Goal) (hg : g ∈ s.goals) :
    (allocateSavingsAutomatically s transaction).goalById g._id =
      some (allocateGoal transaction g) := by
  unfold Store.goalById
  rw [allocate_goals s hu]
  exact find?_map_of_nodup _ (allocateGoal_id transaction) _ hu g hg

theorem allocateGoal_bound (transaction : Transaction) (g : Goal)
    (h : g.currentAmount ≤ g.targetAmount) :
    (allocateGoal transaction g).currentAmount ≤ (allocateGoal transaction g).targetAmount := by
  unfold allocateGoal
  split
  · next hc => exact hc.2.2.2.2
  · exact h

/-! ## Goal allocator: claims -/

/-- C1. Allocation preserves the goal bound: if every goal of the store satisfies
`currentAmount ≤ targetAmount`, then so does every goal of the store after
`allocateSavingsAutomatically`, for every transaction. -/
theorem allocate_preserves_goal_bound (s : Store) (hu : s.UniqueGoalIds)
    (hinv : ∀ g ∈ s.goals, g.currentAmount ≤ g.targetAmount) (transaction : Transaction) :
    ∀ g ∈ (allocateSavingsAutomatically s transaction).goals,
      g.currentAmount ≤ g.targetAmount := by
  intro g hg
  rw [allocate_goals s hu, List.mem_map] at hg
  obtain ⟨g0, hg0, rfl⟩ := hg
  exact allocateGoal_bound transaction g0 (hinv g0 hg0)

/-- The bound is kept on the sample store with three goals, for the sample income. -/
theorem allocate_preserves_goal_bound_witness :
    goalStore.UniqueGoalIds ∧ (∀ g ∈ goalStore.goals, g.currentAmount ≤ g.targetAmount) ∧
      ∀ g ∈ (allocateSavingsAutomatically goalStore salary).goals,
        g.currentAmount ≤ g.targetAmount :=
  have hu : goalStore.UniqueGoalIds := by decide
  have hinv : ∀ g ∈ goalStore.goals, g.currentAmount ≤ g.targetAmount := by
    norm_num [goalStore, bikeGoal, tripGoal, otherGoal]
  ⟨hu, hinv, allocate_preserves_goal_bound goalStore hu hinv salary⟩

/-- C2, refuted as stated: an income of user 7 arrives while a goal of user 7
with `autoAllocate = true` holds 150 against a target of 100; the allocation skips
the goal, which still exceeds its target afterwards. -/
theorem allocate_goal_bound_counterexample :
    salary.type = TxType.income ∧ overfullGoal ∈ overfullStore.goals ∧
      overfullGoal.userId = salary.userId ∧ overfullGoal.autoAllocate = true ∧
      (allocateSavingsAutomatically overfullStore salary).goalById overfullGoal._id =
        some overfullGoal ∧
      ¬ (overfullGoal.currentAmount ≤ overfullGoal.targetAmount) := by
  refine ⟨rfl, by simp [overfullStore], rfl, rfl, ?_, by norm_num [overfullGoal]⟩
  simp [allocateSavingsAutomatically, overfullStore, salary, Goal.findAutoAllocate,
    allocateStep, overfullGoal, Store.goalById]
  norm_num

/-- C2, amended. For every income transaction and every goal of the transaction's
user with `autoAllocate = true` that satisfies `currentAmount ≤ targetAmount`
before the call, the goal satisfies `currentAmount ≤ targetAmount` after
`allocateSavingsAutomatically`. -/
theorem allocate_goal_bound_of_bound (s : Store) (hu : s.UniqueGoalIds)
    (transaction : Transaction) (_hinc : transaction.type = TxType.income)
    (g : Goal) (hg : g ∈ s.goals) (_huser : g.userId = transaction.userId)
    (_hauto : g.autoAllocate = true) (hb : g.currentAmount ≤ g.targetAmount) :
    ∃ g', (allocateSavingsAutomatically s transaction).goalById g._id = some g' ∧
      g'.currentAmount ≤ g'.targetAmount :=
  ⟨allocateGoal transaction g, goalById_allocate s hu transaction g hg,
    allocateGoal_bound transaction g hb⟩

/-- The amended C2 on the sample store: the trip goal stays within its target. -/
theorem allocate_goal_bound_of_bound_witness :
    ∃ g', (allocateSavingsAutomatically goalStore salary).goalById tripGoal._id = some g' ∧
      g'.currentAmount ≤ g'.targetAmount :=
  allocate_goal_bound_of_bound goalStore (by decide) salary rfl tripGoal
    (by simp [goalStore]) rfl rfl (by norm_num [tripGoal])

/-- C4. `allocateSavingsAutomatically` leaves transactions and budgets as they are;
the goals keep their number and order, each stored goal differs from its old
value at most in `currentAmount`, and a goal of another user or with
`autoAllocate = false` is unchanged; when the transaction is not an income or its
amount is not positive, the whole store is unchanged. -/
theorem allocate_frame (s : Store) (hu : s.UniqueGoalIds) (transaction : Transaction) :
    (allocateSavingsAutomatically s transaction).transactions = s.transactions ∧
    (allocateSavingsAutomatically s transaction).budgets = s.budgets ∧
    List.Forall₂
      (fun g g' =>
        g' = { g with currentAmount := g'.currentAmount } ∧
        ((g.userId ≠ transaction.userId ∨ g.autoAllocate = false) → g' = g))
      s.goals (allocateSavingsAutomatically s transaction).goals ∧
    ((transaction.type ≠ TxType.income ∨ transaction.amount ≤ 0) →
      allocateSavingsAutomatically s transaction = s) := by
  refine ⟨allocate_transactions s transaction, allocate_budgets s transaction, ?_, ?_⟩
  · rw [allocate_goals s hu, List.forall₂_map_right_iff, List.forall₂_same]
    intro g _
    constructor
    · unfold allocateGoal; split <;> rfl
    · intro hne
      unfold allocateGoal
      rw [if_neg]
      rintro ⟨-, -, h3, h4, -⟩
      rcases hne with h | h
      · exact h h3
      · rw [h] at h4; exact Bool.noConfusion h4
  · intro hno
    unfold allocateSavingsAutomatically
    rw [if_pos hno]

/-- The frame property on the sample store with three goals. -/
theorem allocate_frame_witness :
    (allocateSavingsAutomatically goalStore salary).transactions = goalStore.transactions ∧
    (allocateSavingsAutomatically goalStore salary).budgets = goalStore.budgets ∧
    List.Forall₂
      (fun g g' =>
        g' = { g with currentAmount := g'.currentAmount } ∧
        ((g.userId ≠ salary.userId ∨ g.autoAllocate = false) → g' = g))
      goalStore.goals (allocateSavingsAutomatically goalStore salary).goals ∧
    ((salary.type ≠ TxType.income ∨ salary.amount ≤ 0) →
      allocateSavingsAutomatically goalStore salary = goalStore) :=
  allocate_frame goalStore (by decide) salary

/-! ## Budget monitor: the messages are pairwise different -/

theorem exceeded_ne_nearing (b b' : Budget) :
    exceededNotification b ≠ nearingNotification b' := by
  intro h
  have := congrArg String.data h
  simp [exceededNotification, nearingNotification, String.data_append] at this

theorem exceededRec_ne_overHalf (render : ℚ → String) (b b' : Budget) :
    exceededRecommendation render b ≠ overHalfRecommendation b' := by
  intro h
  have := congrArg String.data h
  simp [exceededRecommendation, overHalfRecommendation, String.data_append] at this

theorem exceededRec_ne_underHalf (render : ℚ → String) (b b' : Budget) :
    exceededRecommendation render b ≠ underHalfRecommendation b' := by
  intro h
  have := congrArg String.data h
  simp [exceededRecommendation, underHalfRecommendation, String.data_append] at this

theorem overHalf_ne_underHalf (b b' : Budget) :
    overHalfRecommendation b ≠ underHalfRecommendation b' := by
  intro h
  have := congrArg String.data h
  simp [overHalfRecommendation, underHalfRecommendation, String.data_append] at this

/-! ## Budget monitor: the aggregation -/

theorem foldl_add_amount (l : List Transaction) (init : ℚ) :
    l.foldl (fun sum tx => sum + tx.amount) init = init + (l.map Transaction.amount).sum := by
  induction l generalizing init with
  | nil => simp
  | cons a rest ih => rw [List.foldl_cons, ih, List.map_cons, List.sum_cons, add_assoc]

/-- The value `totalSpent` is the sum of the amounts of all stored expenses: the
query built from the budget has no influence on it. -/
theorem budgetTotalSpent_eq (s : Store) (userId : ObjectId) (budget : Budget) :
    budgetTotalSpent s userId budget =
      ((s.transactions.filter (fun tx => decide (tx.type = TxType.expense))).map
        Transaction.amount).sum := by
  unfold budgetTotalSpent callDroppingArgs getAllTransactions
  simp only [foldl_add_amount, zero_add]
  exact (((List.perm_insertionSort dateDesc s.transactions).filter _).map _).sum_eq

theorem budgetTotalSpent_insert (s : Store) (userId : ObjectId) (budget : Budget)
    (tx : Transaction) (hexp : tx.type = TxType.expense) :
    budgetTotalSpent (s.insertTransaction tx) userId budget =
      budgetTotalSpent s userId budget + tx.amount := by
  simp [budgetTotalSpent_eq, Store.insertTransaction, List.filter_append, hexp]

/-! ## Budget monitor: claims -/

/-- C5, the code at the failing input. User 7 has a Food budget of 100 over the
window 1000..2000 and no transaction at all; the only stored transaction is a rent
of 500 paid by user 8. The total compared against the budget is 500, where the
total over the budget's own query is 0, and `checkBudgetStatus` for user 7
reports the budget as exceeded. -/
theorem budget_total_ignores_query :
    budgetTotalSpent rentStore 7 foodBudget = 500 ∧
      claimedTotalSpent rentStore 7 foodBudget = 0 ∧
      checkBudgetStatus rentStore 7 = ["Budget exceeded for Food!"] := by
  refine ⟨?_, ?_, ?_⟩
  · simp [budgetTotalSpent, callDroppingArgs, getAllTransactions, rentStore, rentOfOtherUser]
  · simp [claimedTotalSpent, TransactionsQuery.matches, budgetTransactionsQuery, rentStore,
      rentOfOtherUser, foodBudget]
  · simp [checkBudgetStatus, Budget.findByUser, checkBudgetStatusStep, budgetTotalSpent,
      callDroppingArgs, getAllTransactions, rentStore, rentOfOtherUser, foodBudget,
      exceededNotification, categoryLabel, truthy]
    decide

/-- C9. Budget status is monotone in spending. For a budget with `amount > 0`,
saving one more expense with `amount > 0` that the budget's query matches (owner,
category, date window) never removes the budget's notification and never turns
the exceeded notification into another one. -/
theorem budget_status_monotone (s : Store) (budget : Budget) (tx : Transaction)
    (_hamount : 0 < budget.amount) (hexp : tx.type = TxType.expense) (hpos : 0 < tx.amount)
    (_hmatch : (budgetTransactionsQuery budget.userId budget).matches tx = true) :
    (checkBudgetStatusStep s budget.userId [] budget ≠ [] →
      checkBudgetStatusStep (s.insertTransaction tx) budget.userId [] budget ≠ []) ∧
    (checkBudgetStatusStep s budget.userId [] budget = [exceededNotification budget] →
      checkBudgetStatusStep (s.insertTransaction tx) budget.userId [] budget =
        [exceededNotification budget]) ∧
    (checkBudgetStatusStep s budget.userId [] budget = [nearingNotification budget] →
      checkBudgetStatusStep (s.insertTransaction tx) budget.userId [] budget =
          [nearingNotification budget] ∨
        checkBudgetStatusStep (s.insertTransaction tx) budget.userId [] budget =
          [exceededNotification budget]) := by
  have hsum := budgetTotalSpent_insert s budget.userId budget tx hexp
  have hne := exceeded_ne_nearing budget budget
  unfold checkBudgetStatusStep
  simp only [hsum, List.nil_append]
  by_cases h1 : budgetTotalSpent s budget.userId budget ≥ budget.amount
  · have h1' : budgetTotalSpent s budget.userId budget + tx.amount ≥ budget.amount := by
      linarith
    simp [h1, h1']
  · by_cases h2 : budgetTotalSpent s budget.userId budget ≥ budget.amount * 0.8
    · have h2' : budgetTotalSpent s budget.userId budget + tx.amount ≥ budget.amount * 0.8 := by
        linarith
      by_cases h3 : budgetTotalSpent s budget.userId budget + tx.amount ≥ budget.amount
      · simp [h1, h2, h3]
      · simp [h1, h2, h3, h2']
    · simp only [h1, h2, if_false, ne_eq, not_true_eq_false, false_implies, true_and]
      constructor
      · intro hc; exact absurd hc (by simp)
      · intro hc; exact absurd hc (by simp)

/-- The scenario of C9: a Food budget of 100 with Food expenses of 60 and 30 is
reported as nearing; one more Food expense of 20 makes it exceeded. -/
theorem budget_status_monotone_witness :
    checkBudgetStatus foodStore 7 = ["You are nearing your budget for Food."] ∧
      checkBudgetStatus (foodStore.insertTransaction (foodExpense 3 20 1300)) 7 =
        ["Budget exceeded for Food!"] ∧
      (checkBudgetStatusStep foodStore foodBudget.userId [] foodBudget ≠ [] →
        checkBudgetStatusStep (foodStore.insertTransaction (foodExpense 3 20 1300))
          foodBudget.userId [] foodBudget ≠ []) := by
  refine ⟨?_, ?_, (budget_status_monotone foodStore foodBudget (foodExpense 3 20 1300)
    (by norm_num [foodBudget]) rfl (by norm_num [foodExpense]) (by decide)).1⟩
  · simp [checkBudgetStatus, Budget.findByUser, checkBudgetStatusStep, budgetTotalSpent,
      callDroppingArgs, getAllTransactions, foodStore, foodExpense, foodBudget, dateDesc,
      nearingNotification, exceededNotification, categoryLabel, truthy]
    norm_num
  · simp [checkBudgetStatus, Budget.findByUser, checkBudgetStatusStep, budgetTotalSpent,
      callDroppingArgs, getAllTransactions, foodStore, foodExpense, foodBudget, dateDesc,
      Store.insertTransaction, nearingNotification, exceededNotification, categoryLabel, truthy]
    norm_num

/-! ## Recurrence classifier -/

theorem recurrenceOpen_iff (now : Timestamp) (tx : Transaction) :
    recurrenceOpen now tx = true ↔
      (tx.recurrenceEndDate = Nullable.absent ∨
        ∃ e, tx.recurrenceEndDate = Nullable.value e ∧ now < e) := by
  unfold recurrenceOpen
  cases tx.recurrenceEndDate with
  | absent => simp
  | null => simp
  | value e => simp

theorem count_sorted_filter (r : Transaction → Transaction → Prop) [DecidableRel r]
    (p : Transaction → Bool) (l : List Transaction) (tx : Transaction) :
    ((l.filter p).insertionSort r).count tx = if p tx = true then l.count tx else 0 := by
  rw [(List.perm_insertionSort r (l.filter p)).count_eq]
  by_cases h : p tx = true
  · rw [if_pos h, List.count_filter h]
  · rw [if_neg h, List.count_eq_zero]
    intro hc
    exact h (List.mem_filter.1 hc).2

theorem mem_missed_iff (s : Store) (now : Timestamp) (tx : Transaction) :
    tx ∈ (sendTransactionNotification s now).missed ↔
      tx ∈ s.transactions ∧ tx.isRecurring = true ∧ tx.date < now ∧
        recurrenceOpen now tx = true := by
  unfold sendTransactionNotification
  simp only []
  rw [List.mem_insertionSort, List.mem_filter, Bool.and_eq_true, Bool.and_eq_true,
    decide_eq_true_eq]
  tauto

theorem mem_upcoming_iff (s : Store) (now : Timestamp) (tx : Transaction) :
    tx ∈ (sendTransactionNotification s now).upcoming ↔
      tx ∈ s.transactions ∧ tx.isRecurring = true ∧ now ≤ tx.date ∧
        tx.date ≤ now + 24 * 60 * 60 * 1000 ∧ recurrenceOpen now tx = true := by
  unfold sendTransactionNotification
  simp only []
  rw [List.mem_insertionSort, List.mem_filter, Bool.and_eq_true, Bool.and_eq_true,
    Bool.and_eq_true, decide_eq_true_eq, decide_eq_true_eq]
  tauto

/-- A transaction stored with `recurrenceEndDate: null` is in neither bucket. -/
theorem null_end_date_in_no_bucket (s : Store) (now : Timestamp) (tx : Transaction)
    (h : tx.recurrenceEndDate = Nullable.null) :
    tx ∉ (sendTransactionNotification s now).missed ∧
      tx ∉ (sendTransactionNotification s now).upcoming := by
  have hclosed : recurrenceOpen now tx = false := by
    unfold recurrenceOpen; rw [h]
  constructor
  · intro hm
    have := ((mem_missed_iff s now tx).1 hm).2.2.2
    rw [hclosed] at this
    exact Bool.noConfusion this
  · intro hm
    have := ((mem_upcoming_iff s now tx).1 hm).2.2.2.2
    rw [hclosed] at this
    exact Bool.noConfusion this

/-- C10, refuted as stated. User 7 posts a recurring monthly rent dated one second
before the instant 1000000000, with `recurrenceEndDate: null`. The request is
accepted and the transaction is stored with the `null`: it is recurring, it has no
end date, and it is dated before `now`, yet `missed` is empty; the same request
dated one hour after `now` is stored and `upcoming` is empty. -/
theorem null_end_date_counterexample :
    createTransaction emptyStore 1 1000000000 7 (openEndedRentData (1000000000 - 1000)) =
      (openEndedStore (1000000000 - 1000), Except.ok (openEndedRent (1000000000 - 1000))) ∧
    (openEndedRent (1000000000 - 1000)).isRecurring = true ∧
    (∀ e, (openEndedRent (1000000000 - 1000)).recurrenceEndDate ≠ Nullable.value e) ∧
    (openEndedRent (1000000000 - 1000)).date < 1000000000 ∧
    (sendTransactionNotification (openEndedStore (1000000000 - 1000)) 1000000000).missed = [] ∧
    createTransaction emptyStore 1 1000000000 7 (openEndedRentData (1000000000 + 3600000)) =
      (openEndedStore (1000000000 + 3600000),
        Except.ok (openEndedRent (1000000000 + 3600000))) ∧
    (sendTransactionNotification (openEndedStore (1000000000 + 3600000)) 1000000000).upcoming =
      [] := by
  refine ⟨rfl, rfl, ?_, by decide, by decide, rfl, by decide⟩
  intro e h
  cases h

/-- C10, amended. For every store and instant `now`, and for the transactions
whose `recurrenceEndDate` is not a stored `null`: `missed` holds exactly those with
`isRecurring = true`, whose `recurrenceEndDate` field is not stored or holds a date
strictly after `now`, and with `date < now`; `upcoming` holds exactly those with
`isRecurring = true`, `recurrenceEndDate` not stored or strictly after `now`, and
`now ≤ date ≤ now + 24 h`. Every transaction of a bucket is there as often as it
is stored; `missed` is ordered by date descending, `upcoming` by date ascending. -/
theorem sendTransactionNotification_buckets (s : Store) (now : Timestamp) :
    (∀ tx, tx.recurrenceEndDate ≠ Nullable.null →
      (tx ∈ (sendTransactionNotification s now).missed ↔
        tx ∈ s.transactions ∧ tx.isRecurring = true ∧
          (tx.recurrenceEndDate = Nullable.absent ∨
            ∃ e, tx.recurrenceEndDate = Nullable.value e ∧ now < e) ∧
          tx.date < now)) ∧
    (∀ tx, tx ∈ (sendTransactionNotification s now).missed →
      (sendTransactionNotification s now).missed.count tx = s.transactions.count tx) ∧
    (sendTransactionNotification s now).missed.Sorted (fun a b => a.date ≥ b.date) ∧
    (∀ tx, tx.recurrenceEndDate ≠ Nullable.null →
      (tx ∈ (sendTransactionNotification s now).upcoming ↔
        tx ∈ s.transactions ∧ tx.isRecurring = true ∧
          (tx.recurrenceEndDate = Nullable.absent ∨
            ∃ e, tx.recurrenceEndDate = Nullable.value e ∧ now < e) ∧
          now ≤ tx.date ∧ tx.date ≤ now + 24 * 60 * 60 * 1000)) ∧
    (∀ tx, tx ∈ (sendTransactionNotification s now).upcoming →
      (sendTransactionNotification s now).upcoming.count tx = s.transactions.count tx) ∧
    (sendTransactionNotification s now).upcoming.Sorted (fun a b => a.date ≤ b.date) := by
  refine ⟨?_, ?_, ?_, ?_, ?_, ?_⟩
  · intro tx _
    rw [mem_missed_iff, recurrenceOpen_iff]
    tauto
  · intro tx htx
    unfold sendTransactionNotification at htx ⊢
    simp only [] at htx ⊢
    rw [List.mem_insertionSort, List.mem_filter] at htx
    rw [count_sorted_filter, if_pos htx.2]
  · exact List.sorted_insertionSort dateDesc _
  · intro tx _
    rw [mem_upcoming_iff, recurrenceOpen_iff]
    tauto
  · intro tx htx
    unfold sendTransactionNotification at htx ⊢
    simp only [] at htx ⊢
    rw [List.mem_insertionSort, List.mem_filter] at htx
    rw [count_sorted_filter, if_pos htx.2]
  · exact List.sorted_insertionSort dateAsc _

/-- The buckets of the sample ledger at the instant 1000000000, whose rows are
stored without the field `recurrenceEndDate`: the row dated a second earlier is
missed, the row 23 hours later is upcoming, the row 25 hours later and the row
that is not recurring are in neither. -/
theorem sendTransactionNotification_buckets_witness :
    sendTransactionNotification recurringStore 1000000000 =
      { missed := [rentDue 1 (1000000000 - 1000)],
        upcoming := [rentDue 2 (1000000000 + 23 * 60 * 60 * 1000)] } ∧
    rentDue 1 (1000000000 - 1000) ∈ (sendTransactionNotification recurringStore 1000000000).missed ∧
    rentDue 3 (1000000000 + 25 * 60 * 60 * 1000) ∉
      (sendTransactionNotification recurringStore 1000000000).upcoming :=
  have h := sendTransactionNotification_buckets recurringStore 1000000000
  ⟨by decide,
    (h.1 (rentDue 1 (1000000000 - 1000)) (by decide)).2
      ⟨by simp [recurringStore], rfl, Or.inl rfl, by decide⟩,
    fun hmem =>
      absurd ((h.2.2.2.1 (rentDue 3 (1000000000 + 25 * 60 * 60 * 1000)) (by decide)).1
        hmem).2.2.2.2 (by decide)⟩

/-- C11, refuted as stated. A ledger holds two recurring transactions stored with
`recurrenceEndDate: null`, one dated one second before the instant 1000000000 and
one dated 23 hours after it. Neither has an end date, yet the first is not in
`missed` and the second is not in `upcoming`. -/
theorem recurring_null_end_date_counterexample :
    openEndedRent (1000000000 - 1000) ∈ openEndedPair.transactions ∧
    openEndedRent (1000000000 + 23 * 60 * 60 * 1000) ∈ openEndedPair.transactions ∧
    (openEndedRent (1000000000 - 1000)).isRecurring = true ∧
    (openEndedRent (1000000000 + 23 * 60 * 60 * 1000)).isRecurring = true ∧
    (openEndedRent (1000000000 - 1000)).recurrenceEndDate = Nullable.null ∧
    (openEndedRent (1000000000 + 23 * 60 * 60 * 1000)).recurrenceEndDate = Nullable.null ∧
    openEndedRent (1000000000 - 1000) ∉
      (sendTransactionNotification openEndedPair 1000000000).missed ∧
    openEndedRent (1000000000 + 23 * 60 * 60 * 1000) ∉
      (sendTransactionNotification openEndedPair 1000000000).upcoming := by
  refine ⟨by simp [openEndedPair], by simp [openEndedPair], rfl, rfl, rfl, rfl, ?_, ?_⟩
  · exact (null_end_date_in_no_bucket openEndedPair 1000000000 _ rfl).1
  · exact (null_end_date_in_no_bucket openEndedPair 1000000000 _ rfl).2

/-- C11, amended. For every store and instant `now`: no transaction is in both
buckets of `sendTransactionNotification`; a transaction dated more than 24 hours
after `now`, or with `isRecurring = false`, is in neither; and a stored recurring
transaction whose `recurrenceEndDate` field is not stored is in `missed` when dated
`now - 1 s`, in `upcoming` when dated `now + 23 h`, and in neither when dated
`now + 25 h`. -/
theorem recurring_buckets_exclusive (s : Store) (now : Timestamp) :
    (∀ tx, ¬ (tx ∈ (sendTransactionNotification s now).missed ∧
      tx ∈ (sendTransactionNotification s now).upcoming)) ∧
    (∀ tx, (now + 24 * 60 * 60 * 1000 < tx.date ∨ tx.isRecurring = false) →
      tx ∉ (sendTransactionNotification s now).missed ∧
        tx ∉ (sendTransactionNotification s now).upcoming) ∧
    (∀ tx ∈ s.transactions, tx.isRecurring = true →
      tx.recurrenceEndDate = Nullable.absent →
      (tx.date = now - 1000 → tx ∈ (sendTransactionNotification s now).missed) ∧
      (tx.date = now + 23 * 60 * 60 * 1000 →
        tx ∈ (sendTransactionNotification s now).upcoming) ∧
      (tx.date = now + 25 * 60 * 60 * 1000 →
        tx ∉ (sendTransactionNotification s now).missed ∧
          tx ∉ (sendTransactionNotification s now).upcoming)) := by
  refine ⟨?_, ?_, ?_⟩
  · intro tx h
    obtain ⟨-, -, h1, -⟩ := (mem_missed_iff s now tx).1 h.1
    obtain ⟨-, -, h2, -, -⟩ := (mem_upcoming_iff s now tx).1 h.2
    linarith
  · intro tx h
    constructor
    · intro hm
      obtain ⟨-, hr, h1, -⟩ := (mem_missed_iff s now tx).1 hm
      rcases h with h | h
      · linarith
      · rw [h] at hr; exact Bool.noConfusion hr
    · intro hu
      obtain ⟨-, hr, -, h2, -⟩ := (mem_upcoming_iff s now tx).1 hu
      rcases h with h | h
      · linarith
      · rw [h] at hr; exact Bool.noConfusion hr
  · intro tx hmem hrec hend
    have hopen : recurrenceOpen now tx = true := by
      unfold recurrenceOpen; rw [hend]
    refine ⟨?_, ?_, ?_⟩
    · intro hd
      exact (mem_missed_iff s now tx).2 ⟨hmem, hrec, by linarith, hopen⟩
    · intro hd
      exact (mem_upcoming_iff s now tx).2 ⟨hmem, hrec, by linarith, by linarith, hopen⟩
    · intro hd
      constructor
      · intro hm
        obtain ⟨-, -, h1, -⟩ := (mem_missed_iff s now tx).1 hm
        linarith
      · intro hu
        obtain ⟨-, -, -, h2, -⟩ := (mem_upcoming_iff s now tx).1 hu
        linarith

/-- The three sample rows of C11 at the instant 1000000000, stored without the
field `recurrenceEndDate`: the one dated a second earlier is missed, the one 23
hours later is upcoming, the one 25 hours later is in neither bucket. -/
theorem recurring_buckets_exclusive_witness :
    (rentDue 1 (1000000000 - 1000)).recurrenceEndDate = Nullable.absent ∧
    rentDue 1 (1000000000 - 1000) ∈ (sendTransactionNotification recurringStore 1000000000).missed ∧
    rentDue 2 (1000000000 + 23 * 60 * 60 * 1000) ∈
      (sendTransactionNotification recurringStore 1000000000).upcoming ∧
    rentDue 3 (1000000000 + 25 * 60 * 60 * 1000) ∉
      (sendTransactionNotification recurringStore 1000000000).missed ∧
    rentDue 3 (1000000000 + 25 * 60 * 60 * 1000) ∉
      (sendTransactionNotification recurringStore 1000000000).upcoming :=
  have h := (recurring_buckets_exclusive recurringStore 1000000000).2.2
  have h1 := h (rentDue 1 (1000000000 - 1000)) (by simp [recurringStore]) rfl rfl
  have h2 := h (rentDue 2 (1000000000 + 23 * 60 * 60 * 1000)) (by simp [recurringStore]) rfl rfl
  have h3 := h (rentDue 3 (1000000000 + 25 * 60 * 60 * 1000)) (by simp [recurringStore]) rfl rfl
  ⟨rfl, h1.1 rfl, h2.2.1 rfl, (h3.2.2 rfl).1, (h3.2.2 rfl).2⟩

/-! ## Report aggregator: totals -/

theorem foldl_totalsStep (l : List Transaction) (a b : ℚ) :
    l.foldl totalsStep (a, b) =
      (a + ((l.filter (fun tx => decide (tx.type = TxType.income))).map Transaction.amount).sum,
        b + ((l.filter (fun tx => decide (tx.type = TxType.expense))).map
          Transaction.amount).sum) := by
  induction l generalizing a b with
  | nil => simp
  | cons tx rest ih =>
    rw [List.foldl_cons]
    cases ht : tx.type with
    | income => simp [totalsStep, ht, ih, List.filter_cons, add_assoc]
    | expense => simp [totalsStep, ht, ih, List.filter_cons, add_assoc]

/-- C12. For every filter, the result of `generateFinancialReport` has `totalIncome`
equal to the sum of `amount` over the returned transactions of type income,
`totalExpenses` equal to the sum over those of type expense, and
`balance = totalIncome - totalExpenses`; with no returned transaction all three
are 0. -/
theorem generateFinancialReport_totals (s : Store) (filters : ReportFilters) :
    (generateFinancialReport s filters).totalIncome =
      (((generateFinancialReport s filters).transactions.filter
        (fun tx => decide (tx.type = TxType.income))).map Transaction.amount).sum ∧
    (generateFinancialReport s filters).totalExpenses =
      (((generateFinancialReport s filters).transactions.filter
        (fun tx => decide (tx.type = TxType.expense))).map Transaction.amount).sum ∧
    (generateFinancialReport s filters).balance =
      (generateFinancialReport s filters).totalIncome -
        (generateFinancialReport s filters).totalExpenses ∧
    ((generateFinancialReport s filters).transactions = [] →
      (generateFinancialReport s filters).totalIncome = 0 ∧
      (generateFinancialReport s filters).totalExpenses = 0 ∧
      (generateFinancialReport s filters).balance = 0) := by
  unfold generateFinancialReport
  simp only [foldl_totalsStep, zero_add]
  refine ⟨trivial, trivial, trivial, ?_⟩
  intro h
  simp [h]

/-- The totals of C12 on the sample ledger of March 2025: income 1000, expenses
520, balance 480. -/
theorem generateFinancialReport_totals_witness :
    (generateFinancialReport marchStore noFilter).totalIncome = 1000 ∧
    (generateFinancialReport marchStore noFilter).totalExpenses = 520 ∧
    (generateFinancialReport marchStore noFilter).balance = 480 := by
  have h := generateFinancialReport_totals marchStore noFilter
  have ht : (generateFinancialReport marchStore noFilter).transactions =
      marchStore.transactions := by
    simp [generateFinancialReport, Transaction.find, reportQuery, noFilter,
      LedgerQuery.matches, truthy]
  rw [ht] at h
  have hi : (generateFinancialReport marchStore noFilter).totalIncome = 1000 := by
    rw [h.1]; simp [marchStore, foodExpense, salary]
  have he : (generateFinancialReport marchStore noFilter).totalExpenses = 520 := by
    rw [h.2.1]; simp [marchStore, foodExpense, salary]; norm_num
  refine ⟨hi, he, ?_⟩
  rw [h.2.2.1, hi, he]; norm_num

/-! ## Report aggregator: the filter -/

/-- The transactions that `generateFinancialReport` returns. -/
theorem generateFinancialReport_transactions (s : Store) (filters : ReportFilters) :
    (generateFinancialReport s filters).transactions =
      s.transactions.filter (reportQuery filters).matches := rfl

theorem truthy_some (c : String) : truthy (some c) = true ↔ c ≠ "" := by
  simp [truthy]

theorem truthy_eq_true (c : Option String) :
    truthy c = true ↔ ∃ v, c = some v ∧ v ≠ "" := by
  cases c with
  | none => simp [truthy]
  | some v => simp [truthy]

/-- The category clause of a report query. -/
theorem categoryClause_iff (cat : Option String) (tx : Transaction) :
    (match (if truthy cat = true then cat else none) with
      | some c => decide (tx.category = c)
      | none => true) = true ↔
      (truthy cat = true → some tx.category = cat) := by
  by_cases h : truthy cat = true
  · obtain ⟨v, rfl, -⟩ := (truthy_eq_true cat).1 h
    simp only [h, if_true, decide_eq_true_eq, true_implies, Option.some.injEq]
  · simp [h]

/-- The tags clause of a report query, for a list made by `split`. -/
theorem tagsClause_iff (split : String → List String) (tags : Option String)
    (tx : Transaction) :
    (match (if truthy tags = true then some (split (tags.getD "")) else none) with
      | some l => tx.tags.any (fun t => decide (t ∈ l))
      | none => true) = true ↔
      (truthy tags = true → ∃ t ∈ tx.tags, t ∈ split (tags.getD "")) := by
  by_cases h : truthy tags = true
  · simp [h]
  · simp [h]

/-- The date clause of a query. -/
theorem dateClause_iff (lo hi : Option Timestamp) (tx : Transaction) :
    ((match lo with
      | some l => decide (l ≤ tx.date)
      | none => true) &&
     (match hi with
      | some h => decide (tx.date ≤ h)
      | none => true)) = true ↔
      (∀ l, lo = some l → l ≤ tx.date) ∧ (∀ h, hi = some h → tx.date ≤ h) := by
  cases lo <;> cases hi <;> simp

/-- What the query of `generateFinancialReport` asks of a transaction. -/
theorem reportQuery_matches_iff (filters : ReportFilters) (tx : Transaction) :
    (reportQuery filters).matches tx = true ↔
      ((filters.startDate.isSome = true ∧ filters.endDate.isSome = true) →
        (∀ lo, filters.startDate = some lo → lo ≤ tx.date) ∧
        (∀ hi, filters.endDate = some hi → tx.date ≤ hi)) ∧
      (truthy filters.category = true → some tx.category = filters.category) ∧
      (truthy filters.tags = true →
        ∃ t ∈ tx.tags, t ∈ splitComma (filters.tags.getD "")) := by
  unfold LedgerQuery.matches reportQuery
  simp only [Bool.and_eq_true, Bool.true_and, categoryClause_iff, tagsClause_iff]
  cases filters.startDate <;> cases filters.endDate <;> simp [and_assoc]

/-- C13. For every filter that supplies a start date and an end date, the
transactions returned by `generateFinancialReport` are exactly the stored
transactions (in stored order) with `startDate ≤ date ≤ endDate`, with the
filter's category when one is given, and with at least one tag among the filter's
comma-separated tags when a tag list is given. -/
theorem generateFinancialReport_filter (s : Store) (filters : ReportFilters)
    (a b : Timestamp) (hs : filters.startDate = some a) (he : filters.endDate = some b) :
    (generateFinancialReport s filters).transactions =
      s.transactions.filter (fun tx => decide (
        a ≤ tx.date ∧ tx.date ≤ b ∧
        (truthy filters.category = true → some tx.category = filters.category) ∧
        (truthy filters.tags = true →
          ∃ t ∈ tx.tags, t ∈ splitComma (filters.tags.getD "")))) := by
  rw [generateFinancialReport_transactions]
  apply List.filter_congr
  intro tx _
  rw [Bool.eq_iff_iff, decide_eq_true_eq, reportQuery_matches_iff, hs, he]
  simp [and_assoc]

/-- The filter of C13 on a ledger of two users: the window 1000..2000 with the
category Food keeps the Food expense and drops the rent. -/
theorem generateFinancialReport_filter_witness :
    (generateFinancialReport mixedStore foodFilter).transactions = [foodExpense 1 60 1100] := by
  rw [generateFinancialReport_filter mixedStore foodFilter 1000 2000 rfl rfl]
  simp [mixedStore, foodFilter, foodExpense, rentOfOtherUser, truthy, List.filter_cons]

/-- C14, refuted as stated. User 7 asks for the report without a filter on two
ledgers that hold the same transactions of user 7 and differ only in a rent paid
by user 8: the reports differ, and the second one lists the transaction of user 8. -/
theorem report_scoping_counterexample :
    mixedStore.transactions.filter (fun tx => decide (tx.userId = 7)) =
      ownStore.transactions.filter (fun tx => decide (tx.userId = 7)) ∧
    (handleGenerateFinancialReport ownStore 7 noFilter).2.totalExpenses = 60 ∧
    (handleGenerateFinancialReport mixedStore 7 noFilter).2.totalExpenses = 560 ∧
    rentOfOtherUser ∈ (handleGenerateFinancialReport mixedStore 7 noFilter).2.transactions ∧
    rentOfOtherUser.userId ≠ 7 := by
  refine ⟨?_, ?_, ?_, ?_, ?_⟩
  · simp [mixedStore, ownStore, foodExpense, rentOfOtherUser, List.filter_cons]
  · simp [handleGenerateFinancialReport, generateFinancialReport, Transaction.find, reportQuery,
      noFilter, LedgerQuery.matches, truthy, ownStore, foodExpense, totalsStep]
  · simp [handleGenerateFinancialReport, generateFinancialReport, Transaction.find, reportQuery,
      noFilter, LedgerQuery.matches, truthy, mixedStore, foodExpense, rentOfOtherUser, totalsStep]
    norm_num
  · simp [handleGenerateFinancialReport, generateFinancialReport, Transaction.find, reportQuery,
      noFilter, LedgerQuery.matches, truthy, mixedStore]
  · simp [rentOfOtherUser]

/-- C14, amended. The report does not depend on the caller: the handler answers
every user with the same report for the same filter on the same store, its
transactions are the stored transactions of all users that the filter matches, and
whether a transaction is matched does not depend on its owner. -/
theorem report_not_scoped (s : Store) (userA userB : ObjectId) (filters : ReportFilters) :
    handleGenerateFinancialReport s userA filters =
      handleGenerateFinancialReport s userB filters ∧
    (handleGenerateFinancialReport s userA filters).2.transactions =
      s.transactions.filter (reportQuery filters).matches ∧
    (∀ (tx : Transaction) (owner : ObjectId),
      (reportQuery filters).matches { tx with userId := owner } =
        (reportQuery filters).matches tx) := by
  refine ⟨rfl, rfl, ?_⟩
  intro tx owner
  simp [LedgerQuery.matches, reportQuery]


/-! ## Monthly budget usage -/

/-- The query of `calculateMonthlyBudget` keeps the transactions dated inside the
window, whatever their owner. -/
theorem monthlyQuery_matches (lo hi : Timestamp) (tx : Transaction) :
    LedgerQuery.matches
      { userId := none, type := none, date := some { gte := some lo, lte := some hi },
        category := none, tagsIn := none } tx =
      decide (lo ≤ tx.date ∧ tx.date ≤ hi) := by
  simp [LedgerQuery.matches, Bool.decide_and]

/-- The sum of the expenses dated inside the window of `calculateMonthlyBudget`. -/
theorem calculateMonthlyBudget_totalExpenses (render : ℚ → String) (s : Store) (budget : ℚ)
    (month year : Int) :
    (calculateMonthlyBudget render s budget month year).totalExpenses =
      ((s.transactions.filter (fun tx =>
        decide ((monthlyWindow month year).1 ≤ tx.date ∧ tx.date ≤ (monthlyWindow month year).2 ∧
          tx.type = TxType.expense))).map Transaction.amount).sum := by
  unfold calculateMonthlyBudget Transaction.find
  simp only [foldl_totalsStep, zero_add, List.filter_filter]
  congr 2
  apply List.filter_congr
  intro tx _
  rw [monthlyQuery_matches, Bool.eq_iff_iff]
  simp only [Bool.and_eq_true, decide_eq_true_eq]
  tauto

/-- C15, the code at the failing input. The window that `calculateMonthlyBudget`
uses for March 2025 ends at 2025-03-31T23:59:59.000Z; an expense of 520 dated
half a second later, still in March 2025, is not counted: the total is 0 and the
budget of 500 is reported as not exceeded. -/
theorem monthlyBudget_misses_final_second (render : ℚ → String) :
    monthlyWindow 3 2025 = (1740787200000, 1743465599000) ∧
    yearOf 1743465599500 = 2025 ∧ monthOf 1743465599500 = 3 ∧
    (calculateMonthlyBudget render lastSecondStore 500 3 2025).totalExpenses = 0 ∧
    (calculateMonthlyBudget render lastSecondStore 500 3 2025).budgetExceeded = false := by
  have hw : monthlyWindow 3 2025 = (1740787200000, 1743465599000) := by decide
  have ht : (calculateMonthlyBudget render lastSecondStore 500 3 2025).totalExpenses = 0 := by
    rw [calculateMonthlyBudget_totalExpenses, hw]
    simp [lastSecondStore, foodExpense, List.filter_cons]
  refine ⟨hw, by decide, by decide, ht, ?_⟩
  have hr : (calculateMonthlyBudget render lastSecondStore 500 3 2025).budgetExceeded =
      decide (500 - (calculateMonthlyBudget render lastSecondStore 500 3 2025).totalExpenses < 0) :=
    rfl
  rw [hr, ht]
  simp

/-- C16. For every budget amount `b` and window, `calculateMonthlyBudget` returns
`remainingBudget = b - totalExpenses`, where `totalExpenses` is the sum of the
amounts of the expenses dated inside the window, and `budgetExceeded = true`
exactly when `totalExpenses > b`. -/
theorem calculateMonthlyBudget_remaining (render : ℚ → String) (s : Store) (budget : ℚ)
    (month year : Int) :
    (calculateMonthlyBudget render s budget month year).totalExpenses =
      ((s.transactions.filter (fun tx =>
        decide ((monthlyWindow month year).1 ≤ tx.date ∧ tx.date ≤ (monthlyWindow month year).2 ∧
          tx.type = TxType.expense))).map Transaction.amount).sum ∧
    (calculateMonthlyBudget render s budget month year).remainingBudget =
      budget - (calculateMonthlyBudget render s budget month year).totalExpenses ∧
    ((calculateMonthlyBudget render s budget month year).budgetExceeded = true ↔
      (calculateMonthlyBudget render s budget month year).totalExpenses > budget) := by
  refine ⟨calculateMonthlyBudget_totalExpenses render s budget month year, rfl, ?_⟩
  have hr : (calculateMonthlyBudget render s budget month year).budgetExceeded =
      decide (budget - (calculateMonthlyBudget render s budget month year).totalExpenses < 0) :=
    rfl
  rw [hr, decide_eq_true_eq]
  constructor <;> intro h <;> linarith

/-- The scenario of C16: a budget of 500 against March 2025 expenses of 300 and 220
gives `remainingBudget = -20` and `budgetExceeded = true`. -/
theorem calculateMonthlyBudget_remaining_witness :
    (calculateMonthlyBudget (fun _ => "") marchStore 500 3 2025).totalExpenses = 520 ∧
    (calculateMonthlyBudget (fun _ => "") marchStore 500 3 2025).remainingBudget = -20 ∧
    (calculateMonthlyBudget (fun _ => "") marchStore 500 3 2025).budgetExceeded = true := by
  have h := calculateMonthlyBudget_remaining (fun _ => "") marchStore 500 3 2025
  have hw : monthlyWindow 3 2025 = (1740787200000, 1743465599000) := by decide
  have ht : (calculateMonthlyBudget (fun _ => "") marchStore 500 3 2025).totalExpenses = 520 := by
    rw [h.1, hw]
    simp [marchStore, foodExpense, salary, List.filter_cons]
    norm_num
  refine ⟨ht, ?_, ?_⟩
  · rw [h.2.1, ht]; norm_num
  · rw [h.2.2, ht]; norm_num

theorem exceededBy_ne_nearingLimit (x y : String) : exceededByText x ≠ nearingLimitText y := by
  intro h
  have := congrArg String.data h
  simp [exceededByText, nearingLimitText, String.data_append] at this

theorem exceededBy_ne_within (x : String) : exceededByText x ≠ withinBudgetText := by
  intro h
  have := congrArg String.data h
  simp [exceededByText, withinBudgetText, String.data_append] at this

theorem nearingLimit_ne_within (y : String) : nearingLimitText y ≠ withinBudgetText := by
  intro h
  have := congrArg String.data h
  simp [nearingLimitText, withinBudgetText, String.data_append] at this

/-! ## Aggregations: the `$group` stage -/

theorem groupStep_keys {κ : Type} [DecidableEq κ] (key : Transaction → κ)
    (groups : List (κ × ℚ)) (tx : Transaction) :
    (groupStep key groups tx).map Prod.fst =
      if key tx ∈ groups.map Prod.fst then groups.map Prod.fst
      else groups.map Prod.fst ++ [key tx] := by
  unfold groupStep
  by_cases h : key tx ∈ groups.map Prod.fst
  · have hany : groups.any (fun g => decide (g.1 = key tx)) = true := by
      obtain ⟨g, hg, hk⟩ := List.mem_map.1 h
      exact List.any_eq_true.2 ⟨g, hg, by simp [hk]⟩
    rw [if_pos hany, if_pos h, List.map_map]
    apply List.map_congr_left
    intro g _
    simp only [Function.comp]
    split <;> rfl
  · have hany : ¬ groups.any (fun g => decide (g.1 = key tx)) = true := by
      intro hc
      obtain ⟨g, hg, hk⟩ := List.any_eq_true.1 hc
      exact h (List.mem_map.2 ⟨g, hg, by simpa using hk⟩)
    rw [if_neg hany, if_neg h, List.map_append]
    rfl

theorem groupStep_nodup {κ : Type} [DecidableEq κ] (key : Transaction → κ)
    (groups : List (κ × ℚ)) (tx : Transaction) (h : (groups.map Prod.fst).Nodup) :
    ((groupStep key groups tx).map Prod.fst).Nodup := by
  rw [groupStep_keys]
  split
  · exact h
  · next hk =>
    exact List.Nodup.append h (List.nodup_singleton _) (by simpa using hk)

theorem groupTotal_of_not_mem {κ : Type} [DecidableEq κ] (k : κ) (groups : List (κ × ℚ))
    (h : k ∉ groups.map Prod.fst) : groupTotal k groups = 0 := by
  unfold groupTotal
  have : groups.filter (fun g => decide (g.1 = k)) = [] := by
    rw [List.filter_eq_nil_iff]
    intro g hg hk
    exact h (List.mem_map.2 ⟨g, hg, by simpa using hk⟩)
  rw [this]; rfl

/-- With distinct keys, an entry carries the total stored under its key. -/
theorem groupTotal_of_mem {κ : Type} [DecidableEq κ] (groups : List (κ × ℚ))
    (hnd : (groups.map Prod.fst).Nodup) (g : κ × ℚ) (hg : g ∈ groups) :
    groupTotal g.1 groups = g.2 := by
  induction groups with
  | nil => cases hg
  | cons a rest ih =>
    rw [List.map_cons, List.nodup_cons] at hnd
    rcases List.mem_cons.1 hg with rfl | hmem
    · have h0 := groupTotal_of_not_mem g.1 rest hnd.1
      unfold groupTotal at h0 ⊢
      simp [List.filter_cons, h0]
    · have hne : a.1 ≠ g.1 := by
        intro he
        exact hnd.1 (by rw [he]; exact List.mem_map_of_mem _ hmem)
      have := ih hnd.2 hmem
      unfold groupTotal at this ⊢
      simp [List.filter_cons, hne, this]

theorem groupTotal_groupStep {κ : Type} [DecidableEq κ] (key : Transaction → κ)
    (groups : List (κ × ℚ)) (tx : Transaction) (hnd : (groups.map Prod.fst).Nodup) (k : κ) :
    groupTotal k (groupStep key groups tx) =
      groupTotal k groups + (if key tx = k then tx.amount else 0) := by
  by_cases hmem : key tx ∈ groups.map Prod.fst
  · have hany : groups.any (fun g => decide (g.1 = key tx)) = true := by
      obtain ⟨g, hg, hk⟩ := List.mem_map.1 hmem
      exact List.any_eq_true.2 ⟨g, hg, by simp [hk]⟩
    have hstep : groupStep key groups tx =
        groups.map (fun g => if g.1 = key tx then (g.1, g.2 + tx.amount) else g) := by
      unfold groupStep; rw [if_pos hany]
    by_cases hk : key tx = k
    · obtain ⟨g, hg, hgk⟩ := List.mem_map.1 hmem
      have hg' : (g.1, g.2 + tx.amount) ∈ groupStep key groups tx := by
        rw [hstep]
        exact List.mem_map.2 ⟨g, hg, by simp [hgk]⟩
      have h1 := groupTotal_of_mem _ (groupStep_nodup key groups tx hnd) _ hg'
      have h2 := groupTotal_of_mem _ hnd _ hg
      simp only at h1
      rw [← hk, ← hgk, h1, h2]
      simp
    · rw [if_neg hk, add_zero, hstep]
      unfold groupTotal
      congr 1
      have hrest : ∀ l : List (κ × ℚ),
          ((l.map (fun g => if g.1 = key tx then (g.1, g.2 + tx.amount) else g)).filter
            (fun g => decide (g.1 = k))).map Prod.snd =
            (l.filter (fun g => decide (g.1 = k))).map Prod.snd := by
        intro l
        induction l with
        | nil => rfl
        | cons b l ihl =>
          by_cases hb : b.1 = key tx
          · have hbk : b.1 ≠ k := fun h => hk (hb ▸ h)
            simp [List.filter_cons, hb, hbk, hk]
            simpa [hb] using ihl
          · by_cases hbk : b.1 = k
            · have hkne : ¬ k = key tx := fun h => hk h.symm
              simp [List.filter_cons, hb, hbk, hkne]
              simpa [hb] using ihl
            · simp [List.filter_cons, hb, hbk]
              simpa [hb] using ihl
      exact hrest groups
  · have hany : ¬ groups.any (fun g => decide (g.1 = key tx)) = true := by
      intro hc
      obtain ⟨g, hg, hk⟩ := List.any_eq_true.1 hc
      exact hmem (List.mem_map.2 ⟨g, hg, by simpa using hk⟩)
    have hstep : groupStep key groups tx = groups ++ [(key tx, 0 + tx.amount)] := by
      unfold groupStep; rw [if_neg hany]
    rw [hstep]
    unfold groupTotal
    by_cases hk : key tx = k
    · simp [List.filter_append, List.filter_cons, hk]
    · simp [List.filter_append, List.filter_cons, hk]

theorem foldl_groupStep {κ : Type} [DecidableEq κ] (key : Transaction → κ)
    (docs : List Transaction) :
    ∀ groups : List (κ × ℚ), (groups.map Prod.fst).Nodup →
      ((docs.foldl (groupStep key) groups).map Prod.fst).Nodup ∧
      (∀ k, k ∈ (docs.foldl (groupStep key) groups).map Prod.fst ↔
        k ∈ groups.map Prod.fst ∨ ∃ tx ∈ docs, key tx = k) ∧
      (∀ k, groupTotal k (docs.foldl (groupStep key) groups) =
        groupTotal k groups + keyTotal key k docs) := by
  induction docs with
  | nil =>
    intro groups hnd
    exact ⟨hnd, fun k => by simp, fun k => by simp [keyTotal]⟩
  | cons tx rest ih =>
    intro groups hnd
    obtain ⟨h1, h2, h3⟩ := ih (groupStep key groups tx) (groupStep_nodup key groups tx hnd)
    rw [List.foldl_cons]
    refine ⟨h1, ?_, ?_⟩
    · intro k
      rw [h2 k, groupStep_keys]
      by_cases hmem : key tx ∈ groups.map Prod.fst
      · rw [if_pos hmem]
        constructor
        · rintro (h | ⟨t, ht, hk⟩)
          · exact Or.inl h
          · exact Or.inr ⟨t, List.mem_cons_of_mem _ ht, hk⟩
        · rintro (h | ⟨t, ht, hk⟩)
          · exact Or.inl h
          · rcases List.mem_cons.1 ht with rfl | ht'
            · exact Or.inl (hk ▸ hmem)
            · exact Or.inr ⟨t, ht', hk⟩
      · rw [if_neg hmem]
        constructor
        · rintro (h | ⟨t, ht, hk⟩)
          · rcases List.mem_append.1 h with h | h
            · exact Or.inl h
            · exact Or.inr ⟨tx, List.mem_cons_self _ _, (List.mem_singleton.1 h).symm⟩
          · exact Or.inr ⟨t, List.mem_cons_of_mem _ ht, hk⟩
        · rintro (h | ⟨t, ht, hk⟩)
          · exact Or.inl (List.mem_append_left _ h)
          · rcases List.mem_cons.1 ht with rfl | ht'
            · exact Or.inl (List.mem_append_right _ (List.mem_singleton.2 hk.symm))
            · exact Or.inr ⟨t, ht', hk⟩
    · intro k
      rw [h3 k, groupTotal_groupStep key groups tx hnd k]
      unfold keyTotal
      by_cases hk : key tx = k
      · simp [List.filter_cons, hk, add_assoc]
      · simp [List.filter_cons, hk]

/-- The stage `$group`: the keys of the output are distinct, they are the keys of
the input documents, and each output carries the sum of the amounts of the
documents with its key. -/
theorem groupSum_spec {κ : Type} [DecidableEq κ] (key : Transaction → κ)
    (docs : List Transaction) :
    ((groupSum key docs).map Prod.fst).Nodup ∧
    (∀ k, k ∈ (groupSum key docs).map Prod.fst ↔ ∃ tx ∈ docs, key tx = k) ∧
    (∀ g ∈ groupSum key docs, g.2 = keyTotal key g.1 docs) := by
  obtain ⟨h1, h2, h3⟩ := foldl_groupStep key docs [] List.nodup_nil
  refine ⟨h1, fun k => by rw [groupSum, h2 k]; simp, ?_⟩
  intro g hg
  have := h3 g.1
  rw [groupTotal_of_mem _ h1 g hg] at this
  rw [this]
  simp [groupTotal]

/-! ## Aggregations: spending trends -/

theorem civilFromDays_month_range (days : Int) :
    1 ≤ (civilFromDays days).2.1 ∧ (civilFromDays days).2.1 ≤ 12 := by
  unfold civilFromDays
  simp only []
  split <;> omega

/-- The month number of an instant lies in `1..12`. -/
theorem monthOf_range (t : Timestamp) : 1 ≤ monthOf t ∧ monthOf t ≤ 12 :=
  civilFromDays_month_range _

/-- What a `match` object with an owner, an optional type, each supplied date
bound, and the truthy category and tags asks of a transaction. -/
theorem ownerQuery_matches_iff (userId : ObjectId) (ty : Option TxType)
    (filters : ReportFilters) (tx : Transaction) :
    LedgerQuery.matches
      { userId := some userId
        type := ty
        date :=
          if filters.startDate.isSome || filters.endDate.isSome then
            some { gte := filters.startDate, lte := filters.endDate }
          else none
        category := if truthy filters.category then filters.category else none
        tagsIn :=
          if truthy filters.tags then some (splitCommaTrim (filters.tags.getD "")) else none }
      tx = true ↔
    (tx.userId = userId ∧ (∀ t ∈ ty, tx.type = t) ∧
      (∀ lo ∈ filters.startDate, lo ≤ tx.date) ∧ (∀ hi ∈ filters.endDate, tx.date ≤ hi) ∧
      (truthy filters.category = true → some tx.category = filters.category) ∧
      (truthy filters.tags = true →
        ∃ t ∈ tx.tags, t ∈ splitCommaTrim (filters.tags.getD ""))) := by
  unfold LedgerQuery.matches
  simp only [Bool.and_eq_true, categoryClause_iff, tagsClause_iff, decide_eq_true_eq]
  cases ty <;> cases filters.startDate <;> cases filters.endDate <;> simp [and_assoc]

theorem mem_getSpendingTrends (s : Store) (userId : ObjectId) (filters : ReportFilters)
    (e : TrendEntry) :
    e ∈ getSpendingTrends s userId filters ↔
      ∃ g ∈ groupSum (fun tx => monthOf tx.date)
          (s.transactions.filter (trendsMatch userId filters).matches),
        e = { _id := g.1, totalSpent := g.2 } := by
  unfold getSpendingTrends
  simp only [List.mem_map, List.mem_insertionSort]
  constructor
  · rintro ⟨g, hg, rfl⟩; exact ⟨g, hg, rfl⟩
  · rintro ⟨g, hg, rfl⟩; exact ⟨g, hg, rfl⟩

/-- C18. For every user and filter, `getSpendingTrends` returns an entry for month
number `m` exactly when the user has a matching expense dated in month `m` (of
any year); the entry's `totalSpent` is the sum of the amounts of exactly those
transactions, so incomes and transactions of other users never contribute; the
month numbers of the entries are strictly ascending and lie in `1..12`. -/
theorem getSpendingTrends_spec (s : Store) (userId : ObjectId) (filters : ReportFilters) :
    (∀ m, (∃ e ∈ getSpendingTrends s userId filters, e._id = m) ↔
      ∃ tx ∈ s.transactions,
        (tx.userId = userId ∧ tx.type = TxType.expense ∧
          (∀ lo ∈ filters.startDate, lo ≤ tx.date) ∧ (∀ hi ∈ filters.endDate, tx.date ≤ hi) ∧
          (truthy filters.category = true → some tx.category = filters.category) ∧
          (truthy filters.tags = true →
            ∃ t ∈ tx.tags, t ∈ splitCommaTrim (filters.tags.getD ""))) ∧
        monthOf tx.date = m) ∧
    (∀ e ∈ getSpendingTrends s userId filters,
      e.totalSpent =
        ((s.transactions.filter (fun tx => decide (
          (tx.userId = userId ∧ tx.type = TxType.expense ∧
            (∀ lo ∈ filters.startDate, lo ≤ tx.date) ∧ (∀ hi ∈ filters.endDate, tx.date ≤ hi) ∧
            (truthy filters.category = true → some tx.category = filters.category) ∧
            (truthy filters.tags = true →
              ∃ t ∈ tx.tags, t ∈ splitCommaTrim (filters.tags.getD ""))) ∧
          monthOf tx.date = e._id))).map Transaction.amount).sum) ∧
    ((getSpendingTrends s userId filters).map TrendEntry._id).Sorted (fun a b => a < b) ∧
    (∀ e ∈ getSpendingTrends s userId filters, 1 ≤ e._id ∧ e._id ≤ 12) := by
  have hmatch : ∀ tx, (trendsMatch userId filters).matches tx = true ↔
      (tx.userId = userId ∧ tx.type = TxType.expense ∧
        (∀ lo ∈ filters.startDate, lo ≤ tx.date) ∧ (∀ hi ∈ filters.endDate, tx.date ≤ hi) ∧
        (truthy filters.category = true → some tx.category = filters.category) ∧
        (truthy filters.tags = true →
          ∃ t ∈ tx.tags, t ∈ splitCommaTrim (filters.tags.getD ""))) := by
    intro tx
    unfold trendsMatch
    rw [ownerQuery_matches_iff]
    simp
  obtain ⟨hnd, hkeys, hval⟩ := groupSum_spec (fun tx => monthOf tx.date)
    (s.transactions.filter (trendsMatch userId filters).matches)
  have hid : ∀ m, (∃ e ∈ getSpendingTrends s userId filters, e._id = m) ↔
      ∃ tx ∈ s.transactions.filter (trendsMatch userId filters).matches,
        monthOf tx.date = m := by
    intro m
    rw [← hkeys m, List.mem_map]
    constructor
    · rintro ⟨e, he, rfl⟩
      obtain ⟨g, hg, rfl⟩ := (mem_getSpendingTrends s userId filters e).1 he
      exact ⟨g, hg, rfl⟩
    · rintro ⟨g, hg, rfl⟩
      exact ⟨_, (mem_getSpendingTrends s userId filters _).2 ⟨g, hg, rfl⟩, rfl⟩
  refine ⟨?_, ?_, ?_, ?_⟩
  · intro m
    rw [hid m]
    constructor
    · rintro ⟨tx, htx, hm⟩
      rw [List.mem_filter] at htx
      exact ⟨tx, htx.1, (hmatch tx).1 htx.2, hm⟩
    · rintro ⟨tx, htx, hp, hm⟩
      exact ⟨tx, List.mem_filter.2 ⟨htx, (hmatch tx).2 hp⟩, hm⟩
  · intro e he
    obtain ⟨g, hg, rfl⟩ := (mem_getSpendingTrends s userId filters e).1 he
    simp only
    rw [hval g hg, keyTotal, List.filter_filter]
    congr 2
    apply List.filter_congr
    intro tx _
    rw [Bool.eq_iff_iff, Bool.and_eq_true, hmatch tx, decide_eq_true_eq, decide_eq_true_eq]
    tauto
  · have hmap : (getSpendingTrends s userId filters).map TrendEntry._id =
        ((groupSum (fun tx => monthOf tx.date)
          (s.transactions.filter (trendsMatch userId filters).matches)).insertionSort
            groupKeyAsc).map Prod.fst := by
      unfold getSpendingTrends
      simp only [List.map_map]
      rfl
    rw [hmap]
    have hsorted : (((groupSum (fun tx => monthOf tx.date)
          (s.transactions.filter (trendsMatch userId filters).matches)).insertionSort
            groupKeyAsc).map Prod.fst).Sorted (fun a b => a ≤ b) := by
      unfold List.Sorted
      rw [List.pairwise_map]
      exact List.sorted_insertionSort groupKeyAsc _
    have hnd' : (((groupSum (fun tx => monthOf tx.date)
          (s.transactions.filter (trendsMatch userId filters).matches)).insertionSort
            groupKeyAsc).map Prod.fst).Nodup :=
      (((List.perm_insertionSort groupKeyAsc _).map Prod.fst).nodup_iff).2 hnd
    exact hsorted.lt_of_le hnd'
  · intro e he
    obtain ⟨tx, -, hm⟩ := (hid e._id).1 ⟨e, he, rfl⟩
    rw [← hm]
    exact monthOf_range tx.date

/-- The trends of user 7 on the sample ledger: March collects 300 and 220 of 2025
and 50 of 2024, April holds 40; the income and the expense of user 8 are left
out. -/
theorem getSpendingTrends_spec_witness :
    getSpendingTrends trendStore 7 noFilter =
      [{ _id := 3, totalSpent := 570 }, { _id := 4, totalSpent := 40 }] ∧
    ((getSpendingTrends trendStore 7 noFilter).map TrendEntry._id).Sorted (fun a b => a < b) :=
  ⟨by
    have h1 : monthOf 1741176000000 = 3 := by decide
    have h2 : monthOf 1744200000000 = 4 := by decide
    have h3 : monthOf 1742472000000 = 3 := by decide
    have h4 : monthOf 1709640000000 = 3 := by decide
    simp [getSpendingTrends, trendsMatch, LedgerQuery.matches, noFilter, truthy, trendStore,
      foodExpense, salary, rentOfOtherUser, List.filter_cons, groupSum, groupStep, h1, h2, h3, h4,
      List.insertionSort, List.orderedInsert, groupKeyAsc]
    norm_num,
   (getSpendingTrends_spec trendStore 7 noFilter).2.2.1⟩

/-! ## Aggregations: income against expenses -/

theorem groupTotal_cons {κ : Type} [DecidableEq κ] (k : κ) (d : κ × ℚ) (rest : List (κ × ℚ)) :
    groupTotal k (d :: rest) = (if d.1 = k then d.2 else 0) + groupTotal k rest := by
  unfold groupTotal
  by_cases h : d.1 = k
  · simp [List.filter_cons, h]
  · simp [List.filter_cons, h]

/-- The loop of `getIncomeVsExpenses` over groups with distinct keys picks the
total of each of the two types, and keeps the initial value of a type that has no
group. -/
theorem foldl_summarizeStep (data : List (TxType × ℚ)) :
    (data.map Prod.fst).Nodup → ∀ acc : ℚ × ℚ,
      data.foldl summarizeStep acc =
        (if TxType.income ∈ data.map Prod.fst then groupTotal TxType.income data else acc.1,
          if TxType.expense ∈ data.map Prod.fst then groupTotal TxType.expense data
          else acc.2) := by
  induction data with
  | nil => intro _ acc; simp
  | cons d rest ih =>
    intro hnd acc
    rw [List.map_cons, List.nodup_cons] at hnd
    rw [List.foldl_cons, ih hnd.2, groupTotal_cons, groupTotal_cons]
    cases hd : d.1 with
    | income =>
      have hni : TxType.income ∉ rest.map Prod.fst := hd ▸ hnd.1
      have hmem : TxType.expense ∈ d.1 :: rest.map Prod.fst ↔
          TxType.expense ∈ rest.map Prod.fst := by
        rw [List.mem_cons, hd]; simp
      simp [summarizeStep, hd, hni, groupTotal_of_not_mem _ _ hni]
      simp only [← hd, hmem]
    | expense =>
      have hne : TxType.expense ∉ rest.map Prod.fst := hd ▸ hnd.1
      have hmem : TxType.income ∈ d.1 :: rest.map Prod.fst ↔
          TxType.income ∈ rest.map Prod.fst := by
        rw [List.mem_cons, hd]; simp
      simp [summarizeStep, hd, hne, groupTotal_of_not_mem _ _ hne]
      simp only [← hd, hmem]

theorem keyTotal_of_no_key {κ : Type} [DecidableEq κ] (key : Transaction → κ) (k : κ)
    (docs : List Transaction) (h : ¬ ∃ tx ∈ docs, key tx = k) : keyTotal key k docs = 0 := by
  unfold keyTotal
  have : docs.filter (fun tx => decide (key tx = k)) = [] := by
    rw [List.filter_eq_nil_iff]
    intro tx htx hk
    exact h ⟨tx, htx, by simpa using hk⟩
  rw [this]; rfl

/-- The two totals of `getIncomeVsExpenses` over the matched documents. -/
theorem getIncomeVsExpenses_totals (s : Store) (userId : ObjectId) (filters : ReportFilters) :
    (getIncomeVsExpenses s userId filters).income =
      keyTotal (fun tx => tx.type) TxType.income
        (s.transactions.filter (incomeVsExpensesMatch userId filters).matches) ∧
    (getIncomeVsExpenses s userId filters).expense =
      keyTotal (fun tx => tx.type) TxType.expense
        (s.transactions.filter (incomeVsExpensesMatch userId filters).matches) := by
  obtain ⟨hnd, hkeys, hval⟩ := groupSum_spec (fun tx => tx.type)
    (s.transactions.filter (incomeVsExpensesMatch userId filters).matches)
  have htotal : ∀ k, k ∈ (groupSum (fun tx => tx.type)
        (s.transactions.filter (incomeVsExpensesMatch userId filters).matches)).map Prod.fst →
      groupTotal k (groupSum (fun tx => tx.type)
        (s.transactions.filter (incomeVsExpensesMatch userId filters).matches)) =
      keyTotal (fun tx => tx.type) k
        (s.transactions.filter (incomeVsExpensesMatch userId filters).matches) := by
    intro k hk
    obtain ⟨g, hg, rfl⟩ := List.mem_map.1 hk
    rw [groupTotal_of_mem _ hnd g hg, hval g hg]
  unfold getIncomeVsExpenses
  simp only [foldl_summarizeStep _ hnd]
  constructor
  · split
    · next h => exact htotal _ h
    · next h => exact (keyTotal_of_no_key _ _ _ (fun hc => h ((hkeys _).2 hc))).symm
  · split
    · next h => exact htotal _ h
    · next h => exact (keyTotal_of_no_key _ _ _ (fun hc => h ((hkeys _).2 hc))).symm

/-- C19. For every user and filter, `getIncomeVsExpenses` returns as `income` the
sum of `amount` over the user's matching transactions of type income and as
`expense` the sum over those of type expense, where a transaction matches when its
date satisfies each supplied bound, its category is the filter's when one is
given, and it has one of the filter's tags when tags are given; a type without a
matching transaction yields 0. -/
theorem getIncomeVsExpenses_spec (s : Store) (userId : ObjectId) (filters : ReportFilters) :
    (∀ ty : TxType,
      (if ty = TxType.income then (getIncomeVsExpenses s userId filters).income
        else (getIncomeVsExpenses s userId filters).expense) =
        ((s.transactions.filter (fun tx => decide (
          (tx.userId = userId ∧
            (∀ lo ∈ filters.startDate, lo ≤ tx.date) ∧ (∀ hi ∈ filters.endDate, tx.date ≤ hi) ∧
            (truthy filters.category = true → some tx.category = filters.category) ∧
            (truthy filters.tags = true →
              ∃ t ∈ tx.tags, t ∈ splitCommaTrim (filters.tags.getD ""))) ∧
          tx.type = ty))).map Transaction.amount).sum) ∧
    (∀ ty : TxType,
      (¬ ∃ tx ∈ s.transactions,
        (tx.userId = userId ∧
          (∀ lo ∈ filters.startDate, lo ≤ tx.date) ∧ (∀ hi ∈ filters.endDate, tx.date ≤ hi) ∧
          (truthy filters.category = true → some tx.category = filters.category) ∧
          (truthy filters.tags = true →
            ∃ t ∈ tx.tags, t ∈ splitCommaTrim (filters.tags.getD ""))) ∧
        tx.type = ty) →
      (if ty = TxType.income then (getIncomeVsExpenses s userId filters).income
        else (getIncomeVsExpenses s userId filters).expense) = 0) := by
  have hmatch : ∀ tx, (incomeVsExpensesMatch userId filters).matches tx = true ↔
      (tx.userId = userId ∧
        (∀ lo ∈ filters.startDate, lo ≤ tx.date) ∧ (∀ hi ∈ filters.endDate, tx.date ≤ hi) ∧
        (truthy filters.category = true → some tx.category = filters.category) ∧
        (truthy filters.tags = true →
          ∃ t ∈ tx.tags, t ∈ splitCommaTrim (filters.tags.getD ""))) := by
    intro tx
    unfold incomeVsExpensesMatch
    rw [ownerQuery_matches_iff]
    simp
  have hsum : ∀ ty : TxType,
      (if ty = TxType.income then (getIncomeVsExpenses s userId filters).income
        else (getIncomeVsExpenses s userId filters).expense) =
        ((s.transactions.filter (fun tx => decide (
          (tx.userId = userId ∧
            (∀ lo ∈ filters.startDate, lo ≤ tx.date) ∧ (∀ hi ∈ filters.endDate, tx.date ≤ hi) ∧
            (truthy filters.category = true → some tx.category = filters.category) ∧
            (truthy filters.tags = true →
              ∃ t ∈ tx.tags, t ∈ splitCommaTrim (filters.tags.getD ""))) ∧
          tx.type = ty))).map Transaction.amount).sum := by
    intro ty
    have hk : keyTotal (fun tx => tx.type) ty
        (s.transactions.filter (incomeVsExpensesMatch userId filters).matches) =
        ((s.transactions.filter (fun tx => decide (
          (tx.userId = userId ∧
            (∀ lo ∈ filters.startDate, lo ≤ tx.date) ∧ (∀ hi ∈ filters.endDate, tx.date ≤ hi) ∧
            (truthy filters.category = true → some tx.category = filters.category) ∧
            (truthy filters.tags = true →
              ∃ t ∈ tx.tags, t ∈ splitCommaTrim (filters.tags.getD ""))) ∧
          tx.type = ty))).map Transaction.amount).sum := by
      rw [keyTotal, List.filter_filter]
      congr 2
      apply List.filter_congr
      intro tx _
      rw [Bool.eq_iff_iff, Bool.and_eq_true, hmatch tx, decide_eq_true_eq, decide_eq_true_eq]
      tauto
    rw [← hk]
    cases ty with
    | income => simpa using (getIncomeVsExpenses_totals s userId filters).1
    | expense => simpa using (getIncomeVsExpenses_totals s userId filters).2
  refine ⟨hsum, ?_⟩
  intro ty hno
  rw [hsum ty]
  have : s.transactions.filter (fun tx => decide (
      (tx.userId = userId ∧
        (∀ lo ∈ filters.startDate, lo ≤ tx.date) ∧ (∀ hi ∈ filters.endDate, tx.date ≤ hi) ∧
        (truthy filters.category = true → some tx.category = filters.category) ∧
        (truthy filters.tags = true →
          ∃ t ∈ tx.tags, t ∈ splitCommaTrim (filters.tags.getD ""))) ∧
      tx.type = ty)) = [] := by
    rw [List.filter_eq_nil_iff]
    intro tx htx hp
    exact hno ⟨tx, htx, of_decide_eq_true hp⟩
  rw [this]; rfl

/-- The totals of user 7 on the sample ledger without a filter: income 1000,
expenses 610; user 9, who owns nothing, gets 0 and 0. With the tags filter
`"a,b"` followed by a no-break space, which `trim` removes, the tags asked for are
`a` and `b`: the two tagged expenses add up to 3 and the income tagged `c` is left
out. -/
theorem getIncomeVsExpenses_spec_witness :
    getIncomeVsExpenses trendStore 7 noFilter = { income := 1000, expense := 610 } ∧
    (getIncomeVsExpenses trendStore 9 noFilter).income = 0 ∧
    (getIncomeVsExpenses trendStore 9 noFilter).expense = 0 ∧
    splitCommaTrim "a,b\u00a0" = ["a", "b"] ∧
    getIncomeVsExpenses taggedStore 7 noBreakSpaceFilter = { income := 0, expense := 3 } := by
  have h9 := (getIncomeVsExpenses_spec trendStore 9 noFilter).2
  refine ⟨?_, ?_, ?_, by decide!, by decide!⟩
  · simp [getIncomeVsExpenses, incomeVsExpensesMatch, LedgerQuery.matches, noFilter, truthy,
      trendStore, foodExpense, salary, rentOfOtherUser, List.filter_cons, groupSum, groupStep,
      summarizeStep]
    norm_num
  · have := h9 TxType.income (by
      simp [trendStore, foodExpense, salary, rentOfOtherUser])
    simpa using this
  · have := h9 TxType.expense (by
      simp [trendStore, foodExpense, salary, rentOfOtherUser])
    simpa using this


/-! ## Creating a transaction -/

/-- C20, refuted as stated. User 7 posts a monthly Food expense with amount `-5`
to an empty store: `createTransaction` succeeds and the store afterwards holds the
transaction with its amount `-5`. -/
theorem createTransaction_negative_amount_counterexample :
    negativeExpenseData.amount = some (-5) ∧
    createTransaction emptyStore 1 2000 7 negativeExpenseData =
      ({ transactions := [negativeExpense], budgets := [], goals := [] },
        Except.ok negativeExpense) ∧
    ¬ (0 < negativeExpense.amount) := by
  refine ⟨rfl, ?_, by norm_num [negativeExpense]⟩
  have hp : ¬ invalidPaths negativeExpenseData ≠ [] := by decide
  have hnew : newTransaction 1 2000 7 negativeExpenseData = negativeExpense := by
    simp [newTransaction, negativeExpenseData, negativeExpense, castTxType,
      castRecurrencePattern, Nullable.getD]
  have hty : ¬ negativeExpense.type = TxType.income := by decide
  unfold createTransaction
  simp only [hp, hnew, hty, if_false]
  rfl

/-- C20, amended. `createTransaction` fails with a validation error and leaves the
store as it is for every input whose amount is missing or whose category is
missing or empty; the sign of the amount is not checked: an input with a valid
type, any amount, a non-empty category and a valid recurrence pattern is saved
with that amount. -/
theorem createTransaction_validation (s : Store) (newId : ObjectId) (now : Timestamp)
    (userId : ObjectId) (data : TransactionData) :
    ((data.amount = none ∨ truthy data.category = false) →
      ∃ paths, paths ≠ [] ∧
        createTransaction s newId now userId data =
          (s, Except.error (SaveError.validation paths))) ∧
    (∀ a : ℚ, (data.type.bind castTxType).isSome = true → data.amount = some a →
      truthy data.category = true →
      (castRecurrencePattern (data.recurrencePattern.getD "")).isSome = true →
      ∃ tx, (createTransaction s newId now userId data).2 = Except.ok tx ∧ tx.amount = a ∧
        tx ∈ (createTransaction s newId now userId data).1.transactions) := by
  constructor
  · intro h
    have hne : invalidPaths data ≠ [] := by
      unfold invalidPaths
      rcases h with h | h
      · simp [h]
      · simp [h]
    exact ⟨invalidPaths data, hne, by unfold createTransaction; rw [if_pos hne]⟩
  · intro a hty ha hcat hpat
    have hp : invalidPaths data = [] := by
      unfold invalidPaths
      simp [Option.isNone_iff_eq_none, Option.isSome_iff_ne_none.1 hty, ha, hcat,
        Option.isSome_iff_ne_none.1 hpat]
      split <;> rfl
    have hamount : (newTransaction newId now userId data).amount = a := by
      simp [newTransaction, ha]
    unfold createTransaction
    simp only [hp, ne_eq, not_true_eq_false, if_false]
    split
    · refine ⟨_, rfl, hamount, ?_⟩
      rw [allocate_transactions]
      simp [Store.insertTransaction]
    · refine ⟨_, rfl, hamount, ?_⟩
      simp [Store.insertTransaction]

/-- A request without a category is rejected and the store keeps its contents. -/
theorem createTransaction_validation_witness :
    ∃ paths, paths ≠ [] ∧
      createTransaction ownStore 5 2000 7 { negativeExpenseData with category := none } =
        (ownStore, Except.error (SaveError.validation paths)) :=
  (createTransaction_validation ownStore 5 2000 7
    { negativeExpenseData with category := none }).1 (Or.inr rfl)


/-! ## Validation of the recurrence pattern -/

theorem castRecurrencePattern_some (v : String) (p : RecurrencePattern)
    (h : castRecurrencePattern v = some p) :
    p = RecurrencePattern.daily ∨ p = RecurrencePattern.weekly ∨
      p = RecurrencePattern.monthly := by
  unfold castRecurrencePattern at h
  split at h
  · exact Or.inl (Option.some.inj h).symm
  · split at h
    · exact Or.inr (Or.inl (Option.some.inj h).symm)
    · split at h
      · exact Or.inr (Or.inr (Option.some.inj h).symm)
      · cases h

theorem castRecurrencePattern_none_literal : castRecurrencePattern "none" = none := by decide

/-- An input whose pattern is a string outside the enum fails validation on the
path `recurrencePattern`. -/
theorem invalidPaths_of_bad_pattern (data : TransactionData) (v : String)
    (hv : data.recurrencePattern = Nullable.value v) (h : castRecurrencePattern v = none) :
    "recurrencePattern" ∈ invalidPaths data := by
  unfold invalidPaths
  rw [hv]
  simp [Nullable.getD, h]

theorem findById_of_updateTransaction (s : Store) (idText : String) (t : Transaction)
    (h : getTransactionById s idText = some t) :
    ∃ id, parseObjectId idText = some id ∧ Transaction.findById s id = some t := by
  unfold getTransactionById at h
  cases hp : parseObjectId idText with
  | none => rw [hp] at h; cases h
  | some id => rw [hp] at h; exact ⟨id, rfl, h⟩

/-- The outcome of `createTransaction`: a validation error, or the new document. -/
theorem createTransaction_outcome (s : Store) (newId : ObjectId) (now : Timestamp)
    (userId : ObjectId) (data : TransactionData) :
    (createTransaction s newId now userId data).2 =
      if invalidPaths data ≠ [] then Except.error (SaveError.validation (invalidPaths data))
      else Except.ok (newTransaction newId now userId data) := by
  unfold createTransaction
  by_cases hp : invalidPaths data ≠ []
  · rw [if_pos hp, if_pos hp]
  · rw [if_neg hp, if_neg hp]
    by_cases ht : (newTransaction newId now userId data).type = TxType.income
    · simp only [ht, if_true]
    · simp only [ht, if_false]

/-- An update that `updateTransaction` accepts for an existing document has passed
the update validators and returns the document after the `$set`. -/
theorem updateTransaction_accepted (s : Store) (idText : String) (update : TransactionUpdate)
    (t' : Transaction) (h : (updateTransaction s idText update).2 = Except.ok (some t')) :
    invalidUpdatePaths update = [] ∧ ∃ t, t' = applyUpdate update t := by
  unfold updateTransaction at h
  cases hp : parseObjectId idText with
  | none => rw [hp] at h; cases h
  | some id =>
    rw [hp] at h
    unfold Transaction.findByIdAndUpdate at h
    simp only [] at h
    by_cases hv : invalidUpdatePaths update ≠ []
    · rw [if_pos hv] at h; cases h
    · rw [if_neg hv] at h
      refine ⟨not_not.1 hv, ?_⟩
      cases hf : Transaction.findById s id with
      | none => rw [hf] at h; cases h
      | some t =>
        rw [hf] at h
        exact ⟨t, (Option.some.inj (Except.ok.inj h)).symm⟩

/-- C21, refuted as stated. User 7 posts a Food expense with `isRecurring: true`
and `recurrencePattern: null`: `createTransaction` accepts it, and the stored
transaction is recurring with a pattern that is none of daily, weekly, monthly.
The update `{ isRecurring: true, recurrencePattern: null }` of the stored
transaction 1 is accepted by `updateTransaction` with the same effect, and the
update `{ isRecurring: true }`, which carries no recurrence pattern at all, is
accepted as well. -/
theorem recurring_without_pattern_counterexample :
    patternlessData.isRecurring = some true ∧
    patternlessData.recurrencePattern = Nullable.null ∧
    createTransaction emptyStore 1 2000 7 patternlessData =
      ({ transactions := [patternless], budgets := [], goals := [] }, Except.ok patternless) ∧
    patternless.isRecurring = true ∧
    patternless.recurrencePattern ≠ RecurrencePattern.daily ∧
    patternless.recurrencePattern ≠ RecurrencePattern.weekly ∧
    patternless.recurrencePattern ≠ RecurrencePattern.monthly ∧
    updateTransaction monthlyStore idOne makePatternless =
      ({ monthlyStore with
          transactions :=
            [{ plainMonthly with
                isRecurring := true, recurrencePattern := RecurrencePattern.null },
              rentOfOtherUser] },
        Except.ok (some { plainMonthly with
          isRecurring := true, recurrencePattern := RecurrencePattern.null })) ∧
    makeRecurring.isRecurring = some true ∧
    makeRecurring.recurrencePattern = Nullable.absent ∧
    updateTransaction monthlyStore idOne makeRecurring =
      ({ monthlyStore with
          transactions := [{ plainMonthly with isRecurring := true }, rentOfOtherUser] },
        Except.ok (some { plainMonthly with isRecurring := true })) := by
  refine ⟨rfl, rfl, ?_, rfl, by decide, by decide, by decide, rfl, rfl, rfl, rfl⟩
  have hp : ¬ invalidPaths patternlessData ≠ [] := by decide
  have hnew : newTransaction 1 2000 7 patternlessData = patternless := by
    simp [newTransaction, patternlessData, patternless, castTxType]
  have hty : ¬ patternless.type = TxType.income := by decide
  unfold createTransaction
  simp only [hp, hnew, hty, if_false]
  rfl

/-- C21, amended. A recurrence pattern that is supplied as a string is checked
against the enum, whatever `isRecurring` is: `createTransaction` and
`updateTransaction` reject an input whose `recurrencePattern` is a string other
than daily, weekly, monthly (for instance `"none"`) and leave the store as it is,
and a transaction they accept for an input with a pattern string carries one of
the three patterns. Nothing ties the pattern to `isRecurring`: an input with
`isRecurring = true` and `recurrencePattern: null`, valid in its other fields, is
accepted by both functions and the stored pattern is `null`; and
`updateTransaction` validates only the supplied fields, so an update with
`isRecurring = true` and no pattern is accepted for an existing transaction and
keeps the stored pattern. -/
theorem recurrencePattern_validation (s : Store) (newId : ObjectId) (now : Timestamp)
    (userId : ObjectId) (data : TransactionData) (idText : String)
    (update : TransactionUpdate) :
    (∀ v, data.recurrencePattern = Nullable.value v → castRecurrencePattern v = none →
      ∃ paths, "recurrencePattern" ∈ paths ∧
        createTransaction s newId now userId data =
          (s, Except.error (SaveError.validation paths))) ∧
    (∀ v, update.recurrencePattern = Nullable.value v → castRecurrencePattern v = none →
      (parseObjectId idText).isSome = true →
      ∃ paths, "recurrencePattern" ∈ paths ∧
        updateTransaction s idText update =
          (s, Except.error (SaveError.validation paths))) ∧
    (∀ v tx, data.recurrencePattern = Nullable.value v →
      (createTransaction s newId now userId data).2 = Except.ok tx →
      tx.recurrencePattern = RecurrencePattern.daily ∨
      tx.recurrencePattern = RecurrencePattern.weekly ∨
      tx.recurrencePattern = RecurrencePattern.monthly) ∧
    (∀ v t', update.recurrencePattern = Nullable.value v →
      (updateTransaction s idText update).2 = Except.ok (some t') →
      t'.recurrencePattern = RecurrencePattern.daily ∨
      t'.recurrencePattern = RecurrencePattern.weekly ∨
      t'.recurrencePattern = RecurrencePattern.monthly) ∧
    (data.isRecurring = some true → data.recurrencePattern = Nullable.null →
      (data.type.bind castTxType).isSome = true → data.amount.isSome = true →
      truthy data.category = true →
      ∃ tx, (createTransaction s newId now userId data).2 = Except.ok tx ∧
        tx.isRecurring = true ∧ tx.recurrencePattern = RecurrencePattern.null) ∧
    (∀ t, update.isRecurring = some true → update.recurrencePattern = Nullable.null →
      invalidUpdatePaths update = [] → getTransactionById s idText = some t →
      ∃ t', (updateTransaction s idText update).2 = Except.ok (some t') ∧
        t'.isRecurring = true ∧ t'.recurrencePattern = RecurrencePattern.null) ∧
    (∀ t, update.isRecurring = some true → update.recurrencePattern = Nullable.absent →
      invalidUpdatePaths update = [] → getTransactionById s idText = some t →
      ∃ t', (updateTransaction s idText update).2 = Except.ok (some t') ∧
        t'.isRecurring = true ∧ t'.recurrencePattern = t.recurrencePattern) := by
  have haccept : ∀ t, invalidUpdatePaths update = [] → getTransactionById s idText = some t →
      (updateTransaction s idText update).2 = Except.ok (some (applyUpdate update t)) := by
    intro t hvalid hget
    obtain ⟨id, hid, hfind⟩ := findById_of_updateTransaction s idText t hget
    unfold updateTransaction Transaction.findByIdAndUpdate
    rw [hid]
    simp only [hvalid, ne_eq, not_true_eq_false, if_false, hfind]
  refine ⟨?_, ?_, ?_, ?_, ?_, ?_, ?_⟩
  · intro v hv hc
    have hmem := invalidPaths_of_bad_pattern data v hv hc
    refine ⟨invalidPaths data, hmem, ?_⟩
    unfold createTransaction
    rw [if_pos (List.ne_nil_of_mem hmem)]
  · intro v hv hc hid
    have hmem : "recurrencePattern" ∈ invalidUpdatePaths update := by
      unfold invalidUpdatePaths
      rw [hv]
      simp [hc]
    obtain ⟨id, hidv⟩ := Option.isSome_iff_exists.1 hid
    refine ⟨invalidUpdatePaths update, hmem, ?_⟩
    unfold updateTransaction Transaction.findByIdAndUpdate
    rw [hidv]
    simp only [if_pos (List.ne_nil_of_mem hmem)]
  · intro v tx hv h
    rw [createTransaction_outcome] at h
    by_cases hp : invalidPaths data ≠ []
    · rw [if_pos hp] at h
      cases h
    · have htx : newTransaction newId now userId data = tx := by
        rw [if_neg hp] at h
        exact Except.ok.inj h
      cases hc : castRecurrencePattern v with
      | none =>
        exact absurd (List.ne_nil_of_mem (invalidPaths_of_bad_pattern data v hv hc)) hp
      | some p =>
        have : tx.recurrencePattern = p := by
          rw [← htx]; simp [newTransaction, hv, Nullable.getD, hc]
        rw [this]
        exact castRecurrencePattern_some _ p hc
  · intro v t' hv h
    obtain ⟨hvalid, t, rfl⟩ := updateTransaction_accepted s idText update t' h
    cases hc : castRecurrencePattern v with
    | none =>
      exfalso
      have hmem : "recurrencePattern" ∈ invalidUpdatePaths update := by
        unfold invalidUpdatePaths
        rw [hv]
        simp [hc]
      rw [hvalid] at hmem
      cases hmem
    | some p =>
      have : (applyUpdate update t).recurrencePattern = p := by
        simp [applyUpdate, hv, hc]
      rw [this]
      exact castRecurrencePattern_some _ p hc
  · intro hrec hpat hty ha hcat
    have hp : invalidPaths data = [] := by
      unfold invalidPaths
      rw [hpat]
      simp [Option.isNone_iff_eq_none, Option.isSome_iff_ne_none.1 hty,
        Option.isSome_iff_ne_none.1 ha, hcat]
    refine ⟨newTransaction newId now userId data, ?_, ?_, ?_⟩
    · rw [createTransaction_outcome, if_neg (by rw [hp]; exact fun h => h rfl)]
    · simp [newTransaction, hrec]
    · simp [newTransaction, hpat]
  · intro t hrec hpat hvalid hget
    refine ⟨applyUpdate update t, haccept t hvalid hget, ?_, ?_⟩
    · simp [applyUpdate, hrec]
    · simp [applyUpdate, hpat]
  · intro t hrec hpat hvalid hget
    refine ⟨applyUpdate update t, haccept t hvalid hget, ?_, ?_⟩
    · simp [applyUpdate, hrec]
    · simp [applyUpdate, hpat]

/-- The amended C21 on samples: a create request with the pattern `"none"` is
rejected, and the update `{ isRecurring: true }` of the stored transaction 1 is
accepted and keeps its pattern `monthly`. -/
theorem recurrencePattern_validation_witness :
    (∃ paths, "recurrencePattern" ∈ paths ∧
      createTransaction emptyStore 1 2000 7
          { negativeExpenseData with recurrencePattern := Nullable.value "none" } =
        (emptyStore, Except.error (SaveError.validation paths))) ∧
    (∃ t', (updateTransaction monthlyStore idOne makeRecurring).2 = Except.ok (some t') ∧
      t'.isRecurring = true ∧ t'.recurrencePattern = plainMonthly.recurrencePattern) :=
  have h := recurrencePattern_validation emptyStore 1 2000 7
    { negativeExpenseData with recurrencePattern := Nullable.value "none" } idOne makeRecurring
  have h' := recurrencePattern_validation monthlyStore 1 2000 7
    negativeExpenseData idOne makeRecurring
  ⟨h.1 "none" rfl castRecurrencePattern_none_literal,
    h'.2.2.2.2.2.2 plainMonthly rfl rfl rfl rfl⟩


/-! ## Budgets: the order of the dates is not checked -/

/-- C22, refuted as stated. User 7 creates a budget with `startDate = 2000` and
`endDate = 1000`: `createBudget` succeeds and the store holds the budget with its
end before its start; `updateBudget` writes the same dates onto the Food budget
of the sample store. -/
theorem budget_dates_counterexample :
    createBudget emptyStore 1 500 7 backwardsBudgetData =
      ({ transactions := [], budgets := [backwardsBudget], goals := [] },
        Except.ok backwardsBudget) ∧
    backwardsBudget.startDate = some 2000 ∧ backwardsBudget.endDate = some 1000 ∧
    (updateBudget rentStore 7 1
        { category := none, amount := none, startDate := some 2000, endDate := some 1000 }).1 =
      { rentStore with budgets := [backwardsBudget] } :=
  ⟨rfl, rfl, rfl, rfl⟩

/-- C22, amended. `createBudget` and `updateBudget` do not compare `startDate` with
`endDate`: `createBudget` rejects only an input without `amount` and stores every
other input with its dates as given, `startDate` defaulting to the creation time;
`updateBudget` writes the supplied dates onto the caller's budget without
validation. -/
theorem budget_dates_unchecked (s : Store) (newId : ObjectId) (now : Timestamp)
    (userId budgetId : ObjectId) (data : BudgetData) :
    (data.amount = none →
      createBudget s newId now userId data =
        (s, Except.error (SaveError.validation ["amount"]))) ∧
    (∀ a, data.amount = some a →
      ∃ b, createBudget s newId now userId data =
          ({ s with budgets := s.budgets ++ [b] }, Except.ok b) ∧
        b.startDate = some (data.startDate.getD now) ∧ b.endDate = data.endDate) ∧
    (∀ b, s.budgets.find? (fun b => decide (b._id = budgetId ∧ b.userId = userId)) = some b →
      ∃ b', updateBudget s userId budgetId data =
          ({ s with budgets :=
              updateFirstBudget userId budgetId (applyBudgetUpdate data) s.budgets }, some b') ∧
        (∀ d, data.startDate = some d → b'.startDate = some d) ∧
        (∀ d, data.endDate = some d → b'.endDate = some d)) := by
  refine ⟨?_, ?_, ?_⟩
  · intro h
    unfold createBudget
    rw [h]
  · intro a h
    unfold createBudget
    rw [h]
    exact ⟨_, rfl, rfl, rfl⟩
  · intro b hb
    unfold updateBudget
    rw [hb]
    refine ⟨_, rfl, ?_, ?_⟩
    · intro d hd; simp [applyBudgetUpdate, hd]
    · intro d hd; simp [applyBudgetUpdate, hd]

/-- The amended C22 on a sample: a budget request without an amount is rejected,
one with an amount and a backwards window is stored with that window. -/
theorem budget_dates_unchecked_witness :
    createBudget emptyStore 1 500 7 { backwardsBudgetData with amount := none } =
      (emptyStore, Except.error (SaveError.validation ["amount"])) ∧
    (∃ b, createBudget emptyStore 1 500 7 backwardsBudgetData =
        ({ emptyStore with budgets := emptyStore.budgets ++ [b] }, Except.ok b) ∧
      b.startDate = some (backwardsBudgetData.startDate.getD 500) ∧
      b.endDate = backwardsBudgetData.endDate) :=
  ⟨(budget_dates_unchecked emptyStore 1 500 7 1
      { backwardsBudgetData with amount := none }).1 rfl,
    (budget_dates_unchecked emptyStore 1 500 7 1 backwardsBudgetData).2.1 100 rfl⟩


/-! ## Creating a transaction: no rollback -/

theorem allocateLoopWithFaults_none (amount : ℚ) (goals : List Goal) :
    ∀ (call : Nat) (s : Store),
      allocateLoopWithFaults (fun _ => false) amount call s goals =
        (goals.foldl (allocateStep amount) s, Except.ok ()) := by
  induction goals with
  | nil => intro call s; rfl
  | cons goal rest ih =>
    intro call s
    unfold allocateLoopWithFaults
    rw [List.foldl_cons]
    by_cases hfit :
        goal.currentAmount + (amount * goal.allocationPercentage) / 100 ≤ goal.targetAmount
    · simp only [hfit, if_true, Bool.false_eq_true, if_false, ih]
      simp [allocateStep, hfit]
    · simp only [hfit, if_false, ih]
      simp [allocateStep, hfit]

/-- Without a failing call the allocator with faults is the allocator. -/
theorem allocateWithFaults_none (s : Store) (transaction : Transaction) :
    allocateSavingsAutomaticallyWithFaults (fun _ => false) s transaction =
      (allocateSavingsAutomatically s transaction, Except.ok ()) := by
  unfold allocateSavingsAutomaticallyWithFaults allocateSavingsAutomatically
  by_cases h : transaction.type ≠ TxType.income ∨ transaction.amount ≤ 0
  · rw [if_pos h, if_pos h]
  · rw [if_neg h, if_neg h]
    simp only [Bool.false_eq_true, if_false, allocateLoopWithFaults_none]

theorem allocateLoopWithFaults_transactions (fails : Nat → Bool) (amount : ℚ)
    (goals : List Goal) :
    ∀ (call : Nat) (s : Store),
      (allocateLoopWithFaults fails amount call s goals).1.transactions = s.transactions := by
  induction goals with
  | nil => intro call s; rfl
  | cons goal rest ih =>
    intro call s
    unfold allocateLoopWithFaults
    split
    · split
      · rfl
      · rw [ih]; rfl
    · rw [ih]

/-- Whatever fails, the allocator leaves the transactions as they are. -/
theorem allocateWithFaults_transactions (fails : Nat → Bool) (s : Store)
    (transaction : Transaction) :
    (allocateSavingsAutomaticallyWithFaults fails s transaction).1.transactions =
      s.transactions := by
  unfold allocateSavingsAutomaticallyWithFaults
  split
  · rfl
  · split
    · rfl
    · exact allocateLoopWithFaults_transactions _ _ _ _ _

/-- Without a failing call `createTransactionWithFaults` is `createTransaction`. -/
theorem createTransactionWithFaults_none (s : Store) (newId : ObjectId) (now : Timestamp)
    (userId : ObjectId) (data : TransactionData) :
    createTransactionWithFaults (fun _ => false) s newId now userId data =
      createTransaction s newId now userId data := by
  unfold createTransactionWithFaults createTransaction
  simp only [allocateWithFaults_none]

/-- C23. Transaction creation is not atomic with allocation. For every valid income
input, if the allocator fails after the transaction has been saved,
`createTransaction` reports that failure and the store still holds the saved
transaction: its transactions are the old ones followed by the new one. For every
valid expense input `createTransaction` leaves the goals as they are. With no
failing call the function is the plain `createTransaction`. -/
theorem createTransaction_not_atomic (fails : Nat → Bool) (s : Store) (newId : ObjectId)
    (now : Timestamp) (userId : ObjectId) (data : TransactionData)
    (hvalid : invalidPaths data = []) :
    ((newTransaction newId now userId data).type = TxType.income →
      ∀ e, (allocateSavingsAutomaticallyWithFaults fails
          (s.insertTransaction (newTransaction newId now userId data))
          (newTransaction newId now userId data)).2 = Except.error e →
        (createTransactionWithFaults fails s newId now userId data).2 = Except.error e ∧
        (createTransactionWithFaults fails s newId now userId data).1.transactions =
          s.transactions ++ [newTransaction newId now userId data]) ∧
    ((newTransaction newId now userId data).type = TxType.expense →
      (createTransactionWithFaults fails s newId now userId data).1.goals = s.goals ∧
      (createTransaction s newId now userId data).1.goals = s.goals) ∧
    createTransactionWithFaults (fun _ => false) s newId now userId data =
      createTransaction s newId now userId data := by
  have hp : ¬ invalidPaths data ≠ [] := fun h => h hvalid
  refine ⟨?_, ?_, createTransactionWithFaults_none s newId now userId data⟩
  · intro hinc e he
    have htx := allocateWithFaults_transactions fails
      (s.insertTransaction (newTransaction newId now userId data))
      (newTransaction newId now userId data)
    unfold createTransactionWithFaults
    simp only [hp, if_false, hinc, if_true]
    cases hres : allocateSavingsAutomaticallyWithFaults fails
        (s.insertTransaction (newTransaction newId now userId data))
        (newTransaction newId now userId data) with
    | mk after outcome =>
      rw [hres] at he htx
      simp only at he htx
      subst he
      exact ⟨rfl, htx⟩
  · intro hexp
    have hne : ¬ (newTransaction newId now userId data).type = TxType.income := by
      rw [hexp]; decide
    constructor
    · unfold createTransactionWithFaults
      simp only [hp, if_false, hne]
      rfl
    · unfold createTransaction
      simp only [hp, if_false, hne]
      rfl

/-- The failure of C23 on a sample: user 7 posts an income of 100 while the
allocator's query for goals fails; the caller gets the failure, and the store
holds the income all the same, with the goals untouched. -/
theorem createTransaction_not_atomic_witness :
    (createTransactionWithFaults (fun call => call == 0) goalStore 9 2000 7 salaryData).2 =
      Except.error SaveError.unavailable ∧
    (createTransactionWithFaults (fun call => call == 0) goalStore 9 2000 7
        salaryData).1.transactions =
      goalStore.transactions ++ [newTransaction 9 2000 7 salaryData] :=
  (createTransaction_not_atomic (fun call => call == 0) goalStore 9 2000 7 salaryData
    (by decide)).1 (by decide) SaveError.unavailable
    (by
      simp [allocateSavingsAutomaticallyWithFaults, newTransaction, salaryData, castTxType]
      norm_num)


/-! ## Point updates of a transaction -/

theorem applyUpdate_id (data : TransactionUpdate) (t : Transaction) :
    (applyUpdate data t)._id = t._id := rfl

theorem applyUpdate_tagsUpdate (tags : List String) (t : Transaction) :
    applyUpdate (tagsUpdate tags) t = { t with tags := tags } := rfl

theorem invalidUpdatePaths_tagsUpdate (tags : List String) :
    invalidUpdatePaths (tagsUpdate tags) = [] := rfl

/-- With unique ids, rewriting the first document with an id rewrites the one
document with that id. -/
theorem updateFirstById_eq_map (id : ObjectId) (f : Transaction → Transaction) :
    ∀ l : List Transaction, (l.map Transaction._id).Nodup →
      updateFirstById id f l = l.map (fun x => if x._id = id then f x else x) := by
  intro l
  induction l with
  | nil => intro _; rfl
  | cons t rest ih =>
    intro hnd
    rw [List.map_cons, List.nodup_cons] at hnd
    unfold updateFirstById
    by_cases h : t._id = id
    · have hrest : rest.map (fun x => if x._id = id then f x else x) = rest := by
        conv_rhs => rw [← List.map_id rest]
        apply List.map_congr_left
        intro x hx
        have hne : x._id ≠ id := by
          intro hc
          exact hnd.1 (by rw [h, ← hc]; exact List.mem_map_of_mem _ hx)
        simp [hne]
      simp [h, hrest]
    · simp [h, ih hnd.2]

theorem find?_updateFirstById (id : ObjectId) (f : Transaction → Transaction)
    (hf : ∀ t, (f t)._id = t._id) :
    ∀ (l : List Transaction) (t : Transaction),
      l.find? (fun x => decide (x._id = id)) = some t →
      (updateFirstById id f l).find? (fun x => decide (x._id = id)) = some (f t) := by
  intro l
  induction l with
  | nil => intro t h; cases h
  | cons a rest ih =>
    intro t h
    unfold updateFirstById
    by_cases ha : a._id = id
    · have : a = t := by simpa [List.find?_cons, ha] using h
      subst this
      simp [ha, hf]
    · have hrest : rest.find? (fun x => decide (x._id = id)) = some t := by
        simpa [List.find?_cons, ha] using h
      simp [ha, ih t hrest]

theorem updateFirstById_idem (id : ObjectId) (f : Transaction → Transaction)
    (hf : ∀ t, (f t)._id = t._id) (hff : ∀ t, f (f t) = f t) :
    ∀ l : List Transaction, updateFirstById id f (updateFirstById id f l) =
      updateFirstById id f l := by
  intro l
  induction l with
  | nil => rfl
  | cons a rest ih =>
    by_cases ha : a._id = id
    · have h1 : updateFirstById id f (a :: rest) = f a :: rest := by
        unfold updateFirstById; rw [if_pos ha]
      have h2 : updateFirstById id f (f a :: rest) = f (f a) :: rest := by
        unfold updateFirstById; rw [if_pos ((hf a).trans ha)]
      rw [h1, h2, hff]
    · have h1 : updateFirstById id f (a :: rest) = a :: updateFirstById id f rest := by
        conv_lhs => unfold updateFirstById
        rw [if_neg ha]
      have h2 : updateFirstById id f (a :: updateFirstById id f rest) =
          a :: updateFirstById id f (updateFirstById id f rest) := by
        conv_lhs => unfold updateFirstById
        rw [if_neg ha]
      rw [h1, h2, ih]

/-- The effect of `findByIdAndUpdate` with a valid update on an existing id. -/
theorem findByIdAndUpdate_found (s : Store) (id : ObjectId) (data : TransactionUpdate)
    (t : Transaction) (hvalid : invalidUpdatePaths data = [])
    (ht : Transaction.findById s id = some t) :
    Transaction.findByIdAndUpdate s id data =
      ({ s with transactions := updateFirstById id (applyUpdate data) s.transactions },
        Except.ok (some (applyUpdate data t))) := by
  unfold Transaction.findByIdAndUpdate
  simp only [hvalid, ne_eq, not_true_eq_false, if_false, ht]

theorem updateTransactionTags_of_parse (s : Store) (idText : String) (id : ObjectId)
    (tags : List String) (hid : parseObjectId idText = some id) :
    updateTransactionTags s idText tags =
      Transaction.findByIdAndUpdate s id (tagsUpdate tags) := by
  unfold updateTransactionTags
  rw [hid]

/-- C24. For every existing transaction id and every non-empty list of strings
`tags`, `updateTransactionTags(id, tags)` returns the transaction with its tags
replaced by `tags`, whatever they were; in the store that transaction differs
from its old value in `tags` only, every other transaction, the budgets and the
goals are unchanged; and a second application with the same tags returns the same
transaction and leaves the store as the first application left it. -/
theorem updateTransactionTags_replaces (s : Store) (hu : s.UniqueTransactionIds)
    (idText : String) (t : Transaction) (hfound : getTransactionById s idText = some t)
    (tags : List String) (_hne : tags ≠ []) :
    (updateTransactionTags s idText tags).2 = Except.ok (some { t with tags := tags }) ∧
    (updateTransactionTags s idText tags).1.transactions =
      s.transactions.map (fun x => if x._id = t._id then { x with tags := tags } else x) ∧
    (updateTransactionTags s idText tags).1.budgets = s.budgets ∧
    (updateTransactionTags s idText tags).1.goals = s.goals ∧
    updateTransactionTags (updateTransactionTags s idText tags).1 idText tags =
      ((updateTransactionTags s idText tags).1, Except.ok (some { t with tags := tags })) := by
  obtain ⟨id, hid, hfind⟩ := findById_of_updateTransaction s idText t hfound
  have htid : t._id = id := by
    have := List.find?_some hfind
    simpa using this
  have hfirst : updateTransactionTags s idText tags =
      ({ s with transactions :=
          updateFirstById id (applyUpdate (tagsUpdate tags)) s.transactions },
        Except.ok (some (applyUpdate (tagsUpdate tags) t))) := by
    rw [updateTransactionTags_of_parse s idText id tags hid]
    exact findByIdAndUpdate_found s id _ t (invalidUpdatePaths_tagsUpdate tags) hfind
  have hfind2 : Transaction.findById
      { s with transactions :=
          updateFirstById id (applyUpdate (tagsUpdate tags)) s.transactions } id =
      some (applyUpdate (tagsUpdate tags) t) :=
    find?_updateFirstById id _ (applyUpdate_id _) _ t hfind
  rw [hfirst]
  refine ⟨rfl, ?_, rfl, rfl, ?_⟩
  · simp only
    rw [updateFirstById_eq_map id _ _ hu, htid]
    rfl
  · simp only
    rw [updateTransactionTags_of_parse _ idText id tags hid,
      findByIdAndUpdate_found _ id _ _ (invalidUpdatePaths_tagsUpdate tags) hfind2]
    simp only
    rw [updateFirstById_idem id (applyUpdate (tagsUpdate tags)) (applyUpdate_id _)
      (fun x => by rw [applyUpdate_tagsUpdate, applyUpdate_tagsUpdate])]
    rfl

/-- The replacement of C24 on a sample: the tags `["lunch"]` of transaction 1 become
`["a", "b"]`, the other transaction is untouched, and a second application changes
nothing more. -/
theorem updateTransactionTags_replaces_witness :
    (updateTransactionTags monthlyStore idOne ["a", "b"]).1.transactions =
      [{ plainMonthly with tags := ["a", "b"] }, rentOfOtherUser] ∧
    updateTransactionTags (updateTransactionTags monthlyStore idOne ["a", "b"]).1 idOne
        ["a", "b"] =
      ((updateTransactionTags monthlyStore idOne ["a", "b"]).1,
        Except.ok (some { plainMonthly with tags := ["a", "b"] })) :=
  have h := updateTransactionTags_replaces monthlyStore (by decide) idOne plainMonthly rfl
    ["a", "b"] (by simp)
  ⟨rfl, h.2.2.2.2⟩


/-! ## Handlers of the point operations: ownership is not checked -/

/-- C25, the code at the failing input. Transaction 1 belongs to user 7; user 8
calls the three handlers with its id. Get-by-id answers 200 with the document;
update answers 200 and the stored amount is 1 afterwards; update-tags answers 200
and the stored tags are replaced. -/
theorem handlers_ignore_owner :
    plainMonthly.userId = 7 ∧
    handleGetTransactionById monthlyStore 8 idOne = Reply.ok plainMonthly ∧
    handleUpdateTransaction monthlyStore 8 idOne setAmountOne =
      ({ monthlyStore with
          transactions := [{ plainMonthly with amount := 1 }, rentOfOtherUser] },
        Reply.ok { plainMonthly with amount := 1 }) ∧
    handleUpdateTransactionTags monthlyStore 8 idOne ["x"] =
      ({ monthlyStore with
          transactions := [{ plainMonthly with tags := ["x"] }, rentOfOtherUser] },
        Reply.ok { plainMonthly with tags := ["x"] }) :=
  ⟨rfl, rfl, rfl, rfl⟩

/-! ## Savings progress -/

/-- C26, the code at the failing input. For every store and user,
`transactionService.trackSavingsProgress` raises a `ReferenceError` instead of
returning; on the sample store `goalService.trackAllGoalsProgress` returns the two
goals of user 7, both in progress. -/
theorem trackSavingsProgress_raises (percent : ℚ → ℚ → String) :
    (∀ (s : Store) (userId : ObjectId),
      trackSavingsProgress percent s userId =
        Except.error (SaveError.thrown "ReferenceError: Goal is not defined")) ∧
    (trackAllGoalsProgress percent goalStore 7).map
        (fun p => (p.title, p.targetAmount, p.currentAmount, p.status)) =
      [("Bike", 100, 95, "In Progress"), ("Trip", 1000, 50, "In Progress")] := by
  constructor
  · intro s userId
    unfold trackSavingsProgress
    rw [if_neg (by decide)]
  · simp [trackAllGoalsProgress, goalStore, bikeGoal, tripGoal, otherGoal, progressStatus,
      List.filter_cons]
    norm_num


/-! ## Aggregations: the trends add up to the expense total -/

theorem sum_map_add_at_key {κ : Type} [DecidableEq κ] (k : κ) (a : ℚ) :
    ∀ groups : List (κ × ℚ), (groups.map Prod.fst).Nodup →
      ((groups.map (fun g => if g.1 = k then (g.1, g.2 + a) else g)).map Prod.snd).sum =
        (groups.map Prod.snd).sum + (if k ∈ groups.map Prod.fst then a else 0) := by
  intro groups
  induction groups with
  | nil => intro _; simp
  | cons g rest ih =>
    intro hnd
    rw [List.map_cons, List.nodup_cons] at hnd
    have hrest := ih hnd.2
    by_cases hg : g.1 = k
    · have hk : k ∉ rest.map Prod.fst := hg ▸ hnd.1
      rw [if_neg hk, add_zero] at hrest
      simp only [List.map_cons, List.sum_cons, hg, if_true, hrest, List.mem_cons, true_or]
      ring
    · have hmem : k ∈ g.1 :: rest.map Prod.fst ↔ k ∈ rest.map Prod.fst := by
        rw [List.mem_cons]
        constructor
        · rintro (h | h)
          · exact absurd h.symm hg
          · exact h
        · exact Or.inr
      simp only [List.map_cons, List.sum_cons, hg, if_false, hrest, hmem]
      ring

theorem sum_groupStep {κ : Type} [DecidableEq κ] (key : Transaction → κ)
    (groups : List (κ × ℚ)) (tx : Transaction) (hnd : (groups.map Prod.fst).Nodup) :
    ((groupStep key groups tx).map Prod.snd).sum = (groups.map Prod.snd).sum + tx.amount := by
  unfold groupStep
  by_cases hany : groups.any (fun g => decide (g.1 = key tx)) = true
  · have hmem : key tx ∈ groups.map Prod.fst := by
      obtain ⟨g, hg, hk⟩ := List.any_eq_true.1 hany
      exact List.mem_map.2 ⟨g, hg, by simpa using hk⟩
    rw [if_pos hany, sum_map_add_at_key (key tx) tx.amount groups hnd, if_pos hmem]
  · rw [if_neg hany]
    simp

/-- The totals of the groups add up to the sum of the amounts of the documents. -/
theorem sum_groupSum {κ : Type} [DecidableEq κ] (key : Transaction → κ)
    (docs : List Transaction) :
    ((groupSum key docs).map Prod.snd).sum = (docs.map Transaction.amount).sum := by
  have h : ∀ groups : List (κ × ℚ), (groups.map Prod.fst).Nodup →
      ((docs.foldl (groupStep key) groups).map Prod.snd).sum =
        (groups.map Prod.snd).sum + (docs.map Transaction.amount).sum := by
    induction docs with
    | nil => intro groups _; simp
    | cons tx rest ih =>
      intro groups hnd
      rw [List.foldl_cons, ih _ (groupStep_nodup key groups tx hnd), sum_groupStep key groups tx hnd]
      simp [add_assoc]
  have := h [] List.nodup_nil
  simpa [groupSum] using this

/-- The `match` of the trends is the `match` of income against expenses together
with the type expense. -/
theorem trendsMatch_eq (userId : ObjectId) (filters : ReportFilters) (tx : Transaction) :
    (trendsMatch userId filters).matches tx =
      ((incomeVsExpensesMatch userId filters).matches tx &&
        decide (tx.type = TxType.expense)) := by
  rw [Bool.eq_iff_iff, Bool.and_eq_true, decide_eq_true_eq]
  unfold trendsMatch incomeVsExpensesMatch
  rw [ownerQuery_matches_iff, ownerQuery_matches_iff]
  simp
  tauto

/-- With exact addition, the sum of `totalSpent` over the entries of
`getSpendingTrends` equals the `expense` value of `getIncomeVsExpenses` for the
same user and filter on the same store. -/
theorem trends_sum_exact (s : Store) (userId : ObjectId) (filters : ReportFilters) :
    ((getSpendingTrends s userId filters).map TrendEntry.totalSpent).sum =
      (getIncomeVsExpenses s userId filters).expense := by
  rw [(getIncomeVsExpenses_totals s userId filters).2]
  have hmap : (getSpendingTrends s userId filters).map TrendEntry.totalSpent =
      ((groupSum (fun tx => monthOf tx.date)
        (s.transactions.filter (trendsMatch userId filters).matches)).insertionSort
          groupKeyAsc).map Prod.snd := by
    unfold getSpendingTrends
    simp only [List.map_map]
    rfl
  rw [hmap, ((List.perm_insertionSort groupKeyAsc _).map Prod.snd).sum_eq, sum_groupSum,
    keyTotal, List.filter_filter]
  congr 2
  apply List.filter_congr
  intro tx _
  rw [trendsMatch_eq, Bool.and_comm]


/-! ## A single date bound -/

/-- The query of the report drops a date bound that comes alone. -/
theorem reportQuery_single_bound (filters : ReportFilters)
    (h : filters.startDate = none ∨ filters.endDate = none) :
    reportQuery filters =
      reportQuery { filters with startDate := none, endDate := none } := by
  unfold reportQuery
  rcases h with h | h
  · simp [h]
  · simp [h]

/-- The documents that an owner `match` with a lower bound keeps are those that the
same `match` without the bound keeps among the documents dated at or after it. -/
theorem ownerQuery_lower_bound (userId : ObjectId) (ty : Option TxType)
    (filters : ReportFilters) (a : Timestamp) (hs : filters.startDate = some a)
    (l : List Transaction)
    (q q' : LedgerQuery)
    (hq : ∀ tx, q.matches tx = true ↔
      (tx.userId = userId ∧ (∀ t ∈ ty, tx.type = t) ∧
        (∀ lo ∈ filters.startDate, lo ≤ tx.date) ∧ (∀ hi ∈ filters.endDate, tx.date ≤ hi) ∧
        (truthy filters.category = true → some tx.category = filters.category) ∧
        (truthy filters.tags = true →
          ∃ t ∈ tx.tags, t ∈ splitCommaTrim (filters.tags.getD ""))))
    (hq' : ∀ tx, q'.matches tx = true ↔
      (tx.userId = userId ∧ (∀ t ∈ ty, tx.type = t) ∧
        (∀ hi ∈ filters.endDate, tx.date ≤ hi) ∧
        (truthy filters.category = true → some tx.category = filters.category) ∧
        (truthy filters.tags = true →
          ∃ t ∈ tx.tags, t ∈ splitCommaTrim (filters.tags.getD "")))) :
    l.filter q.matches = (l.filter (fun tx => decide (a ≤ tx.date))).filter q'.matches := by
  rw [List.filter_filter]
  apply List.filter_congr
  intro tx _
  rw [Bool.eq_iff_iff, Bool.and_eq_true, hq tx, hq' tx, decide_eq_true_eq, hs]
  simp
  tauto

/-- The same for an upper bound. -/
theorem ownerQuery_upper_bound (userId : ObjectId) (ty : Option TxType)
    (filters : ReportFilters) (b : Timestamp) (he : filters.endDate = some b)
    (l : List Transaction)
    (q q' : LedgerQuery)
    (hq : ∀ tx, q.matches tx = true ↔
      (tx.userId = userId ∧ (∀ t ∈ ty, tx.type = t) ∧
        (∀ lo ∈ filters.startDate, lo ≤ tx.date) ∧ (∀ hi ∈ filters.endDate, tx.date ≤ hi) ∧
        (truthy filters.category = true → some tx.category = filters.category) ∧
        (truthy filters.tags = true →
          ∃ t ∈ tx.tags, t ∈ splitCommaTrim (filters.tags.getD ""))))
    (hq' : ∀ tx, q'.matches tx = true ↔
      (tx.userId = userId ∧ (∀ t ∈ ty, tx.type = t) ∧
        (∀ lo ∈ filters.startDate, lo ≤ tx.date) ∧
        (truthy filters.category = true → some tx.category = filters.category) ∧
        (truthy filters.tags = true →
          ∃ t ∈ tx.tags, t ∈ splitCommaTrim (filters.tags.getD "")))) :
    l.filter q.matches = (l.filter (fun tx => decide (tx.date ≤ b))).filter q'.matches := by
  rw [List.filter_filter]
  apply List.filter_congr
  intro tx _
  rw [Bool.eq_iff_iff, Bool.and_eq_true, hq tx, hq' tx, decide_eq_true_eq, he]
  simp
  tauto

/-- C28. `generateFinancialReport` restricts the dates only when both bounds are
supplied: for a filter that supplies at most one of them the report is the report
for the same filter without date bounds. `getIncomeVsExpenses` and
`getSpendingTrends` apply a bound that comes alone: with a lower bound only their
result is the result without the bound on the transactions dated at or after it,
with an upper bound only the result on the transactions dated at or before it. -/
theorem single_date_bound (s : Store) (userId : ObjectId) (filters : ReportFilters) :
    ((filters.startDate = none ∨ filters.endDate = none) →
      generateFinancialReport s filters =
        generateFinancialReport s { filters with startDate := none, endDate := none }) ∧
    (∀ a, filters.startDate = some a → filters.endDate = none →
      getIncomeVsExpenses s userId filters =
        getIncomeVsExpenses
          { s with transactions := s.transactions.filter (fun tx => decide (a ≤ tx.date)) }
          userId { filters with startDate := none } ∧
      getSpendingTrends s userId filters =
        getSpendingTrends
          { s with transactions := s.transactions.filter (fun tx => decide (a ≤ tx.date)) }
          userId { filters with startDate := none }) ∧
    (∀ b, filters.startDate = none → filters.endDate = some b →
      getIncomeVsExpenses s userId filters =
        getIncomeVsExpenses
          { s with transactions := s.transactions.filter (fun tx => decide (tx.date ≤ b)) }
          userId { filters with endDate := none } ∧
      getSpendingTrends s userId filters =
        getSpendingTrends
          { s with transactions := s.transactions.filter (fun tx => decide (tx.date ≤ b)) }
          userId { filters with endDate := none }) := by
  refine ⟨?_, ?_, ?_⟩
  · intro h
    unfold generateFinancialReport
    rw [reportQuery_single_bound filters h]
  · intro a hs he
    have hive : s.transactions.filter (incomeVsExpensesMatch userId filters).matches =
        (s.transactions.filter (fun tx => decide (a ≤ tx.date))).filter
          (incomeVsExpensesMatch userId { filters with startDate := none }).matches := by
      apply ownerQuery_lower_bound userId none filters a hs
      · intro tx
        unfold incomeVsExpensesMatch
        rw [ownerQuery_matches_iff]
      · intro tx
        unfold incomeVsExpensesMatch
        rw [ownerQuery_matches_iff]
        simp
    have htr : s.transactions.filter (trendsMatch userId filters).matches =
        (s.transactions.filter (fun tx => decide (a ≤ tx.date))).filter
          (trendsMatch userId { filters with startDate := none }).matches := by
      apply ownerQuery_lower_bound userId (some TxType.expense) filters a hs
      · intro tx
        unfold trendsMatch
        rw [ownerQuery_matches_iff]
      · intro tx
        unfold trendsMatch
        rw [ownerQuery_matches_iff]
        simp
    constructor
    · unfold getIncomeVsExpenses
      simp only [hive]
    · unfold getSpendingTrends
      simp only [htr]
  · intro b hs he
    have hive : s.transactions.filter (incomeVsExpensesMatch userId filters).matches =
        (s.transactions.filter (fun tx => decide (tx.date ≤ b))).filter
          (incomeVsExpensesMatch userId { filters with endDate := none }).matches := by
      apply ownerQuery_upper_bound userId none filters b he
      · intro tx
        unfold incomeVsExpensesMatch
        rw [ownerQuery_matches_iff]
      · intro tx
        unfold incomeVsExpensesMatch
        rw [ownerQuery_matches_iff]
        simp
    have htr : s.transactions.filter (trendsMatch userId filters).matches =
        (s.transactions.filter (fun tx => decide (tx.date ≤ b))).filter
          (trendsMatch userId { filters with endDate := none }).matches := by
      apply ownerQuery_upper_bound userId (some TxType.expense) filters b he
      · intro tx
        unfold trendsMatch
        rw [ownerQuery_matches_iff]
      · intro tx
        unfold trendsMatch
        rw [ownerQuery_matches_iff]
        simp
    constructor
    · unfold getIncomeVsExpenses
      simp only [hive]
    · unfold getSpendingTrends
      simp only [htr]

/-- The single bound `startDate = 1150` on a ledger with expenses of 60 at 1100 and
30 at 1200: the report counts both, income against expenses counts only the
later one. -/
theorem single_date_bound_witness :
    (generateFinancialReport twoExpenseStore fromFilter).totalExpenses = 90 ∧
    (getIncomeVsExpenses twoExpenseStore 7 fromFilter).expense = 30 :=
  have h := single_date_bound twoExpenseStore 7 fromFilter
  ⟨by
    rw [h.1 (Or.inr rfl)]
    simp [generateFinancialReport, Transaction.find, reportQuery, fromFilter,
      LedgerQuery.matches, truthy, twoExpenseStore, foodExpense, totalsStep]
    norm_num,
   by
    rw [(h.2.1 1150 rfl rfl).1]
    simp [getIncomeVsExpenses, incomeVsExpensesMatch, LedgerQuery.matches, fromFilter, truthy,
      twoExpenseStore, foodExpense, List.filter_cons, groupSum, groupStep, summarizeStep]⟩

/-! ## Identifiers that are not well formed -/

/-- C29. For every id string that is not a well-formed object identifier, no
transaction operation changes the store, and the outcomes differ:
`getTransactionById` and `updateTransactionTags` return `null`, `updateTransaction`
raises the error `Invalid transaction ID.` whatever the data, and
`deleteTransaction` fails on the cast of the id. -/
theorem malformed_id_outcomes (s : Store) (idText : String)
    (hbad : parseObjectId idText = none) (tags : List String) (data : TransactionUpdate) :
    getTransactionById s idText = none ∧
    updateTransactionTags s idText tags = (s, Except.ok none) ∧
    updateTransaction s idText data =
      (s, Except.error (SaveError.thrown "Invalid transaction ID.")) ∧
    deleteTransaction s idText = (s, Except.error (SaveError.cast "_id")) := by
  unfold getTransactionById updateTransactionTags updateTransaction deleteTransaction
  rw [hbad]
  exact ⟨rfl, rfl, rfl, rfl⟩

/-- The outcomes of C29 for the id string `abc` on the sample store. -/
theorem malformed_id_outcomes_witness :
    getTransactionById monthlyStore "abc" = none ∧
    updateTransactionTags monthlyStore "abc" ["x"] = (monthlyStore, Except.ok none) ∧
    updateTransaction monthlyStore "abc" setAmountOne =
      (monthlyStore, Except.error (SaveError.thrown "Invalid transaction ID.")) ∧
    deleteTransaction monthlyStore "abc" =
      (monthlyStore, Except.error (SaveError.cast "_id")) :=
  malformed_id_outcomes monthlyStore "abc" (by decide) ["x"] setAmountOne


/-! ## JavaScript numbers: properties of the rounding -/

/-- Rounding to nearest stays below twice the quotient. -/
theorem roundHalfEven_lt (n d : Nat) (hn : 0 < n) (hd : 0 < d) :
    roundHalfEven n d * d < 2 * n := by
  have hdm := Nat.div_add_mod n d
  have hr := Nat.mod_lt n hd
  unfold roundHalfEven
  simp only []
  generalize n / d = q at hdm ⊢
  generalize n % d = r at hdm hr ⊢
  have hqd : q * d = d * q := Nat.mul_comm q d
  split
  · rcases Nat.eq_zero_or_pos q with h0 | h0
    · subst h0; simp; omega
    · have : d ≤ d * q := Nat.le_mul_of_pos_right d h0
      omega
  · split
    · rw [Nat.add_mul]; omega
    · split
      · next hq =>
        rcases Nat.eq_zero_or_pos q with h0 | h0
        · subst h0; simp; omega
        · have : d ≤ d * q := Nat.le_mul_of_pos_right d h0
          omega
      · next hq =>
        have h0 : 0 < q := by
          rcases Nat.eq_zero_or_pos q with h0 | h0
          · subst h0; simp at hq
          · exact h0
        have : d ≤ d * q := Nat.le_mul_of_pos_right d h0
        rw [Nat.add_mul]; omega

/-- The rounding of a positive number stays below twice the number. -/
theorem binary64_lt_two_mul (q : ℚ) (hq : 0 < q) : binary64 q < 2 * q := by
  have hnum : 0 < q.num := Rat.num_pos.2 hq
  have hn : 0 < q.num.natAbs := Int.natAbs_pos.2 (ne_of_gt hnum)
  have hd : 0 < q.den := q.den_pos
  have hqe : q = (q.num.natAbs : ℚ) / (q.den : ℚ) := by
    have h1 : ((q.num.natAbs : ℤ) : ℚ) = (q.num : ℚ) := by
      rw [Int.natAbs_of_nonneg (le_of_lt hnum)]
    have h2 : ((q.num.natAbs : ℕ) : ℚ) = ((q.num.natAbs : ℤ) : ℚ) := (Int.cast_natCast _).symm
    rw [h2, h1]
    exact (Rat.num_div_den q).symm
  unfold binary64
  rw [if_neg (ne_of_gt hq), if_neg (not_lt.2 (le_of_lt hq)), one_mul]
  unfold roundPos
  simp only []
  generalize max (floorLog2 q.num.natAbs q.den - 52) (-1074) = e
  generalize q.num.natAbs = n at hn hqe
  generalize q.den = d at hd hqe
  have hdq : (0 : ℚ) < (d : ℚ) := by exact_mod_cast hd
  rw [hqe]
  by_cases he : 0 ≤ e
  · rw [if_pos he]
    obtain ⟨k, rfl⟩ := Int.eq_ofNat_of_zero_le he
    simp only [Int.toNat_ofNat, zpow_natCast]
    have h := roundHalfEven_lt n (d * 2 ^ k) hn (Nat.mul_pos hd (Nat.pos_pow_of_pos k (by norm_num)))
    have h' : ((roundHalfEven n (d * 2 ^ k) : ℕ) : ℚ) * ((d : ℚ) * 2 ^ k) < 2 * (n : ℚ) := by
      exact_mod_cast h
    rw [mul_div_assoc', lt_div_iff₀ hdq]
    calc ((roundHalfEven n (d * 2 ^ k) : ℕ) : ℚ) * 2 ^ k * (d : ℚ)
        = ((roundHalfEven n (d * 2 ^ k) : ℕ) : ℚ) * ((d : ℚ) * 2 ^ k) := by ring
      _ < 2 * (n : ℚ) := h'
  · rw [if_neg he]
    have hneg : 0 ≤ -e := by omega
    obtain ⟨k, hk⟩ := Int.eq_ofNat_of_zero_le hneg
    have hek : e = -(k : ℤ) := by omega
    rw [hk, hek]
    simp only [Int.toNat_ofNat, zpow_neg, zpow_natCast]
    have h := roundHalfEven_lt (n * 2 ^ k) d (Nat.mul_pos hn (Nat.pos_pow_of_pos k (by norm_num))) hd
    have h' : ((roundHalfEven (n * 2 ^ k) d : ℕ) : ℚ) * (d : ℚ) < 2 * ((n : ℚ) * 2 ^ k) := by
      exact_mod_cast h
    have h2 : (0 : ℚ) < (2 : ℚ) ^ k := by positivity
    rw [mul_div_assoc', lt_div_iff₀ hdq, ← div_eq_mul_inv, div_mul_eq_mul_div, div_lt_iff₀ h2]
    linarith

/-- Half of a positive number, rounded, is below the number. -/
theorem binary64_half_lt (a : ℚ) (ha : 0 < a) : binary64 (a * 0.5) < a := by
  have h := binary64_lt_two_mul (a * 0.5) (by norm_num; exact ha)
  have : 2 * (a * 0.5) = a := by ring
  rw [this] at h
  exact h

/-- The rounding is symmetric about zero. -/
theorem binary64_neg (q : ℚ) : binary64 (-q) = -binary64 q := by
  unfold binary64
  rcases lt_trichotomy q 0 with h | h | h
  · have h1 : -q ≠ 0 := by intro hc; rw [neg_eq_zero] at hc; exact (ne_of_lt h) hc
    have h2 : ¬ (-q < 0) := by rw [neg_lt_zero]; exact not_lt.2 (le_of_lt h)
    rw [if_neg h1, if_neg (ne_of_lt h), if_neg h2, if_pos h]
    simp [Rat.neg_num, Rat.neg_den]
  · subst h; simp
  · have h1 : -q ≠ 0 := by intro hc; rw [neg_eq_zero] at hc; exact (ne_of_gt h) hc
    have h2 : -q < 0 := by rw [neg_lt_zero]; exact h
    rw [if_neg h1, if_neg (ne_of_gt h), if_pos h2, if_neg (not_lt.2 (le_of_lt h))]
    simp [Rat.neg_num, Rat.neg_den]

/-- The rounding on some numbers: `0.1` is the binary64 value
3602879701896397 / 2 ^ 55, `0.1 + 0.2` is the value above `0.3`, integers and
halves are kept, and `12 * 0.8` is the value above `9.6`; `2 ^ 53 + 1` lies
halfway between two values and goes to the even one, as does `2 ^ 53 + 3`; below
`2 ^ -1022` the values are `2 ^ -1074` apart, and half of the smallest one goes to
0. -/
theorem binary64_samples :
    binary64 (1 / 10) = 3602879701896397 / 36028797018963968 ∧
    binary64 (binary64 (1 / 10) + binary64 (2 / 10)) ≠ binary64 (3 / 10) ∧
    binary64 (binary64 (1 / 10) + binary64 (2 / 10)) =
      binary64 (3 / 10) + 1 / 18014398509481984 ∧
    binary64 100 = 100 ∧ binary64 0.5 = 0.5 ∧ binary64 (-5) = -5 ∧
    binary64 (12 * binary64 0.8) = binary64 (96 / 10) + 1 / 562949953421312 ∧
    binary64 (2 ^ 53 + 1) = 2 ^ 53 ∧ binary64 (2 ^ 53 + 3) = 2 ^ 53 + 4 ∧
    binary64 (3 / 2 ^ 1075) = 2 / 2 ^ 1074 ∧ binary64 (1 / 2 ^ 1075) = 0 := by
  decide!

/-! ## Goal allocator on rounded numbers: the loop in closed form -/

theorem rounded_allocateStep_goals (rnd : ℚ → ℚ) (amount : ℚ) (s : Store) (goal : Goal) :
    (Rounded.allocateStep rnd amount s goal).goals =
      s.goals.map (Rounded.stepGoal rnd amount goal) := by
  by_cases h : rnd (goal.currentAmount + rnd (rnd (amount * goal.allocationPercentage) / 100)) ≤
      goal.targetAmount
  · simp only [Rounded.allocateStep, h, if_true, Goal.save]
    apply List.map_congr_left
    intro x _
    simp [Rounded.stepGoal, h]
  · have hid : Rounded.stepGoal rnd amount goal = id := by
      funext x; simp [Rounded.stepGoal, h]
    simp only [Rounded.allocateStep, h, if_false, hid, List.map_id]

theorem rounded_stepGoal_id (rnd : ℚ → ℚ) (amount : ℚ) (goal stored : Goal) :
    (Rounded.stepGoal rnd amount goal stored)._id = stored._id := by
  unfold Rounded.stepGoal; split <;> rfl

theorem rounded_foldl_allocateStep_goals (rnd : ℚ → ℚ) (amount : ℚ) (snap : List Goal)
    (hnd : (snap.map Goal._id).Nodup) (s : Store) :
    (snap.foldl (Rounded.allocateStep rnd amount) s).goals =
      s.goals.map (Rounded.loopGoal rnd amount snap) := by
  induction snap generalizing s with
  | nil =>
    have hid : Rounded.loopGoal rnd amount [] = id := by
      funext x; simp [Rounded.loopGoal]
    simp [hid]
  | cons g rest ih =>
    rw [List.map_cons, List.nodup_cons] at hnd
    rw [List.foldl_cons, ih hnd.2, rounded_allocateStep_goals, List.map_map]
    apply List.map_congr_left
    intro h _
    simp only [Function.comp]
    by_cases hid : g._id = h._id
    · have hnone : rest.find? (fun x => decide (x._id = h._id)) = none := by
        rw [List.find?_eq_none]
        intro x hx hxe
        have : x._id = h._id := by simpa using hxe
        exact hnd.1 (by rw [hid, ← this]; exact List.mem_map_of_mem _ hx)
      simp [Rounded.loopGoal, rounded_stepGoal_id, hnone, hid]
    · have hs : Rounded.stepGoal rnd amount g h = h := by
        unfold Rounded.stepGoal
        rw [if_neg]
        intro hc; exact hid hc.1.symm
      simp [Rounded.loopGoal, hs, hid]

/-- With unique ids, the allocation loop rewrites every stored goal by
`Rounded.allocateGoal`, in place. -/
theorem rounded_allocate_goals (rnd : ℚ → ℚ) (s : Store) (hu : s.UniqueGoalIds)
    (transaction : Transaction) :
    (Rounded.allocateSavingsAutomatically rnd s transaction).goals =
      s.goals.map (Rounded.allocateGoal rnd transaction) := by
  unfold Rounded.allocateSavingsAutomatically
  by_cases hg : transaction.type ≠ TxType.income ∨ transaction.amount ≤ 0
  · rw [if_pos hg]
    have hid : ∀ g ∈ s.goals, Rounded.allocateGoal rnd transaction g = g := by
      intro g _
      unfold Rounded.allocateGoal
      rw [if_neg]
      rintro ⟨h1, h2, -⟩
      rcases hg with hg | hg
      · exact hg h1
      · exact absurd h2 (not_lt.2 hg)
    conv_lhs => rw [← List.map_id s.goals]
    exact List.map_congr_left (fun g hg => (hid g hg).symm)
  · rw [if_neg hg]
    have hg' : transaction.type = TxType.income ∧ 0 < transaction.amount := by
      constructor
      · by_contra hc; exact hg (Or.inl hc)
      · by_contra hc; exact hg (Or.inr (not_lt.1 hc))
    simp only [Goal.findAutoAllocate]
    rw [rounded_foldl_allocateStep_goals _ _ _ (nodup_filter_ids _ _ hu)]
    apply List.map_congr_left
    intro h hh
    unfold Rounded.loopGoal
    rw [find?_filter_of_nodup _ _ hu h hh]
    by_cases he : h.userId = transaction.userId ∧ h.autoAllocate = true
    · simp [he.1, he.2, Rounded.stepGoal, Rounded.allocateGoal, hg'.1, hg'.2]
    · have : (decide (h.userId = transaction.userId) && h.autoAllocate) = false := by
        rcases not_and_or.1 he with h1 | h1
        · simp [h1]
        · simp [h1]
      rw [this]
      simp only [Bool.false_eq_true, if_false]
      unfold Rounded.allocateGoal
      rw [if_neg]
      rintro ⟨-, -, h3, h4, -⟩
      exact he ⟨h3, h4⟩

theorem rounded_allocateGoal_id (rnd : ℚ → ℚ) (transaction : Transaction) (g : Goal) :
    (Rounded.allocateGoal rnd transaction g)._id = g._id := by
  unfold Rounded.allocateGoal; split <;> rfl

/-- After allocation the document with the id of a stored goal `g` is
`Rounded.allocateGoal rnd transaction g`. -/
theorem rounded_goalById_allocate (rnd : ℚ → ℚ) (s : Store) (hu : s.UniqueGoalIds)
    (transaction : Transaction) (g : Goal) (hg : g ∈ s.goals) :
    (Rounded.allocateSavingsAutomatically rnd s transaction).goalById g._id =
      some (Rounded.allocateGoal rnd transaction g) := by
  unfold Store.goalById
  rw [rounded_allocate_goals rnd s hu]
  exact find?_map_of_nodup _ (rounded_allocateGoal_id rnd transaction) _ hu g hg

/-- With exact arithmetic the allocator on rounded numbers is the allocator of the
first section. -/
theorem rounded_allocate_exact (s : Store) (transaction : Transaction) :
    Rounded.allocateSavingsAutomatically id s transaction =
      allocateSavingsAutomatically s transaction := rfl

/-! ## Goal allocator on rounded numbers: claims -/

/-- C3. For an income transaction with `amount > 0` and a goal `g` of its user with
`autoAllocate = true`, with `share = amount * g.allocationPercentage / 100` and the
sum `g.currentAmount + share` as the program computes them (every operation
rounded by `rnd`, which is `binary64` in JavaScript): if
`g.currentAmount + share ≤ g.targetAmount` the stored goal afterwards is `g` with
`currentAmount` raised by `share`; otherwise it is `g` unchanged (skipped, not
filled up to the target); and the outcome is the same in every store that holds
`g`, whatever its other goals. -/
theorem allocate_outcome_per_goal (rnd : ℚ → ℚ) (s : Store) (hu : s.UniqueGoalIds)
    (transaction : Transaction) (hinc : transaction.type = TxType.income)
    (hpos : 0 < transaction.amount)
    (g : Goal) (hg : g ∈ s.goals) (huser : g.userId = transaction.userId)
    (hauto : g.autoAllocate = true) :
    (rnd (g.currentAmount + rnd (rnd (transaction.amount * g.allocationPercentage) / 100)) ≤
        g.targetAmount →
      (Rounded.allocateSavingsAutomatically rnd s transaction).goalById g._id =
        some { g with
          currentAmount :=
            rnd (g.currentAmount +
              rnd (rnd (transaction.amount * g.allocationPercentage) / 100)) }) ∧
    (¬ (rnd (g.currentAmount + rnd (rnd (transaction.amount * g.allocationPercentage) / 100)) ≤
        g.targetAmount) →
      (Rounded.allocateSavingsAutomatically rnd s transaction).goalById g._id = some g) ∧
    (∀ s' : Store, s'.UniqueGoalIds → g ∈ s'.goals →
      (Rounded.allocateSavingsAutomatically rnd s' transaction).goalById g._id =
        (Rounded.allocateSavingsAutomatically rnd s transaction).goalById g._id) := by
  refine ⟨?_, ?_, ?_⟩
  · intro hfit
    rw [rounded_goalById_allocate rnd s hu transaction g hg]
    simp [Rounded.allocateGoal, hinc, hpos, huser, hauto, hfit]
  · intro hfit
    rw [rounded_goalById_allocate rnd s hu transaction g hg]
    simp [Rounded.allocateGoal, hfit]
  · intro s' hu' hg'
    rw [rounded_goalById_allocate rnd s hu transaction g hg,
      rounded_goalById_allocate rnd s' hu' transaction g hg']

/-- The scenario of C3 in binary64: target 100, percentage 10, current 95. An
income of 100 gives the share 10, the goal is skipped and keeps 95, alone in the
store or next to other goals; an income of 50 gives the share 5 and the goal
holds 100 afterwards. With target 0.123, nothing saved and percentage 10, an
income of 1.23 gives the share 0.12300000000000001, which is above the target:
the goal is skipped. -/
theorem allocate_outcome_per_goal_witness :
    (Rounded.allocateSavingsAutomatically binary64 bikeStore salary).goalById bikeGoal._id =
      some bikeGoal ∧
    bikeGoal.currentAmount = 95 ∧
    (Rounded.allocateSavingsAutomatically binary64 goalStore salary).goalById bikeGoal._id =
      some bikeGoal ∧
    (Rounded.allocateSavingsAutomatically binary64 bikeStore halfSalary).goalById bikeGoal._id =
      some { bikeGoal with currentAmount := 100 } ∧
    binary64 (binary64 (centIncome.amount * centGoal.allocationPercentage) / 100) =
      centGoal.targetAmount + 1 / 72057594037927936 ∧
    (Rounded.allocateSavingsAutomatically binary64 centStore centIncome).goalById centGoal._id =
      some centGoal :=
  have h := allocate_outcome_per_goal binary64 bikeStore (by decide) salary rfl
    (by decide!) bikeGoal (by simp [bikeStore]) rfl rfl
  have hskip := h.2.1 (by decide!)
  have h50 := (allocate_outcome_per_goal binary64 bikeStore (by decide) halfSalary rfl
    (by decide!) bikeGoal (by simp [bikeStore]) rfl rfl).1 (by decide!)
  have hcent := (allocate_outcome_per_goal binary64 centStore (by decide) centIncome rfl
    (by decide!) centGoal (by simp [centStore]) rfl rfl).2.1 (by decide!)
  ⟨hskip, rfl, (h.2.2 goalStore (by decide) (by simp [goalStore])).trans hskip,
    h50.trans (by decide!), by decide!, hcent⟩

/-! ## Budget monitor on rounded numbers -/

theorem rounded_checkBudgetStatusStep_append (rnd : ℚ → ℚ) (s : Store) (userId : ObjectId)
    (n : List String) (budget : Budget) :
    Rounded.checkBudgetStatusStep rnd s userId n budget =
      n ++ Rounded.checkBudgetStatusStep rnd s userId [] budget := by
  unfold Rounded.checkBudgetStatusStep
  simp only []
  split
  · simp
  · split <;> simp

theorem rounded_foldl_checkBudgetStatusStep (rnd : ℚ → ℚ) (s : Store) (userId : ObjectId)
    (budgets : List Budget) (n : List String) :
    budgets.foldl (Rounded.checkBudgetStatusStep rnd s userId) n =
      n ++ (budgets.map (Rounded.checkBudgetStatusStep rnd s userId [])).flatten := by
  induction budgets generalizing n with
  | nil => simp
  | cons b rest ih =>
    rw [List.foldl_cons, ih, rounded_checkBudgetStatusStep_append]
    simp [List.append_assoc]

/-- The notifications of `checkBudgetStatus` are the contributions of the user's
budgets, in the order of the budgets. -/
theorem rounded_checkBudgetStatus_flatten (rnd : ℚ → ℚ) (s : Store) (userId : ObjectId) :
    Rounded.checkBudgetStatus rnd s userId =
      ((Budget.findByUser s userId).map
        (Rounded.checkBudgetStatusStep rnd s userId [])).flatten := by
  unfold Rounded.checkBudgetStatus
  simp only [rounded_foldl_checkBudgetStatusStep, List.nil_append]

theorem rounded_checkBudgetStatusStep_length (rnd : ℚ → ℚ) (s : Store) (userId : ObjectId)
    (budget : Budget) :
    (Rounded.checkBudgetStatusStep rnd s userId [] budget).length ≤ 1 := by
  unfold Rounded.checkBudgetStatusStep
  simp only []
  split
  · simp
  · split <;> simp

theorem length_flatten_le (ls : List (List String)) (h : ∀ l ∈ ls, l.length ≤ 1) :
    ls.flatten.length ≤ ls.length := by
  induction ls with
  | nil => simp
  | cons a rest ih =>
    have h1 := h a (List.mem_cons_self _ _)
    have h2 := ih (fun l hl => h l (List.mem_cons_of_mem _ hl))
    simp only [List.flatten_cons, List.length_append, List.length_cons]
    omega

theorem rounded_getBudgetRecommendationsStep_append (rnd : ℚ → ℚ) (render : ℚ → String)
    (s : Store) (userId : ObjectId) (n : List String) (budget : Budget) :
    Rounded.getBudgetRecommendationsStep rnd render s userId n budget =
      n ++ Rounded.getBudgetRecommendationsStep rnd render s userId [] budget := by
  unfold Rounded.getBudgetRecommendationsStep
  simp only []
  split
  · simp
  · split <;> simp

/-- The recommendation chosen for one budget. -/
theorem rounded_getBudgetRecommendationsStep_nil (rnd : ℚ → ℚ) (render : ℚ → String)
    (s : Store) (userId : ObjectId) (budget : Budget) :
    Rounded.getBudgetRecommendationsStep rnd render s userId [] budget =
      [if Rounded.budgetTotalSpent rnd s userId budget > budget.amount then
          exceededRecommendation render budget
        else if Rounded.budgetTotalSpent rnd s userId budget > rnd (budget.amount * 0.5) then
          overHalfRecommendation budget
        else underHalfRecommendation budget] := by
  unfold Rounded.getBudgetRecommendationsStep
  simp only []
  split
  · simp
  · split <;> simp

/-- The recommendations of `getBudgetRecommendations` are the recommendations
chosen for the user's budgets, in the order of the budgets. -/
theorem rounded_getBudgetRecommendations_map (rnd : ℚ → ℚ) (render : ℚ → String) (s : Store)
    (userId : ObjectId) :
    Rounded.getBudgetRecommendations rnd render s userId =
      (Budget.findByUser s userId).map (fun budget =>
        if Rounded.budgetTotalSpent rnd s userId budget > budget.amount then
          exceededRecommendation render budget
        else if Rounded.budgetTotalSpent rnd s userId budget > rnd (budget.amount * 0.5) then
          overHalfRecommendation budget
        else underHalfRecommendation budget) := by
  have hfold : ∀ (budgets : List Budget) (n : List String),
      budgets.foldl (Rounded.getBudgetRecommendationsStep rnd render s userId) n =
        n ++ budgets.map (fun budget =>
          if Rounded.budgetTotalSpent rnd s userId budget > budget.amount then
            exceededRecommendation render budget
          else if Rounded.budgetTotalSpent rnd s userId budget > rnd (budget.amount * 0.5) then
            overHalfRecommendation budget
          else underHalfRecommendation budget) := by
    intro budgets
    induction budgets with
    | nil => intro n; simp
    | cons b rest ih =>
      intro n
      rw [List.foldl_cons, ih, rounded_getBudgetRecommendationsStep_append,
        rounded_getBudgetRecommendationsStep_nil]
      simp [List.append_assoc]
  unfold Rounded.getBudgetRecommendations
  simp only [hfold, List.nil_append]

/-- The three outcomes of the loop body of `checkBudgetStatus`. -/
theorem rounded_checkBudgetStatusStep_cases (rnd : ℚ → ℚ) (s : Store) (userId : ObjectId)
    (n : List String) (budget : Budget) :
    (Rounded.budgetTotalSpent rnd s userId budget ≥ budget.amount ∧
      Rounded.checkBudgetStatusStep rnd s userId n budget =
        n ++ [exceededNotification budget]) ∨
    (¬ (Rounded.budgetTotalSpent rnd s userId budget ≥ budget.amount) ∧
      rnd (budget.amount * rnd 0.8) ≤ Rounded.budgetTotalSpent rnd s userId budget ∧
      Rounded.checkBudgetStatusStep rnd s userId n budget =
        n ++ [nearingNotification budget]) ∨
    (¬ (Rounded.budgetTotalSpent rnd s userId budget ≥ budget.amount) ∧
      ¬ (rnd (budget.amount * rnd 0.8) ≤ Rounded.budgetTotalSpent rnd s userId budget) ∧
      Rounded.checkBudgetStatusStep rnd s userId n budget = n) := by
  unfold Rounded.checkBudgetStatusStep
  simp only []
  by_cases h1 : Rounded.budgetTotalSpent rnd s userId budget ≥ budget.amount
  · exact Or.inl ⟨h1, by rw [if_pos h1]⟩
  · by_cases h2 : Rounded.budgetTotalSpent rnd s userId budget ≥ rnd (budget.amount * rnd 0.8)
    · exact Or.inr (Or.inl ⟨h1, h2, by rw [if_neg h1, if_pos h2]⟩)
    · exact Or.inr (Or.inr ⟨h1, h2, by rw [if_neg h1, if_neg h2]⟩)

/-- With exact arithmetic the budget functions on rounded numbers are the functions
of the first section. -/
theorem rounded_budget_exact (render : ℚ → String) (s : Store) (userId : ObjectId) :
    Rounded.checkBudgetStatus id s userId = checkBudgetStatus s userId ∧
      Rounded.getBudgetRecommendations id render s userId =
        getBudgetRecommendations render s userId :=
  ⟨rfl, rfl⟩

/-- C6. For a budget processed by `checkBudgetStatus` with the total `t` that the
program computes (the expenses added up newest first, every addition rounded) and
the product `0.8 * budget.amount` that it computes: the loop body appends the
exceeded notification exactly when `t ≥ budget.amount`, the nearing notification
exactly when `0.8 * budget.amount ≤ t < budget.amount`, and nothing in every other
case; the result of `checkBudgetStatus` is the concatenation of these
contributions in the order of the user's budgets, so each budget contributes at
most one notification and the result is never longer than the list of the user's
budgets. -/
theorem checkBudgetStatus_tiers (rnd : ℚ → ℚ) (s : Store) (userId : ObjectId)
    (budget : Budget) (notifications : List String) :
    (Rounded.checkBudgetStatusStep rnd s userId notifications budget =
        notifications ++ [exceededNotification budget] ↔
      Rounded.budgetTotalSpent rnd s userId budget ≥ budget.amount) ∧
    (Rounded.checkBudgetStatusStep rnd s userId notifications budget =
        notifications ++ [nearingNotification budget] ↔
      rnd (budget.amount * rnd 0.8) ≤ Rounded.budgetTotalSpent rnd s userId budget ∧
        Rounded.budgetTotalSpent rnd s userId budget < budget.amount) ∧
    (Rounded.checkBudgetStatusStep rnd s userId notifications budget = notifications ↔
      ¬ (Rounded.budgetTotalSpent rnd s userId budget ≥ budget.amount) ∧
        ¬ (rnd (budget.amount * rnd 0.8) ≤ Rounded.budgetTotalSpent rnd s userId budget ∧
          Rounded.budgetTotalSpent rnd s userId budget < budget.amount)) ∧
    Rounded.checkBudgetStatus rnd s userId =
      ((Budget.findByUser s userId).map
        (Rounded.checkBudgetStatusStep rnd s userId [])).flatten ∧
    (Rounded.checkBudgetStatusStep rnd s userId [] budget).length ≤ 1 ∧
    (Rounded.checkBudgetStatus rnd s userId).length ≤ (Budget.findByUser s userId).length := by
  have hne := exceeded_ne_nearing budget budget
  have hflat := rounded_checkBudgetStatus_flatten rnd s userId
  have hlen : (Rounded.checkBudgetStatus rnd s userId).length ≤
      (Budget.findByUser s userId).length := by
    rw [hflat]
    refine (length_flatten_le _ ?_).trans (by simp)
    intro l hl
    obtain ⟨b, -, rfl⟩ := List.mem_map.1 hl
    exact rounded_checkBudgetStatusStep_length rnd s userId b
  have hself : ∀ x : String, notifications ++ [x] ≠ notifications := by
    intro x hc
    have := congrArg List.length hc
    simp at this
  refine ⟨?_, ?_, ?_, hflat, rounded_checkBudgetStatusStep_length rnd s userId budget, hlen⟩
  · rcases rounded_checkBudgetStatusStep_cases rnd s userId notifications budget with
      ⟨h1, hs⟩ | ⟨h1, h2, hs⟩ | ⟨h1, h2, hs⟩
    · exact ⟨fun _ => h1, fun _ => hs⟩
    · refine ⟨fun hc => ?_, fun hc => absurd hc h1⟩
      rw [hs] at hc
      exact absurd (List.singleton_inj.1 (List.append_cancel_left hc)).symm hne
    · refine ⟨fun hc => ?_, fun hc => absurd hc h1⟩
      rw [hs] at hc
      exact absurd hc.symm (hself _)
  · rcases rounded_checkBudgetStatusStep_cases rnd s userId notifications budget with
      ⟨h1, hs⟩ | ⟨h1, h2, hs⟩ | ⟨h1, h2, hs⟩
    · refine ⟨fun hc => ?_, fun hc => absurd h1 (not_le.2 hc.2)⟩
      rw [hs] at hc
      exact absurd (List.singleton_inj.1 (List.append_cancel_left hc)) hne
    · exact ⟨fun _ => ⟨h2, not_le.1 h1⟩, fun _ => hs⟩
    · refine ⟨fun hc => ?_, fun hc => absurd hc.1 h2⟩
      rw [hs] at hc
      exact absurd hc.symm (hself _)
  · rcases rounded_checkBudgetStatusStep_cases rnd s userId notifications budget with
      ⟨h1, hs⟩ | ⟨h1, h2, hs⟩ | ⟨h1, h2, hs⟩
    · refine ⟨fun hc => ?_, fun hc => absurd h1 hc.1⟩
      rw [hs] at hc
      exact absurd hc (hself _)
    · refine ⟨fun hc => ?_, fun hc => absurd ⟨h2, not_le.1 h1⟩ hc.2⟩
      rw [hs] at hc
      exact absurd hc (hself _)
    · exact ⟨fun _ => ⟨h1, fun hc => h2 hc.1⟩, fun _ => hs⟩

/-- C6 on samples in binary64. A budget of 3.6 with expenses 1.1, 1.2 and 1.3
(newest first) has the total 3.5999999999999996, below the budget and above
`3.6 * 0.8`: the notification is the nearing one. A budget of 12 with one expense
of 9.6 has `12 * 0.8 = 9.600000000000001`, above the total: no notification. The
budget of 100 with expenses of 60 and 30 is reported as nearing. -/
theorem checkBudgetStatus_tiers_witness :
    Rounded.budgetTotalSpent binary64 tightStore 7 (plainBudget (binary64 (36 / 10))) =
      binary64 (36 / 10) - 1 / 2251799813685248 ∧
    Rounded.checkBudgetStatus binary64 tightStore 7 =
      ["You are nearing your budget for Food."] ∧
    Rounded.budgetTotalSpent binary64 dozenStore 7 (plainBudget 12) = binary64 (96 / 10) ∧
    binary64 (12 * binary64 0.8) = binary64 (96 / 10) + 1 / 562949953421312 ∧
    Rounded.checkBudgetStatus binary64 dozenStore 7 = [] ∧
    Rounded.checkBudgetStatus binary64 foodStore 7 =
      ["You are nearing your budget for Food."] ∧
    (Rounded.checkBudgetStatusStep binary64 tightStore 7 []
        (plainBudget (binary64 (36 / 10))) =
      [] ++ [nearingNotification (plainBudget (binary64 (36 / 10)))]) :=
  ⟨by decide!, by decide!, by decide!, by decide!, by decide!, by decide!,
    (checkBudgetStatus_tiers binary64 tightStore 7 (plainBudget (binary64 (36 / 10))) []).2.1.2
      (by decide!)⟩

/-- C7. `getBudgetRecommendations` returns exactly one recommendation per budget of
the user, in the order of the budgets: the exceeded message when the total `t`
that the program computes satisfies `t > budget.amount`, otherwise the over-half
message when `t > 0.5 * budget.amount`, otherwise the under-half message. -/
theorem getBudgetRecommendations_spec (rnd : ℚ → ℚ) (render : ℚ → String) (s : Store)
    (userId : ObjectId) :
    Rounded.getBudgetRecommendations rnd render s userId =
      (Budget.findByUser s userId).map (fun budget =>
        if Rounded.budgetTotalSpent rnd s userId budget > budget.amount then
          exceededRecommendation render budget
        else if Rounded.budgetTotalSpent rnd s userId budget > rnd (budget.amount * 0.5) then
          overHalfRecommendation budget
        else underHalfRecommendation budget) ∧
    (Rounded.getBudgetRecommendations rnd render s userId).length =
      (Budget.findByUser s userId).length := by
  have h := rounded_getBudgetRecommendations_map rnd render s userId
  exact ⟨h, by rw [h, List.length_map]⟩

/-- C7 on samples in binary64. A budget of 1.7 with expenses 0.5, 0.6 and 0.6
(newest first) has the total 1.7000000000000002, above the budget: the
recommendation is the exceeded one. The budget of 100 with expenses of 60 and 30
gets the over-half recommendation. -/
theorem getBudgetRecommendations_spec_witness :
    Rounded.budgetTotalSpent binary64 smallStore 7 (plainBudget (binary64 (17 / 10))) =
      binary64 (17 / 10) + 1 / 4503599627370496 ∧
    Rounded.getBudgetRecommendations binary64 (fun _ => "1.7") smallStore 7 =
      ["You have exceeded your budget (1.7) for Food. " ++
        "Consider increasing your budget or reducing expenses."] ∧
    Rounded.getBudgetRecommendations binary64 (fun _ => "100") foodStore 7 =
      ["You have used more than 50% of your budget (Food). " ++
        "Consider adjusting your budget or tracking expenses more carefully."] ∧
    (Rounded.getBudgetRecommendations binary64 (fun _ => "1.7") smallStore 7).length =
      (Budget.findByUser smallStore 7).length :=
  ⟨by decide!, by decide!, by decide!,
    (getBudgetRecommendations_spec binary64 (fun _ => "1.7") smallStore 7).2⟩

/-- C8. The two budget operations keep different boundaries, in binary64. For a
budget of the user with `amount > 0` whose total, as the program computes it,
equals `budget.amount` exactly, `checkBudgetStatus` emits the exceeded
notification while `getBudgetRecommendations` emits, at the position of the
budget, the over-half message and not its exceeded message; and whenever
`getBudgetRecommendations` emits its exceeded message at the position of a budget,
`checkBudgetStatus` emits the exceeded notification for it on the same store. -/
theorem budget_boundaries_differ (render : ℚ → String) (s : Store) (userId : ObjectId)
    (budget : Budget) (i : Nat) (hi : (Budget.findByUser s userId)[i]? = some budget) :
    (0 < budget.amount → Rounded.budgetTotalSpent binary64 s userId budget = budget.amount →
      Rounded.checkBudgetStatusStep binary64 s userId [] budget =
        [exceededNotification budget] ∧
      exceededNotification budget ∈ Rounded.checkBudgetStatus binary64 s userId ∧
      (Rounded.getBudgetRecommendations binary64 render s userId)[i]? =
        some (overHalfRecommendation budget) ∧
      (Rounded.getBudgetRecommendations binary64 render s userId)[i]? ≠
        some (exceededRecommendation render budget)) ∧
    ((Rounded.getBudgetRecommendations binary64 render s userId)[i]? =
        some (exceededRecommendation render budget) →
      Rounded.checkBudgetStatusStep binary64 s userId [] budget =
        [exceededNotification budget] ∧
      exceededNotification budget ∈ Rounded.checkBudgetStatus binary64 s userId) := by
  have hmem : budget ∈ Budget.findByUser s userId := List.getElem?_mem hi
  have hrec : (Rounded.getBudgetRecommendations binary64 render s userId)[i]? =
      some (if Rounded.budgetTotalSpent binary64 s userId budget > budget.amount then
          exceededRecommendation render budget
        else if Rounded.budgetTotalSpent binary64 s userId budget >
            binary64 (budget.amount * 0.5) then
          overHalfRecommendation budget
        else underHalfRecommendation budget) := by
    rw [rounded_getBudgetRecommendations_map, List.getElem?_map, hi]
    rfl
  have hin : Rounded.checkBudgetStatusStep binary64 s userId [] budget =
        [exceededNotification budget] →
      exceededNotification budget ∈ Rounded.checkBudgetStatus binary64 s userId := by
    intro hstep
    rw [rounded_checkBudgetStatus_flatten, List.mem_flatten]
    exact ⟨_, List.mem_map.2 ⟨budget, hmem, rfl⟩, by rw [hstep]; exact List.mem_singleton.2 rfl⟩
  constructor
  · intro hpos heq
    have hhalf : budget.amount > binary64 (budget.amount * 0.5) :=
      binary64_half_lt budget.amount hpos
    have hstep : Rounded.checkBudgetStatusStep binary64 s userId [] budget =
        [exceededNotification budget] := by
      simp [Rounded.checkBudgetStatusStep, heq]
    refine ⟨hstep, hin hstep, ?_, ?_⟩
    · rw [hrec, heq]
      simp [hhalf]
    · rw [hrec, heq]
      simp only [gt_iff_lt, lt_self_iff_false, if_false, hhalf, if_true]
      intro hc
      exact exceededRec_ne_overHalf render budget budget (Option.some.inj hc).symm
  · intro hex
    rw [hrec] at hex
    have hex' := Option.some.inj hex
    have hgt : Rounded.budgetTotalSpent binary64 s userId budget > budget.amount := by
      by_contra hc
      rw [if_neg hc] at hex'
      split at hex'
      · exact exceededRec_ne_overHalf render budget budget hex'.symm
      · exact exceededRec_ne_underHalf render budget budget hex'.symm
    have hstep : Rounded.checkBudgetStatusStep binary64 s userId [] budget =
        [exceededNotification budget] := by
      simp [Rounded.checkBudgetStatusStep, le_of_lt hgt]
    exact ⟨hstep, hin hstep⟩

/-- The boundary case of C8 on a store whose Food expenses (60 and 40) meet the
budget of 100 exactly: `checkBudgetStatus` reports the budget as exceeded,
`getBudgetRecommendations` as more than half used. On the store with a budget of
1.7 and expenses 0.5, 0.6 and 0.6 the total is not the budget but the number
above it, and both operations report the budget as exceeded. -/
theorem budget_boundaries_differ_witness :
    Rounded.checkBudgetStatus binary64 exactStore 7 = ["Budget exceeded for Food!"] ∧
    Rounded.getBudgetRecommendations binary64 (fun _ => "100") exactStore 7 =
      ["You have used more than 50% of your budget (Food). " ++
        "Consider adjusting your budget or tracking expenses more carefully."] ∧
    exceededNotification foodBudget ∈ Rounded.checkBudgetStatus binary64 exactStore 7 ∧
    (Rounded.getBudgetRecommendations binary64 (fun _ => "100") exactStore 7)[0]? =
      some (overHalfRecommendation foodBudget) ∧
    Rounded.budgetTotalSpent binary64 smallStore 7 (plainBudget (binary64 (17 / 10))) ≠
      (plainBudget (binary64 (17 / 10))).amount ∧
    Rounded.checkBudgetStatus binary64 smallStore 7 = ["Budget exceeded for Food!"] :=
  have h := (budget_boundaries_differ (fun _ => "100") exactStore 7 foodBudget 0 rfl).1
    (by decide!) (by decide!)
  ⟨by decide!, by decide!, h.2.1, h.2.2.1, by decide!, by decide!⟩

/-! ## Monthly budget usage on rounded numbers -/

theorem rounded_foldl_totalsStep (rnd : ℚ → ℚ) (l : List Transaction) (a b : ℚ) :
    (l.foldl (Rounded.totalsStep rnd) (a, b)).2 =
      (l.filter (fun tx => decide (tx.type = TxType.expense))).foldl
        (fun sum tx => rnd (sum + tx.amount)) b := by
  induction l generalizing a b with
  | nil => rfl
  | cons tx rest ih =>
    rw [List.foldl_cons]
    by_cases h : tx.type = TxType.expense
    · have hstep : Rounded.totalsStep rnd (a, b) tx =
          ((Rounded.totalsStep rnd (a, b) tx).1, rnd (b + tx.amount)) := by
        simp [Rounded.totalsStep, h]
      rw [hstep, ih]
      simp [List.filter_cons, h]
    · have hstep : Rounded.totalsStep rnd (a, b) tx =
          ((Rounded.totalsStep rnd (a, b) tx).1, b) := by
        simp [Rounded.totalsStep, h]
      rw [hstep, ih]
      simp [List.filter_cons, h]

/-- The value `totalExpenses` of `calculateMonthlyBudget`: the amounts of the
stored expenses dated inside the window, added up from 0 in stored order. -/
theorem rounded_calculateMonthlyBudget_totalExpenses (rnd : ℚ → ℚ) (render : ℚ → String)
    (s : Store) (budget : ℚ) (month year : Int) :
    (Rounded.calculateMonthlyBudget rnd render s budget month year).totalExpenses =
      (s.transactions.filter (fun tx =>
        decide ((monthlyWindow month year).1 ≤ tx.date ∧ tx.date ≤ (monthlyWindow month year).2 ∧
          tx.type = TxType.expense))).foldl (fun sum tx => rnd (sum + tx.amount)) 0 := by
  unfold Rounded.calculateMonthlyBudget Transaction.find
  simp only [rounded_foldl_totalsStep, List.filter_filter]
  congr 1
  apply List.filter_congr
  intro tx _
  rw [monthlyQuery_matches, Bool.eq_iff_iff]
  simp only [Bool.and_eq_true, decide_eq_true_eq]
  tauto

/-- With exact arithmetic `calculateMonthlyBudget` on rounded numbers is the
function of the first section. -/
theorem rounded_calculateMonthlyBudget_exact (render : ℚ → String) (s : Store) (budget : ℚ)
    (month year : Int) :
    Rounded.calculateMonthlyBudget id render s budget month year =
      calculateMonthlyBudget render s budget month year := rfl

/-- C17. With `totalExpenses` the amounts of the expenses dated inside the window,
added up as the program adds them, and `remainingBudget = budget - totalExpenses`
as the program computes it, the recommendation of `calculateMonthlyBudget` is the
exceeded text with the overage `X = |remainingBudget|`, a positive number, when
`remainingBudget < 0`; otherwise the nearing text when
`remainingBudget < 0.2 * budget`; otherwise the within-budget text; the three
texts differ from one another, so exactly one of them is returned. When the
rounding is symmetric about zero, as it is in binary64, the overage `X` is
`totalExpenses - budget` as the program would compute it. -/
theorem calculateMonthlyBudget_recommendation (rnd : ℚ → ℚ) (render : ℚ → String) (s : Store)
    (budget : ℚ) (month year : Int) :
    (Rounded.calculateMonthlyBudget rnd render s budget month year).totalExpenses =
      (s.transactions.filter (fun tx =>
        decide ((monthlyWindow month year).1 ≤ tx.date ∧ tx.date ≤ (monthlyWindow month year).2 ∧
          tx.type = TxType.expense))).foldl (fun sum tx => rnd (sum + tx.amount)) 0 ∧
    (Rounded.calculateMonthlyBudget rnd render s budget month year).remainingBudget =
      rnd (budget -
        (Rounded.calculateMonthlyBudget rnd render s budget month year).totalExpenses) ∧
    (Rounded.calculateMonthlyBudget rnd render s budget month year).recommendation =
      (if (Rounded.calculateMonthlyBudget rnd render s budget month year).remainingBudget < 0 then
        exceededByText (render
          |(Rounded.calculateMonthlyBudget rnd render s budget month year).remainingBudget|)
      else if (Rounded.calculateMonthlyBudget rnd render s budget month year).remainingBudget <
          rnd (budget * rnd 0.2) then
        nearingLimitText (render
          (Rounded.calculateMonthlyBudget rnd render s budget month year).remainingBudget)
      else withinBudgetText) ∧
    ((Rounded.calculateMonthlyBudget rnd render s budget month year).remainingBudget < 0 →
      0 < |(Rounded.calculateMonthlyBudget rnd render s budget month year).remainingBudget|) ∧
    ((∀ x, rnd (-x) = -rnd x) →
      (Rounded.calculateMonthlyBudget rnd render s budget month year).remainingBudget < 0 →
      |(Rounded.calculateMonthlyBudget rnd render s budget month year).remainingBudget| =
        rnd ((Rounded.calculateMonthlyBudget rnd render s budget month year).totalExpenses -
          budget)) ∧
    (∀ x y : String, exceededByText x ≠ nearingLimitText y ∧
      exceededByText x ≠ withinBudgetText ∧ nearingLimitText y ≠ withinBudgetText) := by
  have hrem : (Rounded.calculateMonthlyBudget rnd render s budget month year).remainingBudget =
      rnd (budget -
        (Rounded.calculateMonthlyBudget rnd render s budget month year).totalExpenses) := rfl
  have hrec : (Rounded.calculateMonthlyBudget rnd render s budget month year).recommendation =
      (if decide ((Rounded.calculateMonthlyBudget rnd render s budget month year).remainingBudget
          < 0) = true
        then exceededByText (render
          |(Rounded.calculateMonthlyBudget rnd render s budget month year).remainingBudget|)
      else if (Rounded.calculateMonthlyBudget rnd render s budget month year).remainingBudget <
          rnd (budget * rnd 0.2) then
        nearingLimitText (render
          (Rounded.calculateMonthlyBudget rnd render s budget month year).remainingBudget)
      else withinBudgetText) := rfl
  refine ⟨rounded_calculateMonthlyBudget_totalExpenses rnd render s budget month year, hrem,
    ?_, ?_, ?_, fun x y => ⟨exceededBy_ne_nearingLimit x y, exceededBy_ne_within x,
      nearingLimit_ne_within y⟩⟩
  · rw [hrec]
    by_cases h : (Rounded.calculateMonthlyBudget rnd render s budget month year).remainingBudget
        < 0
    · simp only [h, decide_True, if_true]
    · simp only [h, decide_False, Bool.false_eq_true, if_false]
  · intro h
    exact abs_pos.2 (ne_of_lt h)
  · intro hsym h
    rw [abs_of_neg h, hrem, ← hsym]
    congr 1
    ring

/-- C17 on samples in binary64. Against the March 2025 expenses of 300 and 220, a
budget of 500 is exceeded by 20, a budget of 600 is nearly used up (80 left, below
120) and a budget of 1000 has room. A budget of 9 against one expense of 7.2
leaves 1.7999999999999998, below `9 * 0.2 = 1.8`: the text is the nearing one. -/
theorem calculateMonthlyBudget_recommendation_witness :
    (Rounded.calculateMonthlyBudget binary64 (fun _ => "20") marchStore 500 3 2025).recommendation =
      "Budget exceeded by 20. Consider reducing expenses in non-essential categories." ∧
    |(Rounded.calculateMonthlyBudget binary64 (fun _ => "20") marchStore 500 3 2025).remainingBudget|
      = 20 ∧
    |(Rounded.calculateMonthlyBudget binary64 (fun _ => "20") marchStore 500 3 2025).remainingBudget|
      = binary64
        ((Rounded.calculateMonthlyBudget binary64 (fun _ => "20") marchStore 500 3 2025).totalExpenses
          - 500) ∧
    (Rounded.calculateMonthlyBudget binary64 (fun _ => "80") marchStore 600 3 2025).recommendation =
      "You are nearing your budget limit. Remaining: 80" ∧
    (Rounded.calculateMonthlyBudget binary64 (fun _ => "480") marchStore 1000 3 2025).recommendation =
      "You are within budget!" ∧
    (Rounded.calculateMonthlyBudget binary64 (fun _ => "1.7999999999999998") nineStore 9 3
        2025).remainingBudget = binary64 (18 / 10) - 1 / 4503599627370496 ∧
    binary64 (9 * binary64 0.2) = binary64 (18 / 10) ∧
    (Rounded.calculateMonthlyBudget binary64 (fun _ => "1.7999999999999998") nineStore 9 3
        2025).recommendation =
      "You are nearing your budget limit. Remaining: 1.7999999999999998" :=
  have h := calculateMonthlyBudget_recommendation binary64 (fun _ => "20") marchStore 500 3 2025
  ⟨by decide!, by decide!, h.2.2.2.2.1 binary64_neg (by decide!), by decide!, by decide!,
    by decide!, by decide!, by decide!⟩

/-! ## Aggregations on rounded numbers -/

/-- With exact arithmetic the aggregations on rounded numbers are the functions of
the first section. -/
theorem rounded_aggregations_exact (s : Store) (userId : ObjectId) (filters : ReportFilters) :
    Rounded.getSpendingTrends id s userId filters = getSpendingTrends s userId filters ∧
      Rounded.getIncomeVsExpenses id s userId filters =
        getIncomeVsExpenses s userId filters := by
  have hstep : ∀ {κ : Type} [DecidableEq κ] (key : Transaction → κ),
      Rounded.groupStep id key = groupStep key := by
    intro κ _ key
    funext groups tx
    rfl
  constructor
  · unfold Rounded.getSpendingTrends getSpendingTrends Rounded.groupSum groupSum
    rw [hstep]
  · unfold Rounded.getIncomeVsExpenses getIncomeVsExpenses Rounded.groupSum groupSum
    rw [hstep]

/-- C27, refuted as stated. User 7 has an expense of 0.99 in January and expenses
of 2.77 and 2.04 in February. In binary64 the trends are 0.99 for January and
4.8100000000000005 for February, and the expense total is 5.8. The sum of the two
trend entries is not 5.8, neither as a sum of the two numbers nor as the rounded
sum 5.800000000000001 that a JavaScript addition gives. The two totals do not
depend on how the three amounts are added up: 5.8 is also the exact sum of the
three amounts rounded once, and the February total is one rounded addition. -/
theorem trends_sum_counterexample :
    binary64 (binary64 (99 / 100) + binary64 (277 / 100) + binary64 (204 / 100)) =
      binary64 (58 / 10) ∧
    binary64 (binary64 (277 / 100) + binary64 (204 / 100)) =
      binary64 (481 / 100) + 1 / 1125899906842624 ∧
    Rounded.getSpendingTrends binary64 pennyStore 7 noFilter =
      [{ _id := 1, totalSpent := binary64 (99 / 100) },
        { _id := 2, totalSpent := binary64 (481 / 100) + 1 / 1125899906842624 }] ∧
    (Rounded.getIncomeVsExpenses binary64 pennyStore 7 noFilter).expense = binary64 (58 / 10) ∧
    ((Rounded.getSpendingTrends binary64 pennyStore 7 noFilter).map TrendEntry.totalSpent).sum ≠
      (Rounded.getIncomeVsExpenses binary64 pennyStore 7 noFilter).expense ∧
    ((Rounded.getSpendingTrends binary64 pennyStore 7 noFilter).map TrendEntry.totalSpent).foldl
        (fun sum x => binary64 (sum + x)) 0 =
      binary64 (58 / 10) + 1 / 1125899906842624 ∧
    ((Rounded.getSpendingTrends binary64 pennyStore 7 noFilter).map TrendEntry.totalSpent).foldl
        (fun sum x => binary64 (sum + x)) 0 ≠
      (Rounded.getIncomeVsExpenses binary64 pennyStore 7 noFilter).expense := by
  decide!


/-! ## Aggregations on rounded numbers: whole amounts are added exactly -/

theorem log2Aux_le (fuel : Nat) : ∀ (n k : Nat), n < 2 ^ (k + 1) → log2Aux fuel n ≤ k := by
  induction fuel with
  | zero => intro n k _; simp [log2Aux]
  | succ fuel ih =>
    intro n k h
    unfold log2Aux
    split
    · exact Nat.zero_le k
    · next hn =>
      cases k with
      | zero => omega
      | succ k =>
        have h2 : n / 2 < 2 ^ (k + 1) := by
          rw [Nat.div_lt_iff_lt_mul (by norm_num)]
          calc n < 2 ^ (k + 1 + 1) := h
            _ = 2 ^ (k + 1) * 2 := by ring
        have := ih (n / 2) k h2
        omega

theorem floorLog2_le (n d : Nat) : floorLog2 n d ≤ (log2Aux n n : Int) := by
  unfold floorLog2
  simp only []
  split <;> omega

theorem roundHalfEven_one (n : Nat) : roundHalfEven n 1 = n := by
  simp [roundHalfEven, Nat.mod_one]

/-- A whole number below `2 ^ 53` is a binary64 value. -/
theorem binary64_natCast (n : Nat) (h : n < 2 ^ 53) : binary64 (n : ℚ) = n := by
  rcases Nat.eq_zero_or_pos n with h0 | h0
  · subst h0; simp [binary64]
  · have hq : (0 : ℚ) < (n : ℚ) := by exact_mod_cast h0
    unfold binary64
    rw [if_neg (ne_of_gt hq), if_neg (not_lt.2 (le_of_lt hq)), one_mul]
    have hnum : (n : ℚ).num.natAbs = n := by simp
    have hden : (n : ℚ).den = 1 := by simp
    rw [hnum, hden]
    unfold roundPos
    simp only []
    have hl : floorLog2 n 1 ≤ 52 := by
      have h1 := floorLog2_le n 1
      have h2 := log2Aux_le n n 52 h
      omega
    generalize floorLog2 n 1 = l at hl
    have he : ¬ (0 ≤ max (l - 52) (-1074)) ∨ max (l - 52) (-1074) = 0 := by
      rcases lt_or_eq_of_le hl with h' | h'
      · left
        have : max (l - 52) (-1074) < 0 := max_lt (by omega) (by norm_num)
        omega
      · right
        subst h'
        simp
    rcases he with he | he
    · rw [if_neg he]
      have hneg : 0 ≤ -max (l - 52) (-1074) := by omega
      obtain ⟨k, hk⟩ := Int.eq_ofNat_of_zero_le hneg
      have hek : max (l - 52) (-1074) = -(k : ℤ) := by omega
      rw [hk, hek, roundHalfEven_one]
      simp only [Int.toNat_ofNat, zpow_neg, zpow_natCast]
      push_cast
      have h2 : ((2 : ℚ) ^ k) ≠ 0 := by positivity
      field_simp
    · rw [he]
      simp [roundHalfEven_one]

/-- When the amounts are whole numbers and `rnd` keeps the whole numbers below
`bound`, a `$group` stage whose accumulators and remaining amounts stay below
`bound` computes the exact sums. -/
theorem rounded_foldl_groupStep_whole {κ : Type} [DecidableEq κ] (rnd : ℚ → ℚ) (bound : ℚ)
    (hfix : ∀ n : Nat, (n : ℚ) < bound → rnd n = n) (key : Transaction → κ)
    (docs : List Transaction) :
    ∀ groups : List (κ × ℚ),
      (∀ tx ∈ docs, ∃ a : Nat, tx.amount = a) →
      (docs.map Transaction.amount).sum < bound →
      (∀ g ∈ groups, ∃ n : Nat, g.2 = n ∧ g.2 + (docs.map Transaction.amount).sum < bound) →
      docs.foldl (Rounded.groupStep rnd key) groups = docs.foldl (groupStep key) groups := by
  induction docs with
  | nil => intro groups _ _ _; rfl
  | cons tx rest ih =>
    intro groups hnat hsum hinv
    obtain ⟨a, ha⟩ := hnat tx (List.mem_cons_self _ _)
    have hrest : ∀ t ∈ rest, ∃ b : Nat, t.amount = b :=
      fun t ht => hnat t (List.mem_cons_of_mem _ ht)
    have hnonneg : 0 ≤ (rest.map Transaction.amount).sum := by
      apply List.sum_nonneg
      intro x hx
      obtain ⟨t, ht, rfl⟩ := List.mem_map.1 hx
      obtain ⟨b, hb⟩ := hrest t ht
      rw [hb]
      exact Nat.cast_nonneg b
    have ha0 : (0 : ℚ) ≤ (a : ℚ) := Nat.cast_nonneg a
    rw [List.map_cons, List.sum_cons, ha] at hsum
    have hstep : Rounded.groupStep rnd key groups tx = groupStep key groups tx := by
      unfold Rounded.groupStep groupStep
      have hnew : rnd (0 + tx.amount) = 0 + tx.amount := by
        rw [zero_add, ha]
        exact hfix a (by linarith)
      rw [hnew]
      congr 1
      apply List.map_congr_left
      intro g hg
      obtain ⟨n, hn, hb⟩ := hinv g hg
      rw [List.map_cons, List.sum_cons, ha] at hb
      have : rnd (g.2 + tx.amount) = g.2 + tx.amount := by
        rw [hn, ha]
        have h1 := hfix (n + a) (by push_cast; rw [hn] at hb; linarith)
        push_cast at h1
        exact h1
      rw [this]
    rw [List.foldl_cons, List.foldl_cons, hstep]
    apply ih _ hrest (by linarith)
    intro g hg
    unfold groupStep at hg
    split at hg
    · obtain ⟨g0, hg0, rfl⟩ := List.mem_map.1 hg
      obtain ⟨n, hn, hb⟩ := hinv g0 hg0
      rw [List.map_cons, List.sum_cons, ha] at hb
      split
      · refine ⟨n + a, ?_, ?_⟩
        · simp only []; rw [hn, ha]; push_cast; rfl
        · simp only []; rw [ha]; linarith
      · exact ⟨n, hn, by linarith⟩
    · rcases List.mem_append.1 hg with hg | hg
      · obtain ⟨n, hn, hb⟩ := hinv g hg
        rw [List.map_cons, List.sum_cons, ha] at hb
        exact ⟨n, hn, by linarith⟩
      · rw [List.mem_singleton.1 hg]
        refine ⟨a, ?_, ?_⟩
        · simp only []; rw [ha, zero_add]
        · simp only []; rw [ha]; linarith

/-- The sum of the amounts of a part of a list of whole amounts is at most the sum
of all of them. -/
theorem sum_filter_le (p : Transaction → Bool) (l : List Transaction)
    (hnat : ∀ tx ∈ l, ∃ a : Nat, tx.amount = a) :
    ((l.filter p).map Transaction.amount).sum ≤ (l.map Transaction.amount).sum := by
  induction l with
  | nil => simp
  | cons tx rest ih =>
    have hrest := ih (fun t ht => hnat t (List.mem_cons_of_mem _ ht))
    obtain ⟨a, ha⟩ := hnat tx (List.mem_cons_self _ _)
    have ha0 : (0 : ℚ) ≤ tx.amount := by rw [ha]; exact Nat.cast_nonneg a
    by_cases hp : p tx = true
    · simp only [List.filter_cons, hp, if_true, List.map_cons, List.sum_cons]
      linarith
    · simp only [List.filter_cons, hp, Bool.false_eq_true, if_false, List.map_cons,
        List.sum_cons]
      linarith

/-- C27, amended. With exact addition (amounts taken as exact rationals), the sum
of `totalSpent` over the entries of `getSpendingTrends` equals the `expense` value
of `getIncomeVsExpenses` for the same user and filter on the same store. In
binary64 the same holds when every addition is exact: when the matching
transactions of the user have whole amounts that add up to less than `2 ^ 53`,
both functions return what they return with exact addition, and the sum of
`totalSpent` equals `expense`. -/
theorem trends_sum_eq_expense (s : Store) (userId : ObjectId) (filters : ReportFilters) :
    ((Rounded.getSpendingTrends id s userId filters).map TrendEntry.totalSpent).sum =
      (Rounded.getIncomeVsExpenses id s userId filters).expense ∧
    ((∀ tx ∈ s.transactions, (incomeVsExpensesMatch userId filters).matches tx = true →
        ∃ a : Nat, tx.amount = a) →
      ((s.transactions.filter (incomeVsExpensesMatch userId filters).matches).map
        Transaction.amount).sum < 2 ^ 53 →
      Rounded.getSpendingTrends binary64 s userId filters =
        Rounded.getSpendingTrends id s userId filters ∧
      Rounded.getIncomeVsExpenses binary64 s userId filters =
        Rounded.getIncomeVsExpenses id s userId filters ∧
      ((Rounded.getSpendingTrends binary64 s userId filters).map TrendEntry.totalSpent).sum =
        (Rounded.getIncomeVsExpenses binary64 s userId filters).expense) := by
  have hexact := rounded_aggregations_exact s userId filters
  have hsumexact : ((Rounded.getSpendingTrends id s userId filters).map
      TrendEntry.totalSpent).sum = (Rounded.getIncomeVsExpenses id s userId filters).expense := by
    rw [hexact.1, hexact.2]
    exact trends_sum_exact s userId filters
  refine ⟨hsumexact, ?_⟩
  intro hnat hsum
  have hfix : ∀ n : Nat, (n : ℚ) < 2 ^ 53 → binary64 n = n := by
    intro n hn
    exact binary64_natCast n (by exact_mod_cast hn)
  have hnatI : ∀ tx ∈ s.transactions.filter (incomeVsExpensesMatch userId filters).matches,
      ∃ a : Nat, tx.amount = a := by
    intro tx htx
    rw [List.mem_filter] at htx
    exact hnat tx htx.1 htx.2
  have hT : s.transactions.filter (trendsMatch userId filters).matches =
      (s.transactions.filter (incomeVsExpensesMatch userId filters).matches).filter
        (fun tx => decide (tx.type = TxType.expense)) := by
    rw [List.filter_filter]
    apply List.filter_congr
    intro tx _
    rw [trendsMatch_eq, Bool.and_comm]
  have hnatT : ∀ tx ∈ s.transactions.filter (trendsMatch userId filters).matches,
      ∃ a : Nat, tx.amount = a := by
    intro tx htx
    rw [hT] at htx
    exact hnatI tx (List.mem_of_mem_filter htx)
  have hsumT : ((s.transactions.filter (trendsMatch userId filters).matches).map
      Transaction.amount).sum < 2 ^ 53 := by
    rw [hT]
    exact lt_of_le_of_lt (sum_filter_le _ _ hnatI) hsum
  have h1 : Rounded.getSpendingTrends binary64 s userId filters =
      Rounded.getSpendingTrends id s userId filters := by
    rw [hexact.1]
    unfold Rounded.getSpendingTrends getSpendingTrends Rounded.groupSum groupSum
    simp only []
    rw [rounded_foldl_groupStep_whole binary64 (2 ^ 53) hfix _ _ [] hnatT hsumT
      (fun g hg => absurd hg (List.not_mem_nil g))]
  have h2 : Rounded.getIncomeVsExpenses binary64 s userId filters =
      Rounded.getIncomeVsExpenses id s userId filters := by
    rw [hexact.2]
    unfold Rounded.getIncomeVsExpenses getIncomeVsExpenses Rounded.groupSum groupSum
    simp only []
    rw [rounded_foldl_groupStep_whole binary64 (2 ^ 53) hfix _ _ [] hnatI hsum
      (fun g hg => absurd hg (List.not_mem_nil g))]
  exact ⟨h1, h2, by rw [h1, h2]; exact hsumexact⟩

/-- The equality of C27 on the sample ledger, whose amounts are whole numbers: in
binary64 the trends 570 and 40 of user 7 add up to the expense total 610. -/
theorem trends_sum_eq_expense_witness :
    Rounded.getSpendingTrends binary64 trendStore 7 noFilter =
      [{ _id := 3, totalSpent := 570 }, { _id := 4, totalSpent := 40 }] ∧
    (Rounded.getIncomeVsExpenses binary64 trendStore 7 noFilter).expense = 610 ∧
    ((Rounded.getSpendingTrends binary64 trendStore 7 noFilter).map TrendEntry.totalSpent).sum =
      (Rounded.getIncomeVsExpenses binary64 trendStore 7 noFilter).expense :=
  have hnat : ∀ tx ∈ trendStore.transactions,
      (incomeVsExpensesMatch 7 noFilter).matches tx = true → ∃ a : Nat, tx.amount = a := by
    intro tx htx _
    simp only [trendStore, List.mem_cons, List.mem_singleton, List.not_mem_nil, or_false] at htx
    rcases htx with rfl | rfl | rfl | rfl | rfl | rfl
    · exact ⟨300, by simp [foodExpense]⟩
    · exact ⟨40, by simp [foodExpense]⟩
    · exact ⟨220, by simp [foodExpense]⟩
    · exact ⟨50, by simp [foodExpense]⟩
    · exact ⟨1000, by simp⟩
    · exact ⟨500, by simp [rentOfOtherUser]⟩
  ⟨by decide!, by decide!,
    ((trends_sum_eq_expense trendStore 7 noFilter).2 hnat (by decide!)).2.2⟩


end FinanceTracker
